import Mathlib

/-!
# Tiled image viewer (`script.js`): viewport engine

A shallow embedding of the pan/zoom/tile logic of `script.js`.

Modelling conventions
* JavaScript numbers are exact rationals (`ℚ`): rounding of IEEE doubles is not
  modelled.  Every division of the script divides by `viewState.scale`, by
  `imageConfig.height`, by `imageConfig.tileSize`, by `2` or by the animation
  duration; the theorems state `0 < scale` wherever a division by the scale
  matters.
* `Math.sqrt` and `Math.pow` with the exponent `1.2` are not rational functions;
  they are taken as the parameter `MathFns`.  `Math.pow (x, 3)` is the cube.
* `Date.now ()` is an integer number of milliseconds, read once per handler and
  passed as the argument `now`.
* Cursor styles and `preventDefault` have no effect on the state and are left
  out.
* The DOM container is the record `Container`, read by every handler.
* A tile id is the pair `(x, y)`; the script's key is the string `x-y`, which
  determines the pair.
* The mutable globals of the script (`viewState`, `animationFrameId`, the
  loading indicator, the transform written to the surface) and the list of
  image requests issued so far form the record `World`; every function of the
  script is a function on `World`.
-/

namespace TileViewer

/-- The record `imageConfig` of the script (numeric fields). -/
structure ImageConfig where
  width : ℚ
  height : ℚ
  tileSize : ℚ

/-- The constant `imageConfig`: a 15000 x 3750 image cut into 1000 px tiles. -/
def imageConfig : ImageConfig :=
  { width := 15000, height := 3750, tileSize := 1000 }

/-- Number of tile columns: `Math.ceil (width / tileSize)`. -/
def tilesX : ℤ := ⌈imageConfig.width / imageConfig.tileSize⌉

/-- Number of tile rows: `Math.ceil (height / tileSize)`. -/
def tilesY : ℤ := ⌈imageConfig.height / imageConfig.tileSize⌉

/-- The functions of `Math` that leave the rationals. -/
structure MathFns where
  sqrt : ℚ → ℚ
  pow : ℚ → ℚ → ℚ

/-- What the script reads from `imageViewer.parentElement`: its size and the
top-left corner of its bounding client rectangle. -/
structure Container where
  offsetWidth : ℚ
  offsetHeight : ℚ
  left : ℚ
  top : ℚ

/-- Grid coordinates of a tile. -/
abbrev TileId := ℤ × ℤ

/-- What a tile element shows. -/
inductive TileContent where
  | blank
  | image
  | error
  deriving DecidableEq, Repr

/-- The `div` created for a tile: its rectangle, whether it is in the DOM
(`parentNode`), and its content. -/
structure TileElement where
  left : ℚ
  top : ℚ
  width : ℚ
  height : ℚ
  parentNode : Bool
  content : TileContent

/-- The object `viewState` of the script, field by field. -/
structure ViewState where
  scale : ℚ
  translateX : ℚ
  translateY : ℚ
  targetTranslateX : ℚ
  targetTranslateY : ℚ
  targetScale : ℚ
  isDragging : Bool
  isAnimating : Bool
  startX : ℚ
  startY : ℚ
  lastUpdateTime : ℤ
  loadedTiles : List TileId
  visibleTiles : List TileId
  tileElements : TileId → Option TileElement
  dragDistance : ℚ
  isPinching : Bool
  initialPinchDistance : ℚ
  pinchCenterX : ℚ
  pinchCenterY : ℚ
  pinchImageX : ℚ
  pinchImageY : ℚ
  lastTapTime : ℤ

/-- The closure of the frame callback `animate` created by
`startBoundaryAnimation`: the captured constants. -/
structure Animation where
  startTime : ℤ
  startX : ℚ
  startY : ℚ
  startScale : ℚ
  targetX : ℚ
  targetY : ℚ
  targetScale : ℚ

/-- All mutable state of the script.  `animationFrameId` holds the frame
callback that is currently scheduled (if any); `transform` is the last
transform written by `updateViewTransform` as (translateX, translateY, scale);
`loadingIndicator` is true when the indicator is displayed; `requests` lists
the tiles whose image has been requested (`img.src = imgUrl`), oldest first.
One optional callback is enough: the script schedules a callback only in
`startBoundaryAnimation` and in the callback itself, and cancels the scheduled
one whenever `isAnimating` is true, which holds for as long as a callback is
scheduled (`scheduled_implies_animating`). -/
structure World where
  viewState : ViewState
  animationFrameId : Option Animation
  transform : ℚ × ℚ × ℚ
  loadingIndicator : Bool
  requests : List TileId

/-- A touch point of a touch event. -/
structure Touch where
  clientX : ℚ
  clientY : ℚ

/-- The literal that initialises `viewState`. -/
def initialViewState : ViewState :=
  { scale := 1/5, translateX := 0, translateY := 0,
    targetTranslateX := 0, targetTranslateY := 0, targetScale := 1/5,
    isDragging := false, isAnimating := false, startX := 0, startY := 0,
    lastUpdateTime := 0, loadedTiles := [], visibleTiles := [],
    tileElements := fun _ => none, dragDistance := 0, isPinching := false,
    initialPinchDistance := 0, pinchCenterX := 0, pinchCenterY := 0,
    pinchImageX := 0, pinchImageY := 0, lastTapTime := 0 }

/-- The state when the script starts running. -/
def initialWorld : World :=
  { viewState := initialViewState, animationFrameId := none,
    transform := (0, 0, 1), loadingIndicator := true, requests := [] }

/-- `Set.prototype.add` on a set kept as a list without repetition. -/
def setAdd (s : List TileId) (id : TileId) : List TileId :=
  if id ∈ s then s else s ++ [id]

/-- `updateViewTransform`: write the current transform to the surface. -/
def updateViewTransform (w : World) : World :=
  { w with transform := (w.viewState.translateX, w.viewState.translateY, w.viewState.scale) }

/-- `easeOutCubic`. -/
def easeOutCubic (t : ℚ) : ℚ := 1 - (1 - t) ^ 3

/-- True when every visible tile is in `loadedTiles`. -/
def allVisibleLoaded (v : ViewState) : Bool :=
  v.visibleTiles.all (fun id => decide (id ∈ v.loadedTiles))

/-- `loadTile (tileX, tileY)`: create the element of a tile and request its
image, unless the tile is loaded or already has an element.  The callbacks
`img.onload` and `img.onerror` are `imgOnload` and `imgOnerror`. -/
def loadTile (tileX tileY : ℤ) (w : World) : World :=
  let tileId : TileId := (tileX, tileY)
  if tileId ∈ w.viewState.loadedTiles ∨ (w.viewState.tileElements tileId).isSome then w
  else
    let left : ℚ := tileX * imageConfig.tileSize
    let top : ℚ := tileY * imageConfig.tileSize
    let width := min imageConfig.tileSize (imageConfig.width - left)
    let height := min imageConfig.tileSize (imageConfig.height - top)
    let tileElement : TileElement :=
      { left := left, top := top, width := width, height := height,
        parentNode := true, content := TileContent.blank }
    { w with
      viewState := { w.viewState with
        tileElements := fun id => if id = tileId then some tileElement
                                  else w.viewState.tileElements id }
      requests := w.requests ++ [tileId] }

/-- The callback `img.onload` of the tile `tileId`. -/
def imgOnload (tileId : TileId) (w : World) : World :=
  let v := w.viewState
  let v1 : ViewState := { v with
    tileElements := fun id => if id = tileId
      then (v.tileElements id).map (fun el => { el with content := TileContent.image })
      else v.tileElements id
    loadedTiles := setAdd v.loadedTiles tileId }
  { w with viewState := v1
           loadingIndicator := if allVisibleLoaded v1 then false else w.loadingIndicator }

/-- The callback `img.onerror` of the tile `tileId`. -/
def imgOnerror (tileId : TileId) (w : World) : World :=
  let v := w.viewState
  { w with viewState := { v with
      tileElements := fun id => if id = tileId
        then (v.tileElements id).map (fun el => { el with content := TileContent.error })
        else v.tileElements id
      loadedTiles := setAdd v.loadedTiles tileId } }

/-- The integers `a, a+1, ..., b-1`, the values taken by a loop variable. -/
def intRange (a b : ℤ) : List ℤ :=
  (List.range (b - a).toNat).map (fun (i : ℕ) => a + (i : ℤ))

/-- The image-space rectangle seen through the container, as computed by
`updateVisibleTiles`: (visibleLeft, visibleTop, visibleRight, visibleBottom). -/
def visibleRect (c : Container) (v : ViewState) : ℚ × ℚ × ℚ × ℚ :=
  let visibleLeft := max 0 (-v.translateX / v.scale)
  let visibleTop := max 0 (-v.translateY / v.scale)
  let visibleRight := min imageConfig.width ((c.offsetWidth - v.translateX) / v.scale)
  let visibleBottom := min imageConfig.height ((c.offsetHeight - v.translateY) / v.scale)
  (visibleLeft, visibleTop, visibleRight, visibleBottom)

/-- The visible rectangle grown by one tile on every side and cut to the
image: (bufferedLeft, bufferedTop, bufferedRight, bufferedBottom). -/
def bufferedRect (c : Container) (v : ViewState) : ℚ × ℚ × ℚ × ℚ :=
  let (visibleLeft, visibleTop, visibleRight, visibleBottom) := visibleRect c v
  let bufferSize := imageConfig.tileSize * 1
  let bufferedLeft := max 0 (visibleLeft - bufferSize)
  let bufferedTop := max 0 (visibleTop - bufferSize)
  let bufferedRight := min imageConfig.width (visibleRight + bufferSize)
  let bufferedBottom := min imageConfig.height (visibleBottom + bufferSize)
  (bufferedLeft, bufferedTop, bufferedRight, bufferedBottom)

/-- The tiles visited by the two nested loops of `updateVisibleTiles`, in the
order of the visits (rows outside, columns inside). -/
def visibleTileRange (c : Container) (v : ViewState) : List TileId :=
  let (bufferedLeft, bufferedTop, bufferedRight, bufferedBottom) := bufferedRect c v
  let startTileX : ℤ := ⌊bufferedLeft / imageConfig.tileSize⌋
  let startTileY : ℤ := ⌊bufferedTop / imageConfig.tileSize⌋
  let endTileX : ℤ := ⌈bufferedRight / imageConfig.tileSize⌉
  let endTileY : ℤ := ⌈bufferedBottom / imageConfig.tileSize⌉
  (intRange startTileY (min endTileY tilesY)).flatMap (fun y =>
    (intRange startTileX (min endTileX tilesX)).map (fun x => (x, y)))

/-- The body of the inner loop of `updateVisibleTiles` for the tile `(x, y)`. -/
def visitTile (w : World) (id : TileId) : World :=
  let w1 : World := { w with
    viewState := { w.viewState with visibleTiles := setAdd w.viewState.visibleTiles id } }
  if id ∉ w1.viewState.loadedTiles then loadTile id.1 id.2 w1
  else
    match w1.viewState.tileElements id with
    | some el =>
      if el.parentNode then w1
      else { w1 with viewState := { w1.viewState with
              tileElements := fun j => if j = id then some { el with parentNode := true }
                                       else w1.viewState.tileElements j } }
    | none => w1

/-- The forced clean-up of `updateVisibleTiles`: every element whose id is not
visible is removed from the DOM; its entry stays in `tileElements`. -/
def detachInvisible (v : ViewState) : ViewState :=
  { v with tileElements := fun id =>
      (v.tileElements id).map (fun el =>
        if id ∉ v.visibleTiles ∧ el.parentNode = true then { el with parentNode := false }
        else el) }

/-- `updateVisibleTiles (forceUpdate)`. -/
def updateVisibleTiles (c : Container) (forceUpdate : Bool) (w : World) : World :=
  let w1 : World := if forceUpdate then { w with loadingIndicator := true } else w
  let oldVisibleTiles := w1.viewState.visibleTiles
  let w2 : World := { w1 with viewState := { w1.viewState with visibleTiles := [] } }
  let w3 : World := (visibleTileRange c w1.viewState).foldl visitTile w2
  let w4 : World := if forceUpdate then { w3 with viewState := detachInvisible w3.viewState } else w3
  let hasNewVisibleTiles : Bool :=
    w4.viewState.visibleTiles.any (fun id => decide (id ∉ oldVisibleTiles))
  if forceUpdate || hasNewVisibleTiles then
    if allVisibleLoaded w4.viewState then { w4 with loadingIndicator := false } else w4
  else { w4 with loadingIndicator := false }

/-- `startBoundaryAnimation`: cancel the scheduled frame (if animating), set
`isAnimating`, capture start and target values and schedule `animate`. -/
def startBoundaryAnimation (now : ℤ) (w : World) : World :=
  let w1 : World := if w.viewState.isAnimating then { w with animationFrameId := none } else w
  let v := w1.viewState
  { w1 with
    viewState := { v with isAnimating := true }
    animationFrameId := some
      { startTime := now, startX := v.translateX, startY := v.translateY,
        startScale := v.scale, targetX := v.targetTranslateX,
        targetY := v.targetTranslateY, targetScale := v.targetScale } }

/-- One run of the frame callback `animate` with the closure `a` at time `now`. -/
def animate (c : Container) (now : ℤ) (a : Animation) (w : World) : World :=
  let duration : ℚ := 300
  let elapsed : ℤ := now - a.startTime
  let progress := min ((elapsed : ℚ) / duration) 1
  let easeProgress := easeOutCubic progress
  let w1 : World := { w with viewState := { w.viewState with
    translateX := a.startX + (a.targetX - a.startX) * easeProgress
    translateY := a.startY + (a.targetY - a.startY) * easeProgress
    scale := a.startScale + (a.targetScale - a.startScale) * easeProgress } }
  let w2 := updateViewTransform w1
  let w3 := if Int.tmod elapsed 60 < 16 then updateVisibleTiles c false w2 else w2
  if progress < 1 then { w3 with animationFrameId := some a }
  else
    updateVisibleTiles c true
      { w3 with viewState := { w3.viewState with isAnimating := false } }

/-- The browser runs the scheduled frame callback, if there is one. -/
def animationFrame (c : Container) (now : ℤ) (w : World) : World :=
  match w.animationFrameId with
  | some a => animate c now a { w with animationFrameId := none }
  | none => w

/-- The admissible translate range that `checkAndFixBoundaries` computes for
the corrected scale: (minTranslateX, maxTranslateX, minTranslateY,
maxTranslateY).  A narrow image is centred horizontally; an image that is not
taller than the container is pinned to the top. -/
def translateBounds (c : Container) (targetScale : ℚ) : ℚ × ℚ × ℚ × ℚ :=
  let containerWidth := c.offsetWidth
  let containerHeight := c.offsetHeight
  let targetScaledWidth := imageConfig.width * targetScale
  let targetScaledHeight := imageConfig.height * targetScale
  let minTranslateX := if targetScaledWidth ≤ containerWidth
    then (containerWidth - targetScaledWidth) / 2 else containerWidth - targetScaledWidth
  let maxTranslateX := if targetScaledWidth ≤ containerWidth
    then (containerWidth - targetScaledWidth) / 2 else 0
  let minTranslateY := if targetScaledHeight ≤ containerHeight
    then 0 else containerHeight - targetScaledHeight
  let maxTranslateY : ℚ := 0
  (minTranslateX, maxTranslateX, minTranslateY, maxTranslateY)

/-- The values computed by `checkAndFixBoundaries` before it compares them
with the state: (targetScale, targetX, targetY). -/
def boundaryTargets (c : Container) (v : ViewState) : ℚ × ℚ × ℚ :=
  let containerWidth := c.offsetWidth
  let containerHeight := c.offsetHeight
  let centerX := if v.isPinching then v.pinchImageX
    else (containerWidth / 2 - v.translateX) / v.scale
  let centerY := if v.isPinching then v.pinchImageY
    else (containerHeight / 2 - v.translateY) / v.scale
  let minScaleForHeight := containerHeight / imageConfig.height
  let scaleChanged : Bool := decide (v.scale < minScaleForHeight)
  let targetScale := if v.scale < minScaleForHeight then minScaleForHeight else v.scale
  let (minTranslateX, maxTranslateX, minTranslateY, maxTranslateY) :=
    translateBounds c targetScale
  let targetX0 := if scaleChanged then containerWidth / 2 - centerX * targetScale
    else v.translateX
  let targetY0 := if scaleChanged then containerHeight / 2 - centerY * targetScale
    else v.translateY
  let targetX := min maxTranslateX (max minTranslateX targetX0)
  let targetY := min maxTranslateY (max minTranslateY targetY0)
  (targetScale, targetX, targetY)

/-- The value `needsCorrection` returned by `checkAndFixBoundaries`. -/
def needsCorrection (c : Container) (v : ViewState) : Bool :=
  let (targetScale, targetX, targetY) := boundaryTargets c v
  decide (targetX ≠ v.translateX) || decide (targetY ≠ v.translateY)
    || decide (targetScale ≠ v.scale)

/-- `checkAndFixBoundaries (animate)`: the state after the call.  The returned
boolean of the script is `needsCorrection`. -/
def checkAndFixBoundaries (c : Container) (now : ℤ) (animate : Bool) (w : World) : World :=
  let (targetScale, targetX, targetY) := boundaryTargets c w.viewState
  if needsCorrection c w.viewState then
    if animate then
      startBoundaryAnimation now
        { w with viewState := { w.viewState with
            targetTranslateX := targetX, targetTranslateY := targetY,
            targetScale := targetScale } }
    else
      updateVisibleTiles c false
        (updateViewTransform
          { w with viewState := { w.viewState with
              translateX := targetX, translateY := targetY, scale := targetScale } })
  else w

/-- The scale and translate update of `handleWheel`, before the transform is
applied and the boundaries are checked.  `mouseX`, `mouseY` are the cursor
coordinates relative to the container. -/
def handleWheelZoom (c : Container) (clientX clientY deltaY : ℚ) (v : ViewState) : ViewState :=
  let mouseX := clientX - c.left
  let mouseY := clientY - c.top
  let beforeZoomX := (mouseX - v.translateX) / v.scale
  let beforeZoomY := (mouseY - v.translateY) / v.scale
  let zoomFactor : ℚ := if deltaY < 0 then 11/10 else 9/10
  let newScale := max (1/20) (min 2 (v.scale * zoomFactor))
  { v with
    scale := newScale
    translateX := v.translateX + (mouseX - (beforeZoomX * newScale + v.translateX))
    translateY := v.translateY + (mouseY - (beforeZoomY * newScale + v.translateY)) }

/-- `handleWheel (event)`. -/
def handleWheel (c : Container) (now : ℤ) (clientX clientY deltaY : ℚ) (w : World) : World :=
  let w1 : World := { w with viewState := handleWheelZoom c clientX clientY deltaY w.viewState }
  checkAndFixBoundaries c now true (updateVisibleTiles c true (updateViewTransform w1))

/-- The scale and translate update of `zoomBy (factor)`, before the transform
is applied and the boundaries are checked. -/
def zoomByZoom (c : Container) (factor : ℚ) (v : ViewState) : ViewState :=
  let centerX := c.offsetWidth / 2
  let centerY := c.offsetHeight / 2
  let beforeZoomX := (centerX - v.translateX) / v.scale
  let beforeZoomY := (centerY - v.translateY) / v.scale
  let newScale := max (1/20) (min 2 (v.scale * factor))
  { v with
    scale := newScale
    translateX := centerX - beforeZoomX * newScale
    translateY := centerY - beforeZoomY * newScale }

/-- `zoomBy (factor)`. -/
def zoomBy (c : Container) (now : ℤ) (factor : ℚ) (w : World) : World :=
  let w1 : World := { w with viewState := zoomByZoom c factor w.viewState }
  checkAndFixBoundaries c now true (updateVisibleTiles c true (updateViewTransform w1))

/-- `resetView`. -/
def resetView (c : Container) (w : World) : World :=
  let v := w.viewState
  let scale := c.offsetHeight / imageConfig.height
  let w1 : World := { w with viewState := { v with
    scale := scale, translateX := 0, translateY := 0,
    targetTranslateX := 0, targetTranslateY := 0, targetScale := scale } }
  updateVisibleTiles c true (updateViewTransform w1)

/-- `startDrag (event)`. -/
def startDrag (button : ℤ) (clientX clientY : ℚ) (w : World) : World :=
  if button ≠ 0 then w
  else
    let w1 : World := if w.viewState.isAnimating
      then { w with animationFrameId := none
                    viewState := { w.viewState with isAnimating := false } }
      else w
    let v := w1.viewState
    { w1 with viewState := { v with
        isDragging := true
        startX := clientX - v.translateX
        startY := clientY - v.translateY
        dragDistance := 0 } }

/-- The pan step shared by `drag` and the one-finger branch of
`handleTouchMove`: follow the pointer, add to the drag distance, and refresh
the tiles when the distance exceeds 50 or 200 ms have passed. -/
def dragTo (m : MathFns) (c : Container) (now : ℤ) (clientX clientY : ℚ) (w : World) : World :=
  let v := w.viewState
  let newTranslateX := clientX - v.startX
  let newTranslateY := clientY - v.startY
  let dx := newTranslateX - v.translateX
  let dy := newTranslateY - v.translateY
  let w1 : World := { w with viewState := { v with
    dragDistance := v.dragDistance + m.sqrt (dx * dx + dy * dy)
    translateX := newTranslateX
    translateY := newTranslateY } }
  let w2 := updateViewTransform w1
  if w2.viewState.dragDistance > 50 ∨ now - w2.viewState.lastUpdateTime > 200 then
    let w3 := updateVisibleTiles c false w2
    { w3 with viewState := { w3.viewState with dragDistance := 0, lastUpdateTime := now } }
  else w2

/-- `drag (event)`. -/
def drag (m : MathFns) (c : Container) (now : ℤ) (clientX clientY : ℚ) (w : World) : World :=
  if w.viewState.isDragging then dragTo m c now clientX clientY w else w

/-- `endDrag`. -/
def endDrag (c : Container) (now : ℤ) (w : World) : World :=
  if w.viewState.isDragging then
    let w1 : World := { w with viewState := { w.viewState with isDragging := false } }
    updateVisibleTiles c true (checkAndFixBoundaries c now true w1)
  else w

/-- The double-tap branch of `handleTouchStart`: choose the target scale and
the target translate around the tap point and start the animation. -/
def doubleTap (c : Container) (now : ℤ) (touch : Touch) (w : World) : World :=
  let v := w.viewState
  let touchX := touch.clientX - c.left
  let touchY := touch.clientY - c.top
  let imageX := (touchX - v.translateX) / v.scale
  let imageY := (touchY - v.translateY) / v.scale
  let fitScale := c.offsetHeight / imageConfig.height
  let largeScale := min 2 (fitScale * (5/2))
  let targetScale := if v.scale < fitScale * (3/2) then largeScale else fitScale
  startBoundaryAnimation now
    { w with viewState := { v with
        lastTapTime := 0
        targetScale := targetScale
        targetTranslateX := touchX - imageX * targetScale
        targetTranslateY := touchY - imageY * targetScale } }

/-- `handleTouchStart (event)`; `touches` is `event.touches`. -/
def handleTouchStart (m : MathFns) (c : Container) (now : ℤ) (touches : List Touch)
    (w : World) : World :=
  let w1 : World := if w.viewState.isAnimating
    then { w with animationFrameId := none
                  viewState := { w.viewState with isAnimating := false } }
    else w
  let v := w1.viewState
  match touches with
  | [touch1, touch2] =>
    let dx := touch1.clientX - touch2.clientX
    let dy := touch1.clientY - touch2.clientY
    let centerX := (touch1.clientX + touch2.clientX) / 2
    let centerY := (touch1.clientY + touch2.clientY) / 2
    let pinchCenterX := centerX - c.left
    let pinchCenterY := centerY - c.top
    { w1 with viewState := { v with
        isPinching := true
        initialPinchDistance := m.sqrt (dx * dx + dy * dy)
        pinchCenterX := pinchCenterX
        pinchCenterY := pinchCenterY
        pinchImageX := (pinchCenterX - v.translateX) / v.scale
        pinchImageY := (pinchCenterY - v.translateY) / v.scale } }
  | [touch] =>
    if v.lastTapTime ≠ 0 ∧ now - v.lastTapTime < 300 then doubleTap c now touch w1
    else
      { w1 with viewState := { v with
          lastTapTime := now
          isDragging := true
          startX := touch.clientX - v.translateX
          startY := touch.clientY - v.translateY
          dragDistance := 0 } }
  | _ => w1

/-- `handleTouchMove (event)`. -/
def handleTouchMove (m : MathFns) (c : Container) (now : ℤ) (touches : List Touch)
    (w : World) : World :=
  let v := w.viewState
  match touches with
  | [touch1, touch2] =>
    if v.isPinching then
      let dx := touch1.clientX - touch2.clientX
      let dy := touch1.clientY - touch2.clientY
      let currentDistance := m.sqrt (dx * dx + dy * dy)
      let scaleFactor := currentDistance / v.initialPinchDistance
      let sensitivityFactor : ℚ := 6/5
      let newScale := max (1/20) (min 2 (v.scale * m.pow scaleFactor sensitivityFactor))
      let w1 : World := { w with viewState := { v with
        scale := newScale
        translateX := v.pinchCenterX - v.pinchImageX * newScale
        translateY := v.pinchCenterY - v.pinchImageY * newScale } }
      let w2 := updateVisibleTiles c false (updateViewTransform w1)
      { w2 with viewState := { w2.viewState with initialPinchDistance := currentDistance } }
    else w
  | [touch] =>
    if v.isDragging then dragTo m c now touch.clientX touch.clientY w else w
  | _ => w

/-- `handleTouchEnd (event)`. -/
def handleTouchEnd (c : Container) (now : ℤ) (w : World) : World :=
  if w.viewState.isPinching then
    let w1 : World := { w with viewState := { w.viewState with isPinching := false } }
    updateVisibleTiles c true (checkAndFixBoundaries c now true w1)
  else if w.viewState.isDragging then
    let w1 : World := { w with viewState := { w.viewState with isDragging := false } }
    updateVisibleTiles c true (checkAndFixBoundaries c now true w1)
  else w

/-- The listener of `resize` (window and visual viewport) and, after its
delay, of `orientationchange`; the new size is the container passed in. -/
def handleResize (c : Container) (w : World) : World :=
  updateVisibleTiles c true (resetView c w)

/-- The start-up sequence at the end of the script: the body of the
start-up function (apply the transform, load the visible tiles), then
`resetView ()`, then `viewState.lastUpdateTime = Date.now ()`. -/
def startup (c : Container) (now : ℤ) : World :=
  let w1 := updateVisibleTiles c true (updateViewTransform initialWorld)
  let w2 := resetView c w1
  { w2 with viewState := { w2.viewState with lastUpdateTime := now } }

/-- What the browser can deliver to the script. -/
inductive Event where
  | mousedown (button : ℤ) (clientX clientY : ℚ)
  | mousemove (clientX clientY : ℚ)
  | mouseup
  | wheel (clientX clientY deltaY : ℚ)
  | zoomIn
  | zoomOut
  | reset
  | touchstart (touches : List Touch)
  | touchmove (touches : List Touch)
  | touchend
  | frame
  | resize
  | imageLoaded (tileId : TileId)
  | imageFailed (tileId : TileId)

/-- The listener table of `registerEventListeners`: the effect of one event
delivered at time `now` while the container is `c`. -/
def step (m : MathFns) (c : Container) (now : ℤ) (e : Event) (w : World) : World :=
  match e with
  | Event.mousedown button clientX clientY => startDrag button clientX clientY w
  | Event.mousemove clientX clientY => drag m c now clientX clientY w
  | Event.mouseup => endDrag c now w
  | Event.wheel clientX clientY deltaY => handleWheel c now clientX clientY deltaY w
  | Event.zoomIn => zoomBy c now (6/5) w
  | Event.zoomOut => zoomBy c now (4/5) w
  | Event.reset => resetView c w
  | Event.touchstart touches => handleTouchStart m c now touches w
  | Event.touchmove touches => handleTouchMove m c now touches w
  | Event.touchend => handleTouchEnd c now w
  | Event.frame => animationFrame c now w
  | Event.resize => handleResize c w
  | Event.imageLoaded tileId => imgOnload tileId w
  | Event.imageFailed tileId => imgOnerror tileId w

/-- The state after a sequence of events, each with the container and the
clock reading at its delivery. -/
def run (m : MathFns) (w : World) : List (Container × ℤ × Event) → World
  | [] => w
  | (c, now, e) :: rest => run m (step m c now e w) rest

/-! ## Specification vocabulary and sample inputs -/

/-- `w2` differs from `w1` at most in the tile bookkeeping (`visibleTiles`,
`tileElements`), the loading indicator and the request log. -/
def TilesOnly (w1 w2 : World) : Prop :=
  (∃ vt te, w2.viewState = { w1.viewState with visibleTiles := vt, tileElements := te })
    ∧ w2.animationFrameId = w1.animationFrameId ∧ w2.transform = w1.transform

/-- A container of 1280 x 720 pixels at the origin of the client area. -/
def sampleContainer : Container :=
  { offsetWidth := 1280, offsetHeight := 720, left := 0, top := 0 }

/-- The boundary policy for a scale `s` and a translate `(x, y)`: the scaled
image is at least as tall as the container and the translate lies in the
range that `checkAndFixBoundaries` computes for `s`. -/
def InBoundsAt (c : Container) (s x y : ℚ) : Prop :=
  c.offsetHeight / imageConfig.height ≤ s
  ∧ (translateBounds c s).1 ≤ x
  ∧ x ≤ (translateBounds c s).2.1
  ∧ (translateBounds c s).2.2.1 ≤ y
  ∧ y ≤ (translateBounds c s).2.2.2

/-- The boundary policy holds for the scale and translate of the view. -/
def InBounds (c : Container) (v : ViewState) : Prop :=
  InBoundsAt c v.scale v.translateX v.translateY

/-- A view zoomed out to the minimum scale 0.05 and dragged off to the right. -/
def zoomedOutWorld : World :=
  { initialWorld with viewState := { initialViewState with
      scale := 1/20, translateX := 500, translateY := -40 } }

/-- The closed rectangle of the grid cell `(x, y)` and the buffered visible
rectangle have a common point. -/
def ClosedCellMeets (c : Container) (v : ViewState) (x y : ℤ) : Prop :=
  ∃ p q : ℚ,
    ((x : ℚ) * imageConfig.tileSize ≤ p ∧ p ≤ ((x : ℚ) + 1) * imageConfig.tileSize)
    ∧ ((y : ℚ) * imageConfig.tileSize ≤ q ∧ q ≤ ((y : ℚ) + 1) * imageConfig.tileSize)
    ∧ ((bufferedRect c v).1 ≤ p ∧ p ≤ (bufferedRect c v).2.2.1)
    ∧ ((bufferedRect c v).2.1 ≤ q ∧ q ≤ (bufferedRect c v).2.2.2)

/-- The interior of the grid cell `(x, y)` and the buffered visible rectangle
have a common point. -/
def OpenCellMeets (c : Container) (v : ViewState) (x y : ℤ) : Prop :=
  ∃ p q : ℚ,
    ((x : ℚ) * imageConfig.tileSize < p ∧ p < ((x : ℚ) + 1) * imageConfig.tileSize)
    ∧ ((y : ℚ) * imageConfig.tileSize < q ∧ q < ((y : ℚ) + 1) * imageConfig.tileSize)
    ∧ ((bufferedRect c v).1 ≤ p ∧ p ≤ (bufferedRect c v).2.2.1)
    ∧ ((bufferedRect c v).2.1 ≤ q ∧ q ≤ (bufferedRect c v).2.2.2)

/-- A container of 1200 x 720 pixels at the origin of the client area. -/
def narrowContainer : Container :=
  { offsetWidth := 1200, offsetHeight := 720, left := 0, top := 0 }

/-- The state on which the gesture branches of `handleTouchStart` work: a
running animation has been cancelled. -/
def cancelAnimation (w : World) : World :=
  if w.viewState.isAnimating
    then { w with animationFrameId := none
                  viewState := { w.viewState with isAnimating := false } }
    else w

/-- A container 6000 pixels tall: its fit scale is 1.6. -/
def tallContainer : Container :=
  { offsetWidth := 1280, offsetHeight := 6000, left := 0, top := 0 }

/-- A view at the scale 2 reached by a first double-tap in `tallContainer`,
100 ms after a tap. -/
def tallZoomedWorld : World :=
  { initialWorld with viewState := { initialViewState with scale := 2, lastTapTime := 1000 } }

/-- A view at the fit scale 0.192 of the 1280 x 720 container, 100 ms after
a tap. -/
def fitTappedWorld : World :=
  { initialWorld with viewState := { initialViewState with
      scale := 24/125, lastTapTime := 1000 } }

/-- The cache, given by its request log `r`, its elements `e` and its loaded
set `l`, only grows to `r'`, `e'`, `l'`: loaded tiles stay loaded, tile
elements stay, and the new requests are for distinct tiles that were neither
loaded nor had an element before and have an element afterwards. -/
def CacheRel (r : List TileId) (e : TileId → Option TileElement) (l : List TileId)
    (r' : List TileId) (e' : TileId → Option TileElement) (l' : List TileId) : Prop :=
  (∀ id, id ∈ l → id ∈ l')
  ∧ (∀ id, (e id).isSome = true → (e' id).isSome = true)
  ∧ ∃ new : List TileId, r' = r ++ new ∧ new.Nodup
      ∧ ∀ id ∈ new, id ∉ l ∧ (e id).isSome = false ∧ (e' id).isSome = true

/-- The cache only grows from the state `w` to the state `w'`. -/
def CacheGrows (w w' : World) : Prop :=
  CacheRel w.requests w.viewState.tileElements w.viewState.loadedTiles
    w'.requests w'.viewState.tileElements w'.viewState.loadedTiles

/-- The invariant behind C7: no tile was requested twice and every requested
tile has an element. -/
def RequestsOnce (w : World) : Prop :=
  w.requests.Nodup ∧ ∀ id ∈ w.requests, (w.viewState.tileElements id).isSome = true

/-- What can touch the tile cache: an event delivered to the script, or a
direct call of `loadTile` or `updateVisibleTiles`. -/
inductive CacheCall where
  | event (c : Container) (now : ℤ) (e : Event)
  | loadTile (x y : ℤ)
  | updateVisibleTiles (c : Container) (forceUpdate : Bool)

/-- The effect of one cache call. -/
def applyCall (m : MathFns) (call : CacheCall) (w : World) : World :=
  match call with
  | CacheCall.event c now e => step m c now e w
  | CacheCall.loadTile x y => loadTile x y w
  | CacheCall.updateVisibleTiles c forceUpdate => updateVisibleTiles c forceUpdate w

/-- The state after a sequence of cache calls. -/
def runCalls (m : MathFns) (w : World) : List CacheCall → World
  | [] => w
  | call :: rest => runCalls m (applyCall m call w) rest

/-- The fields read by the gesture state machine: scale, translate, the three
flags, the time of the last tap and the scheduled frame callback. -/
structure Snapshot where
  scale : ℚ
  translateX : ℚ
  translateY : ℚ
  isDragging : Bool
  isPinching : Bool
  isAnimating : Bool
  lastTapTime : ℤ
  frame : Option Animation

/-- The snapshot of a state. -/
def snapshot (w : World) : Snapshot :=
  { scale := w.viewState.scale, translateX := w.viewState.translateX,
    translateY := w.viewState.translateY, isDragging := w.viewState.isDragging,
    isPinching := w.viewState.isPinching, isAnimating := w.viewState.isAnimating,
    lastTapTime := w.viewState.lastTapTime, frame := w.animationFrameId }

/-- A stand-in for `Math.sqrt` and `Math.pow` in concrete runs that do not
depend on them. -/
def sampleMath : MathFns := { sqrt := fun x => x, pow := fun x _ => x }

/-- Whenever a frame callback is scheduled, `isAnimating` is true: the reason
why `startBoundaryAnimation`, which cancels the scheduled callback when
`isAnimating` is true, never leaves two callbacks scheduled. -/
def ScheduledImpliesAnimating (w : World) : Prop :=
  ∀ a, w.animationFrameId = some a → w.viewState.isAnimating = true

/-- What `handleWheel` and `zoomBy` leave behind, in terms of the view `v1`
written by their zoom step and the state `r` they return: scale and translate
are those of `v1`; if `v1` is within bounds nothing else happens (same
`isAnimating`, same scheduled callback `f0`); if not, `r` is animating, its
animation targets are the values computed by `checkAndFixBoundaries`, they
satisfy the boundary policy, and the scheduled callback started at `now` from
the view `v1` towards them. -/
def ZoomChecked (c : Container) (now : ℤ) (f0 : Option Animation) (v1 : ViewState)
    (r : World) : Prop :=
  (r.viewState.scale = v1.scale ∧ r.viewState.translateX = v1.translateX
    ∧ r.viewState.translateY = v1.translateY)
  ∧ (InBounds c v1 →
      r.viewState.isAnimating = v1.isAnimating ∧ r.animationFrameId = f0
      ∧ InBounds c r.viewState)
  ∧ (¬ InBounds c v1 →
      r.viewState.isAnimating = true
      ∧ (r.viewState.targetScale, r.viewState.targetTranslateX, r.viewState.targetTranslateY)
          = boundaryTargets c v1
      ∧ InBoundsAt c r.viewState.targetScale r.viewState.targetTranslateX
          r.viewState.targetTranslateY
      ∧ r.animationFrameId
          = some { startTime := now, startX := v1.translateX, startY := v1.translateY,
                   startScale := v1.scale, targetX := (boundaryTargets c v1).2.1,
                   targetY := (boundaryTargets c v1).2.2,
                   targetScale := (boundaryTargets c v1).1 })

/-- A container that has not been laid out vertically: height 0. -/
def zeroHeightContainer : Container :=
  { offsetWidth := 1280, offsetHeight := 0, left := 0, top := 0 }

/-- The target translate of `checkAndFixBoundaries` before the clamp
("limit to the bounds") is applied: (targetX, targetY) as assigned from the
current translate and, when the scale changed, from the saved centre. -/
def preClampTargets (c : Container) (v : ViewState) : ℚ × ℚ :=
  let containerWidth := c.offsetWidth
  let containerHeight := c.offsetHeight
  let centerX := if v.isPinching then v.pinchImageX
    else (containerWidth / 2 - v.translateX) / v.scale
  let centerY := if v.isPinching then v.pinchImageY
    else (containerHeight / 2 - v.translateY) / v.scale
  let minScaleForHeight := containerHeight / imageConfig.height
  let scaleChanged : Bool := decide (v.scale < minScaleForHeight)
  let targetScale := if v.scale < minScaleForHeight then minScaleForHeight else v.scale
  let targetX := if scaleChanged then containerWidth / 2 - centerX * targetScale
    else v.translateX
  let targetY := if scaleChanged then containerHeight / 2 - centerY * targetScale
    else v.translateY
  (targetX, targetY)

/-- A pinch in progress in `sampleContainer`, zoomed out below the fit scale:
scale 0.1, translate (0, 0), the recorded midpoint (100, 100) shows the
recorded image point (1000, 1000). -/
def pinchedOutWorld : World :=
  { initialWorld with viewState := { initialViewState with
      scale := 1/10, translateX := 0, translateY := 0, isPinching := true,
      pinchCenterX := 100, pinchCenterY := 100, pinchImageX := 1000, pinchImageY := 1000 } }

/-- The element recorded for the tile `id` in the map `e` is in the DOM
(`parentNode` is set); false when the tile has no element. -/
def attached (e : TileId → Option TileElement) (id : TileId) : Bool :=
  match e id with
  | some el => el.parentNode
  | none => false

/-- The state `w` with `viewState.translateX` set to `x`, as a drag step
writes it. -/
def panTo (x : ℚ) (w : World) : World :=
  { w with viewState := { w.viewState with translateX := x } }

/-- A tile that is detached while its image is still pending: tiles are
refreshed (forced) at the initial view in `sampleContainer`, then (forced)
with the view panned to `translateX = -2400`, then, forced or not, with the
view panned back to `translateX = 0`; no image callback has run. -/
def pendingDetachedRun (forceUpdate : Bool) : World :=
  updateVisibleTiles sampleContainer forceUpdate
    (panTo 0 (updateVisibleTiles sampleContainer true
      (panTo (-2400) (updateVisibleTiles sampleContainer true initialWorld))))

/-- The finger distance computed by `handleTouchStart` and `handleTouchMove`
from two touch points. -/
def fingerDistance (m : MathFns) (a b : Touch) : ℚ :=
  m.sqrt ((a.clientX - b.clientX) * (a.clientX - b.clientX)
    + (a.clientY - b.clientY) * (a.clientY - b.clientY))

/-- The scale `newScale` computed by the pinch branch of `handleTouchMove`
for the touch points `a` and `b`. -/
def pinchScale (m : MathFns) (a b : Touch) (v : ViewState) : ℚ :=
  max (1/20) (min 2 (v.scale * m.pow (fingerDistance m a b / v.initialPinchDistance) (6/5)))

/-- A two-finger `touchmove` delivered in the container `p.1` at time `p.2.1`
with the touch points `p.2.2.1` and `p.2.2.2`. -/
def pinchMoveEvent (p : Container × ℤ × Touch × Touch) : Container × ℤ × Event :=
  (p.1, p.2.1, Event.touchmove [p.2.2.1, p.2.2.2])

/-- A pinch: `handleTouchStart` with the two touch points `t1`, `t2`, then the
two-finger moves `moves`. -/
def pinchRun (m : MathFns) (c : Container) (now : ℤ) (t1 t2 : Touch) (w0 : World)
    (moves : List (Container × ℤ × Touch × Touch)) : World :=
  run m (handleTouchStart m c now [t1, t2] w0) (moves.map pinchMoveEvent)

/-- The pinch data of the view: the flag `isPinching` is set, the recorded
midpoint is `(px, py)` and the recorded image point is `(ix, iy)`. -/
def PinchRecorded (px py ix iy : ℚ) (v : ViewState) : Prop :=
  v.isPinching = true ∧ v.pinchCenterX = px ∧ v.pinchCenterY = py
  ∧ v.pinchImageX = ix ∧ v.pinchImageY = iy

/-- The positivity invariant on the fields it reads: the scale `s` is
positive, and a scheduled frame callback `f` animates between positive
scales. -/
def PosCore (s : ℚ) (f : Option Animation) : Prop :=
  0 < s ∧ ∀ a, f = some a → 0 < a.startScale ∧ 0 < a.targetScale

/-- The scale is positive and stays so through the scheduled animation. -/
def ScalePositive (w : World) : Prop :=
  PosCore w.viewState.scale w.animationFrameId

/-- The events covered by the amended C18: the container has a positive
height whenever the reset button, a resize or a touch start is handled, and a
frame callback does not run before the clock reading at which its animation
started. -/
def HeightAdmissible (w : World) (c : Container) (now : ℤ) : Event → Prop
  | Event.reset => 0 < c.offsetHeight
  | Event.resize => 0 < c.offsetHeight
  | Event.touchstart _ => 0 < c.offsetHeight
  | Event.frame => ∀ a, w.animationFrameId = some a → a.startTime ≤ now
  | _ => True

/-- The states reached from a start-up state in a container of positive height
by height-admissible events, each delivered with its own container and clock
reading. -/
inductive ReachablePositive (m : MathFns) : World → Prop where
  | start (c : Container) (now0 : ℤ) :
      0 < c.offsetHeight → ReachablePositive m (startup c now0)
  | next (w : World) (c : Container) (now : ℤ) (e : Event) :
      ReachablePositive m w → HeightAdmissible w c now e →
      ReachablePositive m (step m c now e w)

/-- A run of the scheduled frame callback (if any) in the container `p.1` at
time `p.2`. -/
def frameEvent (p : Container × ℤ) : Container × ℤ × Event :=
  (p.1, p.2, Event.frame)

/-- In the state `r` no animation is running: `isAnimating` is false, no frame
callback is scheduled, and the frames `frames` leave `r` as it is. -/
def AnimationCancelled (m : MathFns) (r : World) (frames : List (Container × ℤ)) : Prop :=
  r.viewState.isAnimating = false ∧ r.animationFrameId = none
  ∧ run m r (frames.map frameEvent) = r

/-- The recorded tap time after one event, in the words of the amended C20: a
single-touch press within 300 ms of a recorded tap (a double-tap) clears the
record, any other single-touch press records its own time, and every other
event, a two-finger touch start included, leaves the record as it is. -/
def tapStep (t : ℤ) (now : ℤ) : Event → ℤ
  | Event.touchstart [_] => if t ≠ 0 ∧ now - t < 300 then 0 else now
  | _ => t

/-- The recorded tap time after a sequence of events, starting from `t`. -/
def tapClock (t : ℤ) : List (Container × ℤ × Event) → ℤ
  | [] => t
  | (_, now, e) :: rest => tapClock (tapStep t now e) rest

/-- A tap, then a two-finger touch start and its release, all within 100 ms,
in `sampleContainer`. -/
def tapThenPinchRun : List (Container × ℤ × Event) :=
  [(sampleContainer, 1000, Event.touchstart [⟨100, 100⟩]),
   (sampleContainer, 1010, Event.touchend),
   (sampleContainer, 1050, Event.touchstart [⟨100, 100⟩, ⟨200, 200⟩]),
   (sampleContainer, 1100, Event.touchend)]

/-- A double-tap: two taps 100 ms apart, in `sampleContainer`. -/
def twoTapsRun : List (Container × ℤ × Event) :=
  [(sampleContainer, 1000, Event.touchstart [⟨100, 100⟩]),
   (sampleContainer, 1010, Event.touchend),
   (sampleContainer, 1100, Event.touchstart [⟨100, 100⟩]),
   (sampleContainer, 1110, Event.touchend)]

/-- Number of tile columns for the configuration `cfg`, as the script computes
`tilesX`: `Math.ceil (width / tileSize)`. -/
def gridColumns (cfg : ImageConfig) : ℤ := ⌈cfg.width / cfg.tileSize⌉

/-- Number of tile rows for the configuration `cfg`, as the script computes
`tilesY`: `Math.ceil (height / tileSize)`. -/
def gridRows (cfg : ImageConfig) : ℤ := ⌈cfg.height / cfg.tileSize⌉

/-- The rectangle that `loadTile (tileX, tileY)` computes for its element,
with the configuration as a parameter: (left, top, width, height). -/
def tileRect (cfg : ImageConfig) (tileX tileY : ℤ) : ℚ × ℚ × ℚ × ℚ :=
  let left : ℚ := tileX * cfg.tileSize
  let top : ℚ := tileY * cfg.tileSize
  let width := min cfg.tileSize (cfg.width - left)
  let height := min cfg.tileSize (cfg.height - top)
  (left, top, width, height)

/-- The initial view dragged up by 960 pixels: at scale 0.2 the image, 750
pixels high on screen, lies wholly above the container. -/
def pannedUpWorld : World :=
  { initialWorld with viewState := { initialViewState with translateY := -960 } }

theorem tilesOnly_refl (w : World) : TilesOnly w w :=
  ⟨⟨w.viewState.visibleTiles, w.viewState.tileElements, rfl⟩, rfl, rfl⟩

theorem tilesOnly_trans {w1 w2 w3 : World} (h12 : TilesOnly w1 w2) (h23 : TilesOnly w2 w3) :
    TilesOnly w1 w3 := by
  obtain ⟨⟨vt, te, h1⟩, h2, h3⟩ := h12
  obtain ⟨⟨vt', te', h1'⟩, h2', h3'⟩ := h23
  refine ⟨⟨vt', te', ?_⟩, h2'.trans h2, h3'.trans h3⟩
  rw [h1', h1]

theorem loadTile_tilesOnly (x y : ℤ) (w : World) : TilesOnly w (loadTile x y w) := by
  unfold loadTile
  dsimp only
  split
  · exact tilesOnly_refl w
  · exact ⟨⟨_, _, rfl⟩, rfl, rfl⟩

theorem visitTile_tilesOnly (w : World) (id : TileId) : TilesOnly w (visitTile w id) := by
  unfold visitTile
  have h1 : TilesOnly w { w with
      viewState := { w.viewState with visibleTiles := setAdd w.viewState.visibleTiles id } } :=
    ⟨⟨_, _, rfl⟩, rfl, rfl⟩
  dsimp only
  split
  · exact tilesOnly_trans h1 (loadTile_tilesOnly _ _ _)
  · split
    · split
      · exact h1
      · exact ⟨⟨_, _, rfl⟩, rfl, rfl⟩
    · exact h1

theorem foldl_visitTile_tilesOnly (ids : List TileId) (w : World) :
    TilesOnly w (ids.foldl visitTile w) := by
  induction ids generalizing w with
  | nil => exact tilesOnly_refl w
  | cons id rest ih => exact tilesOnly_trans (visitTile_tilesOnly w id) (ih _)

theorem updateVisibleTiles_tilesOnly (c : Container) (forceUpdate : Bool) (w : World) :
    TilesOnly w (updateVisibleTiles c forceUpdate w) := by
  unfold updateVisibleTiles
  have key : ∀ (w1 : World), TilesOnly w w1 → ∀ ids : List TileId,
      TilesOnly w (ids.foldl visitTile
        { w1 with viewState := { w1.viewState with visibleTiles := [] } }) := by
    intro w1 h1 ids
    refine tilesOnly_trans (tilesOnly_trans h1 ?_) (foldl_visitTile_tilesOnly ids _)
    exact ⟨⟨_, _, rfl⟩, rfl, rfl⟩
  have hind : ∀ w1 : World, ∀ b : Bool, TilesOnly w w1 →
      TilesOnly w { w1 with loadingIndicator := b } := by
    intro w1 b h1
    exact tilesOnly_trans h1 ⟨⟨_, _, rfl⟩, rfl, rfl⟩
  have hdet : ∀ w1 : World, TilesOnly w w1 →
      TilesOnly w { w1 with viewState := detachInvisible w1.viewState } := by
    intro w1 h1
    exact tilesOnly_trans h1 ⟨⟨_, _, rfl⟩, rfl, rfl⟩
  cases forceUpdate
  · simp only [Bool.false_eq_true, if_false, Bool.false_or]
    split
    · split
      · exact hind _ _ (key w (tilesOnly_refl w) _)
      · exact key w (tilesOnly_refl w) _
    · exact hind _ _ (key w (tilesOnly_refl w) _)
  · simp only [if_true, Bool.true_or]
    split
    · exact hind _ _ (hdet _ (key _ (hind w true (tilesOnly_refl w)) _))
    · exact hdet _ (key _ (hind w true (tilesOnly_refl w)) _)

theorem updateVisibleTiles_scale (c : Container) (f : Bool) (w : World) :
    (updateVisibleTiles c f w).viewState.scale = w.viewState.scale := by
  obtain ⟨⟨vt, te, h⟩, -, -⟩ := updateVisibleTiles_tilesOnly c f w
  rw [h]

theorem updateVisibleTiles_translateX (c : Container) (f : Bool) (w : World) :
    (updateVisibleTiles c f w).viewState.translateX = w.viewState.translateX := by
  obtain ⟨⟨vt, te, h⟩, -, -⟩ := updateVisibleTiles_tilesOnly c f w
  rw [h]

theorem updateVisibleTiles_translateY (c : Container) (f : Bool) (w : World) :
    (updateVisibleTiles c f w).viewState.translateY = w.viewState.translateY := by
  obtain ⟨⟨vt, te, h⟩, -, -⟩ := updateVisibleTiles_tilesOnly c f w
  rw [h]

theorem clampScale_pos (x : ℚ) : 0 < max (1/20 : ℚ) (min 2 x) :=
  lt_of_lt_of_le (by norm_num) (le_max_left _ _)

theorem imageConfig_height : imageConfig.height = 3750 := rfl

theorem imageConfig_tileSize : imageConfig.tileSize = 1000 := rfl

theorem clamp_eq_self (lo hi t : ℚ) (h1 : lo ≤ t) (h2 : t ≤ hi) : min hi (max lo t) = t := by
  rw [max_eq_right h1, min_eq_right h2]

theorem clamp_fixed (lo hi t : ℚ) (h : lo ≤ hi) (ht : min hi (max lo t) = t) :
    lo ≤ t ∧ t ≤ hi := by
  have h2 : t ≤ hi := ht ▸ min_le_left _ _
  have h1 : lo ≤ t := ht ▸ le_min h (le_max_left _ _)
  exact ⟨h1, h2⟩

theorem translateBounds_le (c : Container) (s : ℚ) :
    (translateBounds c s).1 ≤ (translateBounds c s).2.1
    ∧ (translateBounds c s).2.2.1 ≤ (translateBounds c s).2.2.2 := by
  unfold translateBounds
  dsimp only
  constructor
  · split_ifs with h
    · exact le_rfl
    · linarith [not_le.mp h]
  · split_ifs with h
    · exact le_rfl
    · linarith [not_le.mp h]

theorem boundaryTargets_scale (c : Container) (v : ViewState) :
    (boundaryTargets c v).1 = max v.scale (c.offsetHeight / imageConfig.height) := by
  unfold boundaryTargets
  dsimp only
  split_ifs with h
  · exact (max_eq_right (le_of_lt h)).symm
  · exact (max_eq_left (not_lt.mp h)).symm

theorem boundaryTargets_X (c : Container) (v : ViewState) :
    (translateBounds c (boundaryTargets c v).1).1 ≤ (boundaryTargets c v).2.1
    ∧ (boundaryTargets c v).2.1 ≤ (translateBounds c (boundaryTargets c v).1).2.1 := by
  have h := (translateBounds_le c (boundaryTargets c v).1).1
  unfold boundaryTargets at h ⊢
  dsimp only at h ⊢
  exact ⟨le_min h (le_max_left _ _), min_le_left _ _⟩

theorem boundaryTargets_Y (c : Container) (v : ViewState) :
    (translateBounds c (boundaryTargets c v).1).2.2.1 ≤ (boundaryTargets c v).2.2
    ∧ (boundaryTargets c v).2.2 ≤ (translateBounds c (boundaryTargets c v).1).2.2.2 := by
  have h := (translateBounds_le c (boundaryTargets c v).1).2
  unfold boundaryTargets at h ⊢
  dsimp only at h ⊢
  exact ⟨le_min h (le_max_left _ _), min_le_left _ _⟩

theorem boundaryTargets_of_fit (c : Container) (v : ViewState)
    (h : c.offsetHeight / imageConfig.height ≤ v.scale) :
    boundaryTargets c v
      = (v.scale,
         min (translateBounds c v.scale).2.1 (max (translateBounds c v.scale).1 v.translateX),
         min (translateBounds c v.scale).2.2.2
           (max (translateBounds c v.scale).2.2.1 v.translateY)) := by
  unfold boundaryTargets
  dsimp only
  have h' : ¬ v.scale < c.offsetHeight / imageConfig.height := not_lt.mpr h
  simp only [h', if_false, decide_False, Bool.false_eq_true]

theorem needsCorrection_eq_false_iff (c : Container) (v : ViewState) :
    needsCorrection c v = false
      ↔ boundaryTargets c v = (v.scale, v.translateX, v.translateY) := by
  unfold needsCorrection
  rcases hb : boundaryTargets c v with ⟨ts, tx, ty⟩
  simp only [Bool.or_eq_false_iff, decide_eq_false_iff_not, ne_eq, not_not, Prod.mk.injEq]
  tauto

theorem needsCorrection_false_iff_inBounds (c : Container) (v : ViewState) :
    needsCorrection c v = false ↔ InBounds c v := by
  rw [needsCorrection_eq_false_iff]
  constructor
  · intro h
    have hs : (boundaryTargets c v).1 = v.scale := by rw [h]
    have hfit : c.offsetHeight / imageConfig.height ≤ v.scale := by
      rw [boundaryTargets_scale] at hs
      exact hs ▸ le_max_right _ _
    rw [boundaryTargets_of_fit c v hfit] at h
    simp only [Prod.mk.injEq, true_and] at h
    have hx := clamp_fixed _ _ _ (translateBounds_le c v.scale).1 h.1
    have hy := clamp_fixed _ _ _ (translateBounds_le c v.scale).2 h.2
    exact ⟨hfit, hx.1, hx.2, hy.1, hy.2⟩
  · rintro ⟨hfit, hx1, hx2, hy1, hy2⟩
    rw [boundaryTargets_of_fit c v hfit, clamp_eq_self _ _ _ hx1 hx2,
      clamp_eq_self _ _ _ hy1 hy2]

/-- Any view whose scale and translate are the values computed by
`checkAndFixBoundaries` satisfies the boundary policy. -/
theorem inBounds_of_targets (c : Container) (v v' : ViewState)
    (hs : v'.scale = (boundaryTargets c v).1) (hx : v'.translateX = (boundaryTargets c v).2.1)
    (hy : v'.translateY = (boundaryTargets c v).2.2) : InBounds c v' := by
  have hX := boundaryTargets_X c v
  have hY := boundaryTargets_Y c v
  refine ⟨?_, ?_, ?_, ?_, ?_⟩
  · rw [hs, boundaryTargets_scale]
    exact le_max_right _ _
  · rw [hs, hx]; exact hX.1
  · rw [hs, hx]; exact hX.2
  · rw [hs, hy]; exact hY.1
  · rw [hs, hy]; exact hY.2

theorem checkAndFixBoundaries_of_ok (c : Container) (now : ℤ) (animate : Bool) (w : World)
    (h : needsCorrection c w.viewState = false) :
    checkAndFixBoundaries c now animate w = w := by
  unfold checkAndFixBoundaries
  rcases boundaryTargets c w.viewState with ⟨ts, tx, ty⟩
  simp only [h, Bool.false_eq_true, if_false]

theorem checkAndFixBoundaries_snap (c : Container) (now : ℤ) (w : World)
    (h : needsCorrection c w.viewState = true) :
    checkAndFixBoundaries c now false w
      = updateVisibleTiles c false (updateViewTransform
          { w with viewState := { w.viewState with
              translateX := (boundaryTargets c w.viewState).2.1
              translateY := (boundaryTargets c w.viewState).2.2
              scale := (boundaryTargets c w.viewState).1 } }) := by
  unfold checkAndFixBoundaries
  rcases boundaryTargets c w.viewState with ⟨ts, tx, ty⟩
  simp only [h, if_true, Bool.false_eq_true, if_false]

theorem checkAndFixBoundaries_animate (c : Container) (now : ℤ) (w : World)
    (h : needsCorrection c w.viewState = true) :
    checkAndFixBoundaries c now true w
      = startBoundaryAnimation now
          { w with viewState := { w.viewState with
              targetTranslateX := (boundaryTargets c w.viewState).2.1
              targetTranslateY := (boundaryTargets c w.viewState).2.2
              targetScale := (boundaryTargets c w.viewState).1 } } := by
  unfold checkAndFixBoundaries
  rcases boundaryTargets c w.viewState with ⟨ts, tx, ty⟩
  simp only [h, if_true]

theorem startBoundaryAnimation_viewState (now : ℤ) (w : World) :
    (startBoundaryAnimation now w).viewState = { w.viewState with isAnimating := true } := by
  unfold startBoundaryAnimation
  dsimp only
  split_ifs <;> rfl

theorem startBoundaryAnimation_frame (now : ℤ) (w : World) :
    (startBoundaryAnimation now w).animationFrameId = some
      { startTime := now, startX := w.viewState.translateX, startY := w.viewState.translateY,
        startScale := w.viewState.scale, targetX := w.viewState.targetTranslateX,
        targetY := w.viewState.targetTranslateY, targetScale := w.viewState.targetScale } := by
  unfold startBoundaryAnimation
  dsimp only
  split_ifs <;> rfl

/-- After the snapped correction the scale and translate are the computed
targets, whether or not a correction was needed. -/
theorem checkAndFixBoundaries_snap_values (c : Container) (now : ℤ) (w : World) :
    (checkAndFixBoundaries c now false w).viewState.scale = (boundaryTargets c w.viewState).1
    ∧ (checkAndFixBoundaries c now false w).viewState.translateX
        = (boundaryTargets c w.viewState).2.1
    ∧ (checkAndFixBoundaries c now false w).viewState.translateY
        = (boundaryTargets c w.viewState).2.2 := by
  cases h : needsCorrection c w.viewState
  · rw [checkAndFixBoundaries_of_ok c now false w h]
    rw [(needsCorrection_eq_false_iff c w.viewState).mp h]
    exact ⟨rfl, rfl, rfl⟩
  · rw [checkAndFixBoundaries_snap c now w h]
    simp only [updateVisibleTiles_scale, updateVisibleTiles_translateX,
      updateVisibleTiles_translateY, updateViewTransform]
    exact ⟨trivial, trivial, trivial⟩

theorem needsCorrection_of_scale_lt (c : Container) (v : ViewState)
    (h : v.scale < c.offsetHeight / imageConfig.height) : needsCorrection c v = true := by
  rw [← Bool.not_eq_false, needsCorrection_false_iff_inBounds]
  intro hin
  exact absurd hin.1 (not_le.mpr h)

/-- C3. Idempotence of the boundary corrector: after one snapped correction
(`animate = false`) a second call reports `needsCorrection = false` and
leaves the scale, the translate and in fact the whole state unchanged. -/
theorem boundary_correction_idempotent (c : Container) (now now' : ℤ) (w : World)
    (_hs : 0 < w.viewState.scale) :
    needsCorrection c (checkAndFixBoundaries c now false w).viewState = false
    ∧ (checkAndFixBoundaries c now' false (checkAndFixBoundaries c now false w)).viewState.scale
        = (checkAndFixBoundaries c now false w).viewState.scale
    ∧ (checkAndFixBoundaries c now' false
          (checkAndFixBoundaries c now false w)).viewState.translateX
        = (checkAndFixBoundaries c now false w).viewState.translateX
    ∧ (checkAndFixBoundaries c now' false
          (checkAndFixBoundaries c now false w)).viewState.translateY
        = (checkAndFixBoundaries c now false w).viewState.translateY
    ∧ checkAndFixBoundaries c now' false (checkAndFixBoundaries c now false w)
        = checkAndFixBoundaries c now false w := by
  have hv := checkAndFixBoundaries_snap_values c now w
  have hin : InBounds c (checkAndFixBoundaries c now false w).viewState :=
    inBounds_of_targets c w.viewState _ hv.1 hv.2.1 hv.2.2
  have hok := (needsCorrection_false_iff_inBounds c _).mpr hin
  have heq := checkAndFixBoundaries_of_ok c now' false _ hok
  refine ⟨hok, ?_, ?_, ?_, heq⟩ <;> rw [heq]

/-- C3 at a view that needs a correction: scale 0.05 in a 1280 x 720
container is raised to 0.192 and then stays there. -/
theorem boundary_correction_idempotent_witness :
    0 < zoomedOutWorld.viewState.scale
    ∧ needsCorrection sampleContainer zoomedOutWorld.viewState = true
    ∧ needsCorrection sampleContainer
        (checkAndFixBoundaries sampleContainer 0 false zoomedOutWorld).viewState = false
    ∧ checkAndFixBoundaries sampleContainer 1 false
          (checkAndFixBoundaries sampleContainer 0 false zoomedOutWorld)
        = checkAndFixBoundaries sampleContainer 0 false zoomedOutWorld :=
  have h := boundary_correction_idempotent sampleContainer 0 1 zoomedOutWorld
    (by norm_num [zoomedOutWorld])
  ⟨by norm_num [zoomedOutWorld],
   needsCorrection_of_scale_lt _ _
     (by norm_num [zoomedOutWorld, sampleContainer, imageConfig]),
   h.1, h.2.2.2.2⟩

/-! ## C4, C5: the visible tile set -/

theorem mem_intRange (a b x : ℤ) : x ∈ intRange a b ↔ a ≤ x ∧ x < b := by
  unfold intRange
  simp only [List.mem_map, List.mem_range]
  constructor
  · rintro ⟨i, hi, rfl⟩
    have h : (i : ℤ) < b - a := Int.lt_toNat.mp hi
    constructor <;> linarith [Int.ofNat_nonneg i]
  · rintro ⟨h1, h2⟩
    have h0 : 0 ≤ x - a := by linarith
    refine ⟨(x - a).toNat, ?_, ?_⟩
    · rw [Int.lt_toNat, Int.toNat_of_nonneg h0]
      linarith
    · rw [Int.toNat_of_nonneg h0]
      ring

theorem nodup_intRange (a b : ℤ) : (intRange a b).Nodup := by
  unfold intRange
  have hinj : Function.Injective (fun i : ℕ => a + (i : ℤ)) := by
    intro i j hij
    simpa using hij
  exact List.Nodup.map hinj (List.nodup_range _)

theorem mem_visibleTileRange (c : Container) (v : ViewState) (x y : ℤ) :
    (x, y) ∈ visibleTileRange c v ↔
      (⌊(bufferedRect c v).1 / imageConfig.tileSize⌋ ≤ x
        ∧ x < min ⌈(bufferedRect c v).2.2.1 / imageConfig.tileSize⌉ tilesX)
      ∧ (⌊(bufferedRect c v).2.1 / imageConfig.tileSize⌋ ≤ y
        ∧ y < min ⌈(bufferedRect c v).2.2.2 / imageConfig.tileSize⌉ tilesY) := by
  unfold visibleTileRange
  rcases bufferedRect c v with ⟨bl, bt, br, bb⟩
  simp only [List.mem_flatMap, List.mem_map, mem_intRange, Prod.mk.injEq]
  constructor
  · rintro ⟨y', hy, x', hx, rfl, rfl⟩
    exact ⟨hx, hy⟩
  · rintro ⟨hx, hy⟩
    exact ⟨y, hy, x, hx, rfl, rfl⟩

theorem nodup_visibleTileRange (c : Container) (v : ViewState) :
    (visibleTileRange c v).Nodup := by
  unfold visibleTileRange
  rcases bufferedRect c v with ⟨bl, bt, br, bb⟩
  dsimp only
  rw [List.nodup_flatMap]
  refine ⟨?_, ?_⟩
  · intro y _
    refine List.Nodup.map ?_ (nodup_intRange _ _)
    intro x1 x2 h
    exact (Prod.mk.inj h).1
  · refine List.Nodup.pairwise_of_forall_ne (nodup_intRange _ _) ?_
    intro y1 _ y2 _ hne
    intro p h1 h2
    simp only [List.mem_map] at h1 h2
    obtain ⟨x1, _, rfl⟩ := h1
    obtain ⟨x2, _, h⟩ := h2
    exact hne (Prod.mk.inj h).2.symm

theorem loadTile_visibleTiles (x y : ℤ) (w : World) :
    (loadTile x y w).viewState.visibleTiles = w.viewState.visibleTiles := by
  unfold loadTile
  dsimp only
  split <;> rfl

theorem visitTile_visibleTiles (w : World) (id : TileId) :
    (visitTile w id).viewState.visibleTiles = setAdd w.viewState.visibleTiles id := by
  unfold visitTile
  dsimp only
  split
  · rw [loadTile_visibleTiles]
  · split
    · split <;> rfl
    · rfl

theorem foldl_visitTile_visibleTiles (ids : List TileId) (w : World) :
    (ids.foldl visitTile w).viewState.visibleTiles = ids.foldl setAdd w.viewState.visibleTiles := by
  induction ids generalizing w with
  | nil => rfl
  | cons id rest ih => rw [List.foldl_cons, ih, visitTile_visibleTiles, List.foldl_cons]

theorem foldl_setAdd_of_nodup (ids acc : List TileId) (h : (acc ++ ids).Nodup) :
    ids.foldl setAdd acc = acc ++ ids := by
  induction ids generalizing acc with
  | nil => simp
  | cons id rest ih =>
    have hid : id ∉ acc := by
      intro hmem
      rw [List.nodup_append] at h
      exact h.2.2 hmem (List.mem_cons_self _ _)
    rw [List.foldl_cons]
    have hadd : setAdd acc id = acc ++ [id] := by
      unfold setAdd
      rw [if_neg hid]
    rw [hadd, ih]
    · simp
    · simpa using h

/-- The visible set written by `updateVisibleTiles` is the list of tiles
visited by its two loops. -/
theorem updateVisibleTiles_visibleTiles (c : Container) (forceUpdate : Bool) (w : World) :
    (updateVisibleTiles c forceUpdate w).viewState.visibleTiles
      = visibleTileRange c w.viewState := by
  have key : ∀ w1 : World, w1.viewState = w.viewState →
      ((visibleTileRange c w1.viewState).foldl visitTile
        { w1 with viewState := { w1.viewState with visibleTiles := [] } }).viewState.visibleTiles
        = visibleTileRange c w.viewState := by
    intro w1 h1
    rw [foldl_visitTile_visibleTiles, h1]
    exact foldl_setAdd_of_nodup _ [] (by simpa using nodup_visibleTileRange c w.viewState)
  unfold updateVisibleTiles
  cases forceUpdate
  · simp only [Bool.false_eq_true, if_false, Bool.false_or]
    split
    · split
      · exact key w rfl
      · exact key w rfl
    · exact key w rfl
  · simp only [if_true, Bool.true_or]
    split
    · exact key { w with loadingIndicator := true } rfl
    · exact key { w with loadingIndicator := true } rfl

theorem tilesX_eq : tilesX = 15 := by
  unfold tilesX
  rw [Int.ceil_eq_iff]
  norm_num [imageConfig]

theorem tilesY_eq : tilesY = 4 := by
  unfold tilesY
  rw [Int.ceil_eq_iff]
  norm_num [imageConfig]

theorem scenario_visibleRect :
    visibleRect sampleContainer initialWorld.viewState = (0, 0, 6400, 3600) := by
  norm_num [visibleRect, sampleContainer, initialWorld, initialViewState, imageConfig]

theorem scenario_bufferedRect :
    bufferedRect sampleContainer initialWorld.viewState = (0, 0, 7400, 3750) := by
  unfold bufferedRect
  rw [scenario_visibleRect]
  norm_num [imageConfig]

theorem scenario_visibleTileRange :
    visibleTileRange sampleContainer initialWorld.viewState
      = (intRange 0 4).flatMap (fun y => (intRange 0 8).map (fun x => (x, y))) := by
  unfold visibleTileRange
  rw [scenario_bufferedRect]
  have h1 : ⌊(0 : ℚ) / imageConfig.tileSize⌋ = 0 := by norm_num
  have h2 : ⌈(7400 : ℚ) / imageConfig.tileSize⌉ = 8 := by
    rw [Int.ceil_eq_iff]
    norm_num [imageConfig]
  have h3 : ⌈(3750 : ℚ) / imageConfig.tileSize⌉ = 4 := by
    rw [Int.ceil_eq_iff]
    norm_num [imageConfig]
  simp only [h1, h2, h3, tilesX_eq, tilesY_eq]
  rfl

/-- C4. Tile-range scenario: the 15000 x 3750 image with 1000 px tiles has a
15 x 4 grid; for a 1280 x 720 container at scale 0.2 and translate (0, 0),
`updateVisibleTiles` (forced or not) computes the visible rectangle
(0,0)-(6400,3600), the buffered rectangle (0,0)-(7400,3750), and the visible
set is exactly the tiles (x, y) with 0 <= x < 8 and 0 <= y < 4: 32 tiles,
none listed twice. -/
theorem tile_range_scenario :
    imageConfig.width = 15000 ∧ imageConfig.height = 3750 ∧ imageConfig.tileSize = 1000
    ∧ tilesX = 15 ∧ tilesY = 4
    ∧ initialWorld.viewState.scale = 1/5
    ∧ initialWorld.viewState.translateX = 0 ∧ initialWorld.viewState.translateY = 0
    ∧ visibleRect sampleContainer initialWorld.viewState = (0, 0, 6400, 3600)
    ∧ bufferedRect sampleContainer initialWorld.viewState = (0, 0, 7400, 3750)
    ∧ ∀ forceUpdate : Bool,
        (∀ x y : ℤ,
          (x, y) ∈ (updateVisibleTiles sampleContainer forceUpdate
              initialWorld).viewState.visibleTiles
            ↔ (0 ≤ x ∧ x < 8) ∧ (0 ≤ y ∧ y < 4))
        ∧ (updateVisibleTiles sampleContainer forceUpdate
              initialWorld).viewState.visibleTiles.length = 32
        ∧ (updateVisibleTiles sampleContainer forceUpdate
              initialWorld).viewState.visibleTiles.Nodup := by
  refine ⟨rfl, rfl, rfl, tilesX_eq, tilesY_eq, rfl, rfl, rfl, scenario_visibleRect,
    scenario_bufferedRect, ?_⟩
  intro forceUpdate
  rw [updateVisibleTiles_visibleTiles]
  refine ⟨?_, ?_, nodup_visibleTileRange _ _⟩
  · intro x y
    rw [scenario_visibleTileRange]
    simp only [List.mem_flatMap, List.mem_map, mem_intRange, Prod.mk.injEq]
    constructor
    · rintro ⟨y', hy, x', hx, rfl, rfl⟩
      exact ⟨hx, hy⟩
    · rintro ⟨hx, hy⟩
      exact ⟨y, hy, x, hx, rfl, rfl⟩
  · rw [scenario_visibleTileRange]
    decide

theorem bufferedRect_bounds (c : Container) (v : ViewState) :
    0 ≤ (bufferedRect c v).1 ∧ 0 ≤ (bufferedRect c v).2.1
    ∧ (bufferedRect c v).2.2.1 ≤ imageConfig.width
    ∧ (bufferedRect c v).2.2.2 ≤ imageConfig.height := by
  unfold bufferedRect
  rcases visibleRect c v with ⟨vl, vt, vr, vb⟩
  exact ⟨le_max_left _ _, le_max_left _ _, min_le_left _ _, min_le_left _ _⟩

theorem floor_div_tileSize_le (r : ℚ) (x : ℤ) :
    ⌊r / imageConfig.tileSize⌋ ≤ x ↔ r < ((x : ℚ) + 1) * imageConfig.tileSize := by
  rw [← Int.lt_add_one_iff, Int.floor_lt, imageConfig_tileSize, div_lt_iff₀ (by norm_num)]
  push_cast
  rfl

theorem lt_ceil_div_tileSize (r : ℚ) (x : ℤ) :
    x < ⌈r / imageConfig.tileSize⌉ ↔ (x : ℚ) * imageConfig.tileSize < r := by
  rw [Int.lt_ceil, imageConfig_tileSize, lt_div_iff₀ (by norm_num)]

/-- Membership in the visible set by inequalities: the tile is in the grid and
overlaps the buffered rectangle with positive width and height. -/
theorem mem_visibleTileRange_iff (c : Container) (v : ViewState) (x y : ℤ) :
    (x, y) ∈ visibleTileRange c v ↔
      ((0 ≤ x ∧ x < tilesX) ∧ (0 ≤ y ∧ y < tilesY))
      ∧ (x : ℚ) * imageConfig.tileSize < (bufferedRect c v).2.2.1
      ∧ (bufferedRect c v).1 < ((x : ℚ) + 1) * imageConfig.tileSize
      ∧ (y : ℚ) * imageConfig.tileSize < (bufferedRect c v).2.2.2
      ∧ (bufferedRect c v).2.1 < ((y : ℚ) + 1) * imageConfig.tileSize := by
  rw [mem_visibleTileRange]
  simp only [lt_min_iff, floor_div_tileSize_le, lt_ceil_div_tileSize]
  obtain ⟨hl, ht, -, -⟩ := bufferedRect_bounds c v
  have hx : (bufferedRect c v).1 < ((x : ℚ) + 1) * imageConfig.tileSize → 0 ≤ x := by
    intro h
    rw [imageConfig_tileSize] at h
    have h1 : (0 : ℚ) < (x : ℚ) + 1 := by nlinarith
    have h2 : (0 : ℤ) < x + 1 := by exact_mod_cast h1
    omega
  have hy : (bufferedRect c v).2.1 < ((y : ℚ) + 1) * imageConfig.tileSize → 0 ≤ y := by
    intro h
    rw [imageConfig_tileSize] at h
    have h1 : (0 : ℚ) < (y : ℚ) + 1 := by nlinarith
    have h2 : (0 : ℤ) < y + 1 := by exact_mod_cast h1
    omega
  constructor
  · rintro ⟨⟨h1, h2, h3⟩, h4, h5, h6⟩
    exact ⟨⟨⟨hx h1, h3⟩, hy h4, h6⟩, h2, h1, h5, h4⟩
  · rintro ⟨⟨⟨-, h3⟩, -, h6⟩, h2, h1, h5, h4⟩
    exact ⟨⟨h1, h2, h3⟩, h4, h5, h6⟩

theorem bufferedRect_eq (c : Container) (v : ViewState) :
    bufferedRect c v
      = (max 0 (max 0 (-v.translateX / v.scale) - 1000),
         max 0 (max 0 (-v.translateY / v.scale) - 1000),
         min 15000 (min 15000 ((c.offsetWidth - v.translateX) / v.scale) + 1000),
         min 3750 (min 3750 ((c.offsetHeight - v.translateY) / v.scale) + 1000)) := by
  simp only [bufferedRect, visibleRect, imageConfig, mul_one]

/-- One axis: an open interval `(lo, hi)` meets the closed interval
`[bl, br]` exactly when `bl <= br`, `lo < br` and `bl < hi`. -/
theorem open_meets_closed_iff (lo hi bl br : ℚ) (hlh : lo < hi) :
    (∃ p : ℚ, (lo < p ∧ p < hi) ∧ (bl ≤ p ∧ p ≤ br)) ↔ bl ≤ br ∧ lo < br ∧ bl < hi := by
  constructor
  · rintro ⟨p, ⟨h1, h2⟩, h3, h4⟩
    exact ⟨le_trans h3 h4, lt_of_lt_of_le h1 h4, lt_of_le_of_lt h3 h2⟩
  · rintro ⟨h1, h2, h3⟩
    have hm : lo < min hi br := lt_min hlh h2
    refine ⟨max bl ((lo + min hi br) / 2), ⟨?_, ?_⟩, le_max_left _ _, ?_⟩
    · exact lt_of_lt_of_le (by linarith) (le_max_right _ _)
    · exact max_lt h3 (by linarith [min_le_left hi br])
    · exact max_le h1 (by linarith [min_le_right hi br])

theorem openCellMeets_iff (c : Container) (v : ViewState) (x y : ℤ) :
    OpenCellMeets c v x y ↔
      ((bufferedRect c v).1 ≤ (bufferedRect c v).2.2.1
        ∧ (x : ℚ) * imageConfig.tileSize < (bufferedRect c v).2.2.1
        ∧ (bufferedRect c v).1 < ((x : ℚ) + 1) * imageConfig.tileSize)
      ∧ ((bufferedRect c v).2.1 ≤ (bufferedRect c v).2.2.2
        ∧ (y : ℚ) * imageConfig.tileSize < (bufferedRect c v).2.2.2
        ∧ (bufferedRect c v).2.1 < ((y : ℚ) + 1) * imageConfig.tileSize) := by
  have hx : (x : ℚ) * imageConfig.tileSize < ((x : ℚ) + 1) * imageConfig.tileSize := by
    rw [imageConfig_tileSize]; linarith
  have hy : (y : ℚ) * imageConfig.tileSize < ((y : ℚ) + 1) * imageConfig.tileSize := by
    rw [imageConfig_tileSize]; linarith
  rw [← open_meets_closed_iff _ _ _ _ hx, ← open_meets_closed_iff _ _ _ _ hy]
  unfold OpenCellMeets
  constructor
  · rintro ⟨p, q, h1, h2, h3, h4⟩
    exact ⟨⟨p, h1, h3⟩, ⟨q, h2, h4⟩⟩
  · rintro ⟨⟨p, h1, h3⟩, ⟨q, h2, h4⟩⟩
    exact ⟨p, q, h1, h2, h3, h4⟩

theorem narrow_bufferedRect :
    bufferedRect narrowContainer initialWorld.viewState = (0, 0, 7000, 3750) := by
  rw [bufferedRect_eq]
  norm_num [narrowContainer, initialWorld, initialViewState]

/-- C5, counterexample: in a 1200 x 720 container at scale 0.2 and translate
(0, 0) the buffered rectangle is (0,0)-(7000,3750).  The cell (7, 0), with
rectangle [7000,8000] x [0,1000], is in the grid and meets the buffered
rectangle (in the point (7000, 0)), yet it is not in the visible set: the
visible set is not the set of grid cells whose closed rectangle intersects
the buffered rectangle. -/
theorem closed_cell_counterexample :
    ¬ (∀ x y : ℤ,
        (x, y) ∈ (updateVisibleTiles narrowContainer true initialWorld).viewState.visibleTiles
          ↔ ((0 ≤ x ∧ x < tilesX) ∧ (0 ≤ y ∧ y < tilesY))
            ∧ ClosedCellMeets narrowContainer initialWorld.viewState x y) := by
  intro h
  have h70 := (h 7 0).mpr
    ⟨⟨⟨by norm_num, by rw [tilesX_eq]; norm_num⟩, ⟨le_rfl, by rw [tilesY_eq]; norm_num⟩⟩,
      ⟨7000, 0, by
        rw [narrow_bufferedRect]
        norm_num [imageConfig]⟩⟩
  rw [updateVisibleTiles_visibleTiles, mem_visibleTileRange_iff, narrow_bufferedRect] at h70
  norm_num [imageConfig] at h70

/-- C5, amended. Tile-set correctness: for a positive scale, whenever the
buffered visible rectangle is not inverted (bufferedLeft <= bufferedRight and
bufferedTop <= bufferedBottom), the visible set computed by
`updateVisibleTiles` is exactly the set of grid cells (x, y), 0 <= x < tilesX,
0 <= y < tilesY, whose open rectangle (x*tileSize, (x+1)*tileSize) x
(y*tileSize, (y+1)*tileSize) intersects the buffered visible rectangle
[bufferedLeft, bufferedRight] x [bufferedTop, bufferedBottom]. -/
theorem visible_tiles_open_cells (c : Container) (forceUpdate : Bool) (w : World)
    (_hs : 0 < w.viewState.scale)
    (hx : (bufferedRect c w.viewState).1 ≤ (bufferedRect c w.viewState).2.2.1)
    (hy : (bufferedRect c w.viewState).2.1 ≤ (bufferedRect c w.viewState).2.2.2)
    (x y : ℤ) :
    (x, y) ∈ (updateVisibleTiles c forceUpdate w).viewState.visibleTiles
      ↔ ((0 ≤ x ∧ x < tilesX) ∧ (0 ≤ y ∧ y < tilesY)) ∧ OpenCellMeets c w.viewState x y := by
  rw [updateVisibleTiles_visibleTiles, mem_visibleTileRange_iff, openCellMeets_iff]
  constructor
  · rintro ⟨hg, h1, h2, h3, h4⟩
    exact ⟨hg, ⟨hx, h1, h2⟩, hy, h3, h4⟩
  · rintro ⟨hg, ⟨-, h1, h2⟩, -, h3, h4⟩
    exact ⟨hg, h1, h2, h3, h4⟩

/-- C5, amended, at the 1200 x 720 container with scale 0.2: the cell (7, 0)
is not visible and its interior does not meet the buffered rectangle, the
cell (6, 0) is visible. -/
theorem visible_tiles_open_cells_witness :
    0 < initialWorld.viewState.scale
    ∧ bufferedRect narrowContainer initialWorld.viewState = (0, 0, 7000, 3750)
    ∧ ((7, 0) ∈ (updateVisibleTiles narrowContainer true initialWorld).viewState.visibleTiles
        ↔ (((0 : ℤ) ≤ 7 ∧ 7 < tilesX) ∧ ((0 : ℤ) ≤ 0 ∧ 0 < tilesY))
          ∧ OpenCellMeets narrowContainer initialWorld.viewState 7 0)
    ∧ (7, 0) ∉ (updateVisibleTiles narrowContainer true initialWorld).viewState.visibleTiles
    ∧ (6, 0) ∈ (updateVisibleTiles narrowContainer true initialWorld).viewState.visibleTiles :=
  ⟨by norm_num [initialWorld, initialViewState], narrow_bufferedRect,
   visible_tiles_open_cells narrowContainer true initialWorld
     (by norm_num [initialWorld, initialViewState])
     (by rw [narrow_bufferedRect]; norm_num) (by rw [narrow_bufferedRect]; norm_num) 7 0,
   by
    rw [updateVisibleTiles_visibleTiles, mem_visibleTileRange_iff, narrow_bufferedRect]
    norm_num [imageConfig],
   by
    rw [updateVisibleTiles_visibleTiles, mem_visibleTileRange_iff, narrow_bufferedRect,
      tilesX_eq, tilesY_eq]
    norm_num [imageConfig]⟩

/-! ## C6: the double-tap toggle -/

theorem cancelAnimation_view (w : World) :
    (cancelAnimation w).viewState = { w.viewState with isAnimating := false } := by
  unfold cancelAnimation
  split
  · rfl
  · next h =>
    have h' : w.viewState.isAnimating = false := by simpa using h
    cases hv : w.viewState
    rw [hv] at h'
    simp only at h'
    subst h'
    rfl

theorem handleTouchStart_doubleTap (m : MathFns) (c : Container) (now : ℤ) (touch : Touch)
    (w : World)
    (htap : w.viewState.lastTapTime ≠ 0 ∧ now - w.viewState.lastTapTime < 300) :
    handleTouchStart m c now [touch] w = doubleTap c now touch (cancelAnimation w) := by
  have h1 : (cancelAnimation w).viewState.lastTapTime = w.viewState.lastTapTime := by
    rw [cancelAnimation_view]
  rw [← h1] at htap
  unfold handleTouchStart
  simp only
  exact if_pos htap

theorem doubleTap_targetScale (c : Container) (now : ℤ) (touch : Touch) (w : World) :
    (doubleTap c now touch w).viewState.targetScale
      = if w.viewState.scale < c.offsetHeight / imageConfig.height * (3/2)
        then min 2 (c.offsetHeight / imageConfig.height * (5/2))
        else c.offsetHeight / imageConfig.height := by
  unfold doubleTap
  rw [startBoundaryAnimation_viewState]

/-- C6, counterexample: in a container 6000 pixels tall, fit = 1.6 and
min (2, fit * 2.5) = 2; a double-tap handled when scale = 2 sets targetScale
to 2 again, not to fit. -/
theorem double_tap_counterexample :
    0 < tallContainer.offsetHeight
    ∧ tallZoomedWorld.viewState.scale
        = min 2 (tallContainer.offsetHeight / imageConfig.height * (5/2))
    ∧ (tallZoomedWorld.viewState.lastTapTime ≠ 0
        ∧ (1100 : ℤ) - tallZoomedWorld.viewState.lastTapTime < 300)
    ∧ (handleTouchStart ⟨fun x => x, fun x _ => x⟩ tallContainer 1100 [⟨100, 100⟩]
          tallZoomedWorld).viewState.targetScale = 2
    ∧ (handleTouchStart ⟨fun x => x, fun x _ => x⟩ tallContainer 1100 [⟨100, 100⟩]
          tallZoomedWorld).viewState.targetScale
        ≠ tallContainer.offsetHeight / imageConfig.height := by
  have htap : tallZoomedWorld.viewState.lastTapTime ≠ 0
      ∧ (1100 : ℤ) - tallZoomedWorld.viewState.lastTapTime < 300 := by
    norm_num [tallZoomedWorld]
  have hts : (handleTouchStart ⟨fun x => x, fun x _ => x⟩ tallContainer 1100 [⟨100, 100⟩]
      tallZoomedWorld).viewState.targetScale = 2 := by
    rw [handleTouchStart_doubleTap _ _ _ _ _ htap, doubleTap_targetScale, cancelAnimation_view]
    norm_num [tallZoomedWorld, tallContainer, imageConfig]
  refine ⟨by norm_num [tallContainer], ?_, htap, hts, ?_⟩
  · norm_num [tallZoomedWorld, tallContainer, imageConfig]
  · rw [hts]
    norm_num [tallContainer, imageConfig]

/-- C6, amended. Double-tap toggle: for a container height h > 0 with
fit = h / imageHeight, a double-tap handled by `handleTouchStart` when
scale = fit sets targetScale to min (2, fit * 2.5); and when h <= 5000 (so
that fit * 1.5 <= 2) a double-tap handled when scale = min (2, fit * 2.5)
sets targetScale to fit. -/
theorem double_tap_toggle (m : MathFns) (c : Container) (now : ℤ) (touch : Touch) (w : World)
    (hh : 0 < c.offsetHeight)
    (htap : w.viewState.lastTapTime ≠ 0 ∧ now - w.viewState.lastTapTime < 300) :
    (w.viewState.scale = c.offsetHeight / imageConfig.height →
      (handleTouchStart m c now [touch] w).viewState.targetScale
        = min 2 (c.offsetHeight / imageConfig.height * (5/2)))
    ∧ (c.offsetHeight ≤ 5000 →
        w.viewState.scale = min 2 (c.offsetHeight / imageConfig.height * (5/2)) →
        (handleTouchStart m c now [touch] w).viewState.targetScale
          = c.offsetHeight / imageConfig.height) := by
  have hfit : 0 < c.offsetHeight / imageConfig.height := by
    rw [imageConfig_height]; positivity
  rw [handleTouchStart_doubleTap m c now touch w htap, doubleTap_targetScale,
    cancelAnimation_view]
  constructor
  · intro hs
    rw [if_pos]
    show w.viewState.scale < _
    rw [hs]
    linarith
  · intro h5 hs
    rw [if_neg]
    show ¬ w.viewState.scale < _
    rw [hs, not_lt, le_min_iff]
    have h43 : c.offsetHeight / imageConfig.height ≤ 4/3 := by
      rw [imageConfig_height, div_le_iff₀ (by norm_num)]
      linarith
    constructor <;> linarith

/-- C6, amended, in the 1280 x 720 container: from the fit scale 0.192 a
double-tap targets 0.48. -/
theorem double_tap_toggle_witness :
    0 < sampleContainer.offsetHeight
    ∧ (fitTappedWorld.viewState.lastTapTime ≠ 0
        ∧ (1100 : ℤ) - fitTappedWorld.viewState.lastTapTime < 300)
    ∧ fitTappedWorld.viewState.scale = sampleContainer.offsetHeight / imageConfig.height
    ∧ (handleTouchStart ⟨fun x => x, fun x _ => x⟩ sampleContainer 1100 [⟨640, 360⟩]
          fitTappedWorld).viewState.targetScale = 12/25 := by
  have htap : fitTappedWorld.viewState.lastTapTime ≠ 0
      ∧ (1100 : ℤ) - fitTappedWorld.viewState.lastTapTime < 300 := by
    norm_num [fitTappedWorld]
  have hfit : fitTappedWorld.viewState.scale
      = sampleContainer.offsetHeight / imageConfig.height := by
    norm_num [fitTappedWorld, sampleContainer, imageConfig]
  refine ⟨by norm_num [sampleContainer], htap, hfit, ?_⟩
  rw [(double_tap_toggle ⟨fun x => x, fun x _ => x⟩ sampleContainer 1100 ⟨640, 360⟩
    fitTappedWorld (by norm_num [sampleContainer]) htap).1 hfit]
  norm_num [sampleContainer, imageConfig]

/-! ## C7: at most one image request per tile -/

theorem cacheRel_refl (r : List TileId) (e : TileId → Option TileElement) (l : List TileId) :
    CacheRel r e l r e l := by
  refine ⟨fun id h => h, fun id h => h, [], (List.append_nil r).symm, List.nodup_nil, ?_⟩
  intro id hid
  exact absurd hid (List.not_mem_nil _)

theorem cacheRel_trans {r1 r2 r3 : List TileId} {e1 e2 e3 : TileId → Option TileElement}
    {l1 l2 l3 : List TileId} (h12 : CacheRel r1 e1 l1 r2 e2 l2)
    (h23 : CacheRel r2 e2 l2 r3 e3 l3) : CacheRel r1 e1 l1 r3 e3 l3 := by
  obtain ⟨hl, he, n1, hr1, hn1, hp1⟩ := h12
  obtain ⟨hl', he', n2, hr2, hn2, hp2⟩ := h23
  refine ⟨fun id h => hl' id (hl id h), fun id h => he' id (he id h), n1 ++ n2, ?_, ?_, ?_⟩
  · rw [hr2, hr1, List.append_assoc]
  · rw [List.nodup_append]
    refine ⟨hn1, hn2, ?_⟩
    intro id h1 h2
    have a := (hp1 id h1).2.2
    have b := (hp2 id h2).2.1
    rw [a] at b
    exact Bool.noConfusion b
  · intro id hid
    rcases List.mem_append.mp hid with h | h
    · exact ⟨(hp1 id h).1, (hp1 id h).2.1, he' id (hp1 id h).2.2⟩
    · refine ⟨fun hmem => (hp2 id h).1 (hl id hmem), ?_, (hp2 id h).2.2⟩
      cases hsome : (e1 id).isSome
      · rfl
      · have a := he id hsome
        have b := (hp2 id h).2.1
        rw [a] at b
        exact Bool.noConfusion b

theorem cacheGrows_refl (w : World) : CacheGrows w w := cacheRel_refl _ _ _

theorem cacheGrows_trans {w1 w2 w3 : World} (h12 : CacheGrows w1 w2) (h23 : CacheGrows w2 w3) :
    CacheGrows w1 w3 := cacheRel_trans h12 h23

theorem requestsOnce_of_grows {w w' : World} (h : RequestsOnce w) (hg : CacheGrows w w') :
    RequestsOnce w' := by
  obtain ⟨hnd, hel⟩ := h
  obtain ⟨-, he, new, hr, hn, hp⟩ := hg
  constructor
  · rw [hr, List.nodup_append]
    refine ⟨hnd, hn, ?_⟩
    intro id h1 h2
    have a := hel id h1
    have b := (hp id h2).2.1
    rw [a] at b
    exact Bool.noConfusion b
  · intro id hid
    rw [hr] at hid
    rcases List.mem_append.mp hid with h | h
    · exact he id (hel id h)
    · exact (hp id h).2.2

theorem cacheGrows_count_loaded {w w' : World} (hg : CacheGrows w w') (id : TileId)
    (h : id ∈ w.viewState.loadedTiles) : w'.requests.count id = w.requests.count id := by
  obtain ⟨-, -, new, hr, -, hp⟩ := hg
  rw [hr, List.count_append]
  have : new.count id = 0 := List.count_eq_zero.mpr (fun hmem => (hp id hmem).1 h)
  omega

theorem loadTile_cacheGrows (x y : ℤ) (w : World) : CacheGrows w (loadTile x y w) := by
  unfold loadTile
  dsimp only
  split
  · exact cacheGrows_refl w
  · next h =>
    rw [not_or] at h
    refine ⟨fun id hid => hid, ?_, [(x, y)], rfl, List.nodup_singleton _, ?_⟩
    · intro id hid
      dsimp only
      split
      · rfl
      · exact hid
    · intro id hid
      rw [List.mem_singleton] at hid
      subst hid
      refine ⟨h.1, by simpa using h.2, ?_⟩
      simp

theorem cacheRel_loadTile (x y : ℤ) {r : List TileId} {e : TileId → Option TileElement}
    {l : List TileId} {w1 : World}
    (h : CacheRel r e l w1.requests w1.viewState.tileElements w1.viewState.loadedTiles) :
    CacheRel r e l (loadTile x y w1).requests (loadTile x y w1).viewState.tileElements
      (loadTile x y w1).viewState.loadedTiles :=
  cacheRel_trans h (loadTile_cacheGrows x y w1)

theorem visitTile_cacheGrows (w : World) (id : TileId) : CacheGrows w (visitTile w id) := by
  unfold visitTile
  dsimp only
  split
  · exact cacheRel_loadTile _ _ (cacheRel_refl _ _ _)
  · split
    · next el hel =>
      split
      · exact cacheGrows_refl w
      · refine ⟨fun j hj => hj, ?_, [], by simp, List.nodup_nil, ?_⟩
        · intro j hj
          dsimp only
          split
          · rfl
          · exact hj
        · intro j hj
          exact absurd hj (List.not_mem_nil _)
    · exact cacheGrows_refl w

theorem foldl_visitTile_cacheGrows (ids : List TileId) (w : World) :
    CacheGrows w (ids.foldl visitTile w) := by
  induction ids generalizing w with
  | nil => exact cacheGrows_refl w
  | cons id rest ih => exact cacheGrows_trans (visitTile_cacheGrows w id) (ih _)

theorem cacheRel_foldl_visitTile (ids : List TileId) {r : List TileId}
    {e : TileId → Option TileElement} {l : List TileId} {w1 : World}
    (h : CacheRel r e l w1.requests w1.viewState.tileElements w1.viewState.loadedTiles) :
    CacheRel r e l (ids.foldl visitTile w1).requests
      (ids.foldl visitTile w1).viewState.tileElements
      (ids.foldl visitTile w1).viewState.loadedTiles :=
  cacheRel_trans h (foldl_visitTile_cacheGrows ids w1)

theorem cacheRel_detach {r : List TileId} {e : TileId → Option TileElement} {l : List TileId}
    {r' : List TileId} {v : ViewState} (h : CacheRel r e l r' v.tileElements v.loadedTiles) :
    CacheRel r e l r' (detachInvisible v).tileElements (detachInvisible v).loadedTiles := by
  refine cacheRel_trans h ⟨fun j hj => hj, ?_, [], by simp, List.nodup_nil, ?_⟩
  · intro j hj
    simp only [detachInvisible, Option.isSome_map']
    exact hj
  · intro j hj
    exact absurd hj (List.not_mem_nil _)

theorem updateVisibleTiles_cacheGrows (c : Container) (forceUpdate : Bool) (w : World) :
    CacheGrows w (updateVisibleTiles c forceUpdate w) := by
  unfold updateVisibleTiles CacheGrows
  cases forceUpdate
  · simp only [Bool.false_eq_true, if_false, Bool.false_or]
    split
    · split
      · exact cacheRel_foldl_visitTile _ (cacheRel_refl _ _ _)
      · exact cacheRel_foldl_visitTile _ (cacheRel_refl _ _ _)
    · exact cacheRel_foldl_visitTile _ (cacheRel_refl _ _ _)
  · simp only [if_true, Bool.true_or]
    split
    · exact cacheRel_detach (cacheRel_foldl_visitTile _ (cacheRel_refl _ _ _))
    · exact cacheRel_detach (cacheRel_foldl_visitTile _ (cacheRel_refl _ _ _))

theorem cacheRel_update (c : Container) (f : Bool) {r : List TileId}
    {e : TileId → Option TileElement} {l : List TileId} {w1 : World}
    (h : CacheRel r e l w1.requests w1.viewState.tileElements w1.viewState.loadedTiles) :
    CacheRel r e l (updateVisibleTiles c f w1).requests
      (updateVisibleTiles c f w1).viewState.tileElements
      (updateVisibleTiles c f w1).viewState.loadedTiles :=
  cacheRel_trans h (updateVisibleTiles_cacheGrows c f w1)

theorem startBoundaryAnimation_cacheGrows (now : ℤ) (w : World) :
    CacheGrows w (startBoundaryAnimation now w) := by
  unfold startBoundaryAnimation CacheGrows
  dsimp only
  split_ifs <;> exact cacheRel_refl _ _ _

theorem cacheRel_startAnimation (now : ℤ) {r : List TileId}
    {e : TileId → Option TileElement} {l : List TileId} {w1 : World}
    (h : CacheRel r e l w1.requests w1.viewState.tileElements w1.viewState.loadedTiles) :
    CacheRel r e l (startBoundaryAnimation now w1).requests
      (startBoundaryAnimation now w1).viewState.tileElements
      (startBoundaryAnimation now w1).viewState.loadedTiles :=
  cacheRel_trans h (startBoundaryAnimation_cacheGrows now w1)

theorem checkAndFixBoundaries_cacheGrows (c : Container) (now : ℤ) (animate : Bool)
    (w : World) : CacheGrows w (checkAndFixBoundaries c now animate w) := by
  cases h : needsCorrection c w.viewState
  · rw [checkAndFixBoundaries_of_ok c now animate w h]
    exact cacheGrows_refl w
  · cases animate
    · rw [checkAndFixBoundaries_snap c now w h]
      exact cacheRel_update c false (cacheRel_refl _ _ _)
    · rw [checkAndFixBoundaries_animate c now w h]
      exact cacheRel_startAnimation now (cacheRel_refl _ _ _)

theorem cacheRel_check (c : Container) (now : ℤ) (animate : Bool) {r : List TileId}
    {e : TileId → Option TileElement} {l : List TileId} {w1 : World}
    (h : CacheRel r e l w1.requests w1.viewState.tileElements w1.viewState.loadedTiles) :
    CacheRel r e l (checkAndFixBoundaries c now animate w1).requests
      (checkAndFixBoundaries c now animate w1).viewState.tileElements
      (checkAndFixBoundaries c now animate w1).viewState.loadedTiles :=
  cacheRel_trans h (checkAndFixBoundaries_cacheGrows c now animate w1)

theorem animate_cacheGrows (c : Container) (now : ℤ) (a : Animation) (w : World) :
    CacheGrows w (animate c now a w) := by
  unfold animate CacheGrows updateViewTransform
  dsimp only
  split_ifs
  · exact cacheRel_update c false (cacheRel_refl _ _ _)
  · exact cacheRel_refl _ _ _
  · refine cacheRel_update c true ?_
    dsimp only
    exact cacheRel_update c false (cacheRel_refl _ _ _)
  · exact cacheRel_update c true (cacheRel_refl _ _ _)

theorem cacheRel_animate (c : Container) (now : ℤ) (a : Animation) {r : List TileId}
    {e : TileId → Option TileElement} {l : List TileId} {w1 : World}
    (h : CacheRel r e l w1.requests w1.viewState.tileElements w1.viewState.loadedTiles) :
    CacheRel r e l (animate c now a w1).requests (animate c now a w1).viewState.tileElements
      (animate c now a w1).viewState.loadedTiles :=
  cacheRel_trans h (animate_cacheGrows c now a w1)

theorem animationFrame_cacheGrows (c : Container) (now : ℤ) (w : World) :
    CacheGrows w (animationFrame c now w) := by
  unfold animationFrame CacheGrows
  split
  · exact cacheRel_animate c now _ (cacheRel_refl _ _ _)
  · exact cacheRel_refl _ _ _

theorem handleWheel_cacheGrows (c : Container) (now : ℤ) (x y d : ℚ) (w : World) :
    CacheGrows w (handleWheel c now x y d w) := by
  unfold handleWheel CacheGrows
  exact cacheRel_check c now true (cacheRel_update c true (cacheRel_refl _ _ _))

theorem zoomBy_cacheGrows (c : Container) (now : ℤ) (f : ℚ) (w : World) :
    CacheGrows w (zoomBy c now f w) := by
  unfold zoomBy CacheGrows
  exact cacheRel_check c now true (cacheRel_update c true (cacheRel_refl _ _ _))

theorem resetView_cacheGrows (c : Container) (w : World) : CacheGrows w (resetView c w) := by
  unfold resetView CacheGrows
  exact cacheRel_update c true (cacheRel_refl _ _ _)

theorem startDrag_cacheGrows (b : ℤ) (x y : ℚ) (w : World) :
    CacheGrows w (startDrag b x y w) := by
  unfold startDrag CacheGrows
  dsimp only
  split_ifs <;> exact cacheRel_refl _ _ _

theorem dragTo_cacheGrows (m : MathFns) (c : Container) (now : ℤ) (x y : ℚ) (w : World) :
    CacheGrows w (dragTo m c now x y w) := by
  unfold dragTo CacheGrows
  dsimp only
  split_ifs
  · exact cacheRel_update c false (cacheRel_refl _ _ _)
  · exact cacheRel_refl _ _ _

theorem drag_cacheGrows (m : MathFns) (c : Container) (now : ℤ) (x y : ℚ) (w : World) :
    CacheGrows w (drag m c now x y w) := by
  unfold drag
  split_ifs
  · exact dragTo_cacheGrows _ _ _ _ _ _
  · exact cacheGrows_refl w

theorem endDrag_cacheGrows (c : Container) (now : ℤ) (w : World) :
    CacheGrows w (endDrag c now w) := by
  unfold endDrag CacheGrows
  split_ifs
  · exact cacheRel_update c true (cacheRel_check c now true (cacheRel_refl _ _ _))
  · exact cacheRel_refl _ _ _

theorem doubleTap_cacheGrows (c : Container) (now : ℤ) (t : Touch) (w : World) :
    CacheGrows w (doubleTap c now t w) := by
  unfold doubleTap CacheGrows
  exact cacheRel_startAnimation now (cacheRel_refl _ _ _)

theorem handleTouchStart_cacheGrows (m : MathFns) (c : Container) (now : ℤ)
    (touches : List Touch) (w : World) : CacheGrows w (handleTouchStart m c now touches w) := by
  have hc : ∀ w1 : World, w1.requests = w.requests →
      w1.viewState.tileElements = w.viewState.tileElements →
      w1.viewState.loadedTiles = w.viewState.loadedTiles →
      CacheGrows w (doubleTap c now (touches.headD ⟨0, 0⟩) w1) := by
    intro w1 h1 h2 h3
    have h := doubleTap_cacheGrows c now (touches.headD ⟨0, 0⟩) w1
    unfold CacheGrows at h ⊢
    rw [h1, h2, h3] at h
    exact h
  unfold handleTouchStart
  dsimp only
  split
  · split_ifs <;> exact cacheRel_refl _ _ _
  · split_ifs
    · exact hc _ rfl rfl rfl
    · exact cacheRel_refl _ _ _
    · exact hc _ rfl rfl rfl
    · exact cacheRel_refl _ _ _
  · split_ifs <;> exact cacheRel_refl _ _ _

theorem handleTouchMove_cacheGrows (m : MathFns) (c : Container) (now : ℤ)
    (touches : List Touch) (w : World) : CacheGrows w (handleTouchMove m c now touches w) := by
  unfold handleTouchMove
  dsimp only
  split
  · unfold CacheGrows updateViewTransform
    split_ifs
    · exact cacheRel_update c false (cacheRel_refl _ _ _)
    · exact cacheRel_refl _ _ _
  · split_ifs
    · exact dragTo_cacheGrows _ _ _ _ _ _
    · exact cacheGrows_refl w
  · exact cacheGrows_refl w

theorem handleTouchEnd_cacheGrows (c : Container) (now : ℤ) (w : World) :
    CacheGrows w (handleTouchEnd c now w) := by
  unfold handleTouchEnd CacheGrows
  split_ifs
  · exact cacheRel_update c true (cacheRel_check c now true (cacheRel_refl _ _ _))
  · exact cacheRel_update c true (cacheRel_check c now true (cacheRel_refl _ _ _))
  · exact cacheRel_refl _ _ _

theorem handleResize_cacheGrows (c : Container) (w : World) :
    CacheGrows w (handleResize c w) := by
  unfold handleResize
  exact cacheRel_update c true (resetView_cacheGrows c w)

theorem mem_setAdd (s : List TileId) (id j : TileId) (h : j ∈ s) : j ∈ setAdd s id := by
  unfold setAdd
  split_ifs
  · exact h
  · exact List.mem_append_left _ h

theorem imgOnload_cacheGrows (id : TileId) (w : World) : CacheGrows w (imgOnload id w) := by
  refine ⟨fun j hj => mem_setAdd _ _ _ hj, ?_, [], by simp [imgOnload], List.nodup_nil, ?_⟩
  · intro j hj
    simp only [imgOnload]
    split_ifs
    · rw [Option.isSome_map']; exact hj
    · exact hj
  · intro j hj
    exact absurd hj (List.not_mem_nil _)

theorem imgOnerror_cacheGrows (id : TileId) (w : World) : CacheGrows w (imgOnerror id w) := by
  refine ⟨fun j hj => mem_setAdd _ _ _ hj, ?_, [], by simp [imgOnerror], List.nodup_nil, ?_⟩
  · intro j hj
    simp only [imgOnerror]
    split_ifs
    · rw [Option.isSome_map']; exact hj
    · exact hj
  · intro j hj
    exact absurd hj (List.not_mem_nil _)

theorem step_cacheGrows (m : MathFns) (c : Container) (now : ℤ) (e : Event) (w : World) :
    CacheGrows w (step m c now e w) := by
  cases e with
  | mousedown b x y => exact startDrag_cacheGrows b x y w
  | mousemove x y => exact drag_cacheGrows m c now x y w
  | mouseup => exact endDrag_cacheGrows c now w
  | wheel x y d => exact handleWheel_cacheGrows c now x y d w
  | zoomIn => exact zoomBy_cacheGrows c now _ w
  | zoomOut => exact zoomBy_cacheGrows c now _ w
  | reset => exact resetView_cacheGrows c w
  | touchstart ts => exact handleTouchStart_cacheGrows m c now ts w
  | touchmove ts => exact handleTouchMove_cacheGrows m c now ts w
  | touchend => exact handleTouchEnd_cacheGrows c now w
  | frame => exact animationFrame_cacheGrows c now w
  | resize => exact handleResize_cacheGrows c w
  | imageLoaded id => exact imgOnload_cacheGrows id w
  | imageFailed id => exact imgOnerror_cacheGrows id w

theorem applyCall_cacheGrows (m : MathFns) (call : CacheCall) (w : World) :
    CacheGrows w (applyCall m call w) := by
  cases call with
  | event c now e => exact step_cacheGrows m c now e w
  | loadTile x y => exact loadTile_cacheGrows x y w
  | updateVisibleTiles c f => exact updateVisibleTiles_cacheGrows c f w

theorem runCalls_requestsOnce (m : MathFns) (calls : List CacheCall) (w : World)
    (h : RequestsOnce w) : RequestsOnce (runCalls m w calls) := by
  induction calls generalizing w with
  | nil => exact h
  | cons call rest ih => exact ih _ (requestsOnce_of_grows h (applyCall_cacheGrows m call w))

theorem requestsOnce_initialWorld : RequestsOnce initialWorld :=
  ⟨List.nodup_nil, fun _ hid => absurd hid (List.not_mem_nil _)⟩

/-- C7. At most one fetch per tile: after any sequence of events (gestures,
frames, resizes, image load and error callbacks for any tile) and direct
calls of `updateVisibleTiles` and `loadTile`, starting from the empty cache,
the log of image requests names no tile twice.  Moreover a call never issues
a request for a tile that is already marked loaded or failed (member of
`loadedTiles`), whatever happens to the visible set, and `loadTile` for a
tile that has an element or is marked loaded changes nothing, while `loadTile`
for a tile without element that is not marked loaded issues one request. -/
theorem at_most_one_fetch (m : MathFns) (calls : List CacheCall) :
    (runCalls m initialWorld calls).requests.Nodup
    ∧ (∀ (w : World) (call : CacheCall) (id : TileId), id ∈ w.viewState.loadedTiles →
        (applyCall m call w).requests.count id = w.requests.count id)
    ∧ (∀ (w : World) (x y : ℤ),
        (x, y) ∈ w.viewState.loadedTiles ∨ (w.viewState.tileElements (x, y)).isSome = true →
        loadTile x y w = w)
    ∧ (∀ (w : World) (x y : ℤ),
        ¬ ((x, y) ∈ w.viewState.loadedTiles ∨ (w.viewState.tileElements (x, y)).isSome = true) →
        (loadTile x y w).requests = w.requests ++ [(x, y)]) := by
  refine ⟨(runCalls_requestsOnce m calls initialWorld requestsOnce_initialWorld).1, ?_, ?_, ?_⟩
  · intro w call id hid
    exact cacheGrows_count_loaded (applyCall_cacheGrows m call w) id hid
  · intro w x y h
    unfold loadTile
    exact if_pos h
  · intro w x y h
    unfold loadTile
    dsimp only
    rw [if_neg h]

/-- C7 on the empty cache: the first `loadTile (0, 0)` issues the request, a
second one changes nothing, and the request log of the two calls has no
repetition. -/
theorem at_most_one_fetch_witness :
    (runCalls sampleMath initialWorld
      [CacheCall.loadTile 0 0, CacheCall.loadTile 0 0]).requests.Nodup
    ∧ (loadTile 0 0 initialWorld).requests = [(0, 0)]
    ∧ loadTile 0 0 (loadTile 0 0 initialWorld) = loadTile 0 0 initialWorld := by
  have h := at_most_one_fetch sampleMath [CacheCall.loadTile 0 0, CacheCall.loadTile 0 0]
  have h1 := h.2.2.2 initialWorld 0 0 (by simp [initialWorld, initialViewState])
  refine ⟨h.1, h1, h.2.2.1 (loadTile 0 0 initialWorld) 0 0 (Or.inr ?_)⟩
  simp [loadTile, initialWorld, initialViewState]

/-! ## View fields through the boundary check -/

theorem checkAndFixBoundaries_true_viewState (c : Container) (now : ℤ) (w : World) :
    (checkAndFixBoundaries c now true w).viewState
      = if needsCorrection c w.viewState = true then
          { w.viewState with
            targetTranslateX := (boundaryTargets c w.viewState).2.1
            targetTranslateY := (boundaryTargets c w.viewState).2.2
            targetScale := (boundaryTargets c w.viewState).1
            isAnimating := true }
        else w.viewState := by
  cases h : needsCorrection c w.viewState
  · rw [checkAndFixBoundaries_of_ok c now true w h]
    simp
  · rw [checkAndFixBoundaries_animate c now w h, startBoundaryAnimation_viewState]
    simp

theorem checkAndFixBoundaries_true_scale (c : Container) (now : ℤ) (w : World) :
    (checkAndFixBoundaries c now true w).viewState.scale = w.viewState.scale := by
  rw [checkAndFixBoundaries_true_viewState]
  split_ifs <;> rfl

theorem checkAndFixBoundaries_true_translateX (c : Container) (now : ℤ) (w : World) :
    (checkAndFixBoundaries c now true w).viewState.translateX = w.viewState.translateX := by
  rw [checkAndFixBoundaries_true_viewState]
  split_ifs <;> rfl

theorem checkAndFixBoundaries_true_translateY (c : Container) (now : ℤ) (w : World) :
    (checkAndFixBoundaries c now true w).viewState.translateY = w.viewState.translateY := by
  rw [checkAndFixBoundaries_true_viewState]
  split_ifs <;> rfl

/-! ## C10: scale step and clamp -/

theorem handleWheel_scale (c : Container) (now : ℤ) (clientX clientY deltaY : ℚ) (w : World) :
    (handleWheel c now clientX clientY deltaY w).viewState.scale
      = max (1/20) (min 2 (w.viewState.scale * (if deltaY < 0 then 11/10 else 9/10))) := by
  unfold handleWheel
  rw [checkAndFixBoundaries_true_scale, updateVisibleTiles_scale]
  rfl

theorem zoomBy_scale (c : Container) (now : ℤ) (factor : ℚ) (w : World) :
    (zoomBy c now factor w).viewState.scale
      = max (1/20) (min 2 (w.viewState.scale * factor)) := by
  unfold zoomBy
  rw [checkAndFixBoundaries_true_scale, updateVisibleTiles_scale]
  rfl

theorem clampScale_mem (x : ℚ) :
    1/20 ≤ max (1/20 : ℚ) (min 2 x) ∧ max (1/20 : ℚ) (min 2 x) ≤ 2 :=
  ⟨le_max_left _ _, max_le (by norm_num) (min_le_left _ _)⟩

/-- C10. Scale step and clamp: from a view with positive scale, `handleWheel`
sets the scale to clamp (scale * 1.1, 0.05, 2) when deltaY < 0 and to
clamp (scale * 0.9, 0.05, 2) otherwise; `zoomBy f` sets it to
clamp (scale * f, 0.05, 2), the zoom-in button using f = 1.2 and the zoom-out
button f = 0.8; in each case the new scale lies in [0.05, 2].  Here
clamp (x, 0.05, 2) is max (0.05, min (2, x)). -/
theorem scale_step_and_clamp (m : MathFns) (c : Container) (now : ℤ)
    (clientX clientY deltaY factor : ℚ) (w : World) (_hs : 0 < w.viewState.scale) :
    (deltaY < 0 → (handleWheel c now clientX clientY deltaY w).viewState.scale
        = max (1/20) (min 2 (w.viewState.scale * (11/10))))
    ∧ (¬ deltaY < 0 → (handleWheel c now clientX clientY deltaY w).viewState.scale
        = max (1/20) (min 2 (w.viewState.scale * (9/10))))
    ∧ (zoomBy c now factor w).viewState.scale
        = max (1/20) (min 2 (w.viewState.scale * factor))
    ∧ (step m c now Event.zoomIn w).viewState.scale
        = max (1/20) (min 2 (w.viewState.scale * (6/5)))
    ∧ (step m c now Event.zoomOut w).viewState.scale
        = max (1/20) (min 2 (w.viewState.scale * (4/5)))
    ∧ (1/20 ≤ (handleWheel c now clientX clientY deltaY w).viewState.scale
        ∧ (handleWheel c now clientX clientY deltaY w).viewState.scale ≤ 2)
    ∧ (1/20 ≤ (zoomBy c now factor w).viewState.scale
        ∧ (zoomBy c now factor w).viewState.scale ≤ 2) := by
  refine ⟨?_, ?_, zoomBy_scale c now factor w, zoomBy_scale c now _ w, zoomBy_scale c now _ w,
    ?_, ?_⟩
  · intro h
    rw [handleWheel_scale, if_pos h]
  · intro h
    rw [handleWheel_scale, if_neg h]
  · rw [handleWheel_scale]
    exact clampScale_mem _
  · rw [zoomBy_scale]
    exact clampScale_mem _

/-- C10 at the start-up view (scale 0.2): a wheel step in gives 0.22, a wheel
step out 0.18, the zoom-in button 0.24 and the zoom-out button 0.16. -/
theorem scale_step_and_clamp_witness :
    0 < initialWorld.viewState.scale
    ∧ (handleWheel sampleContainer 0 640 360 (-1) initialWorld).viewState.scale = 11/50
    ∧ (handleWheel sampleContainer 0 640 360 1 initialWorld).viewState.scale = 9/50
    ∧ (step ⟨fun x => x, fun x _ => x⟩ sampleContainer 0 Event.zoomIn
        initialWorld).viewState.scale = 6/25
    ∧ (step ⟨fun x => x, fun x _ => x⟩ sampleContainer 0 Event.zoomOut
        initialWorld).viewState.scale = 4/25 := by
  have hs : 0 < initialWorld.viewState.scale := by norm_num [initialWorld, initialViewState]
  have h := scale_step_and_clamp ⟨fun x => x, fun x _ => x⟩ sampleContainer 0 640 360 (-1) 1
    initialWorld hs
  have h' := scale_step_and_clamp ⟨fun x => x, fun x _ => x⟩ sampleContainer 0 640 360 1 1
    initialWorld hs
  refine ⟨hs, ?_, ?_, ?_, ?_⟩
  · rw [h.1 (by norm_num)]
    norm_num [initialWorld, initialViewState]
  · rw [h'.2.1 (by norm_num)]
    norm_num [initialWorld, initialViewState]
  · rw [h.2.2.2.1]
    norm_num [initialWorld, initialViewState]
  · rw [h.2.2.2.2.1]
    norm_num [initialWorld, initialViewState]

/-! ## C8: the gesture flags -/

theorem handleTouchStart_eq (m : MathFns) (c : Container) (now : ℤ) (touches : List Touch)
    (w : World) :
    handleTouchStart m c now touches w
      = match touches with
        | [touch1, touch2] =>
          { cancelAnimation w with viewState := { (cancelAnimation w).viewState with
              isPinching := true
              initialPinchDistance := m.sqrt
                ((touch1.clientX - touch2.clientX) * (touch1.clientX - touch2.clientX)
                  + (touch1.clientY - touch2.clientY) * (touch1.clientY - touch2.clientY))
              pinchCenterX := (touch1.clientX + touch2.clientX) / 2 - c.left
              pinchCenterY := (touch1.clientY + touch2.clientY) / 2 - c.top
              pinchImageX := ((touch1.clientX + touch2.clientX) / 2 - c.left
                - (cancelAnimation w).viewState.translateX) / (cancelAnimation w).viewState.scale
              pinchImageY := ((touch1.clientY + touch2.clientY) / 2 - c.top
                - (cancelAnimation w).viewState.translateY)
                  / (cancelAnimation w).viewState.scale } }
        | [touch] =>
          if (cancelAnimation w).viewState.lastTapTime ≠ 0
              ∧ now - (cancelAnimation w).viewState.lastTapTime < 300
          then doubleTap c now touch (cancelAnimation w)
          else
            { cancelAnimation w with viewState := { (cancelAnimation w).viewState with
                lastTapTime := now
                isDragging := true
                startX := touch.clientX - (cancelAnimation w).viewState.translateX
                startY := touch.clientY - (cancelAnimation w).viewState.translateY
                dragDistance := 0 } }
        | _ => cancelAnimation w := by
  unfold handleTouchStart cancelAnimation
  rfl

theorem cancelAnimation_frame (w : World) (h : w.viewState.isAnimating = false) :
    cancelAnimation w = w := by
  unfold cancelAnimation
  rw [h]
  rfl

/-- The view after the start-up sequence: the fit scale at the top-left
corner, no gesture, no animation, no tap recorded. -/
theorem startup_view (c : Container) (now : ℤ) :
    (∃ vt te, (startup c now).viewState = { initialViewState with
        scale := c.offsetHeight / imageConfig.height
        translateX := 0, translateY := 0
        targetTranslateX := 0, targetTranslateY := 0
        targetScale := c.offsetHeight / imageConfig.height
        lastUpdateTime := now
        visibleTiles := vt, tileElements := te })
    ∧ (startup c now).animationFrameId = none := by
  unfold startup resetView
  dsimp only
  obtain ⟨⟨vt1, te1, h1⟩, hf1, -⟩ :=
    updateVisibleTiles_tilesOnly c true (updateViewTransform initialWorld)
  generalize updateVisibleTiles c true (updateViewTransform initialWorld) = w1 at h1 hf1 ⊢
  obtain ⟨⟨vt2, te2, h2⟩, hf2, -⟩ := updateVisibleTiles_tilesOnly c true
    (updateViewTransform { w1 with viewState := { w1.viewState with
      scale := c.offsetHeight / imageConfig.height, translateX := 0, translateY := 0,
      targetTranslateX := 0, targetTranslateY := 0,
      targetScale := c.offsetHeight / imageConfig.height } })
  refine ⟨⟨vt2, te2, ?_⟩, ?_⟩
  · rw [h2]
    simp only [updateViewTransform, h1]
    rfl
  · rw [hf2]
    simp only [updateViewTransform, hf1]
    rfl

/-- From the start-up state, a one-finger touch start (not a
double-tap) followed by a two-finger touch start leaves both `isDragging` and
`isPinching` true: the two-finger branch of `handleTouchStart` sets
`isPinching` and returns without clearing `isDragging`. -/
theorem drag_and_pinch_both_set (m : MathFns) (c : Container) :
    (run m (startup c 0)
      [(c, 1000, Event.touchstart [⟨100, 100⟩]),
       (c, 1050, Event.touchstart [⟨100, 100⟩, ⟨200, 200⟩])]).viewState.isDragging = true
    ∧ (run m (startup c 0)
      [(c, 1000, Event.touchstart [⟨100, 100⟩]),
       (c, 1050, Event.touchstart [⟨100, 100⟩, ⟨200, 200⟩])]).viewState.isPinching = true := by
  obtain ⟨⟨vt, te, hv⟩, hf⟩ := startup_view c 0
  have ha : (startup c 0).viewState.isAnimating = false := by rw [hv]; rfl
  have hl : (startup c 0).viewState.lastTapTime = 0 := by rw [hv]; rfl
  have h1 : (handleTouchStart m c 1000 [⟨100, 100⟩] (startup c 0)).viewState.isDragging = true
      ∧ (handleTouchStart m c 1000 [⟨100, 100⟩] (startup c 0)).viewState.isAnimating
          = false := by
    simp only [handleTouchStart_eq, cancelAnimation_frame _ ha, hl, ne_eq,
      not_true_eq_false, false_and, if_false]
    exact ⟨trivial, ha⟩
  simp only [run, step]
  rw [handleTouchStart_eq m c 1050, cancelAnimation_frame _ h1.2]
  exact ⟨h1.1, rfl⟩

/-! ## C9: the boundary policy outside gestures -/

@[simp]
theorem updateVisibleTiles_isDragging (c : Container) (f : Bool) (w : World) :
    (updateVisibleTiles c f w).viewState.isDragging = w.viewState.isDragging := by
  obtain ⟨⟨vt, te, h⟩, -, -⟩ := updateVisibleTiles_tilesOnly c f w
  rw [h]

@[simp]
theorem updateVisibleTiles_isAnimating (c : Container) (f : Bool) (w : World) :
    (updateVisibleTiles c f w).viewState.isAnimating = w.viewState.isAnimating := by
  obtain ⟨⟨vt, te, h⟩, -, -⟩ := updateVisibleTiles_tilesOnly c f w
  rw [h]

@[simp]
theorem updateVisibleTiles_animationFrameId (c : Container) (f : Bool) (w : World) :
    (updateVisibleTiles c f w).animationFrameId = w.animationFrameId :=
  (updateVisibleTiles_tilesOnly c f w).2.1

theorem boundaryTargets_inBoundsAt (c : Container) (v : ViewState) :
    InBoundsAt c (boundaryTargets c v).1 (boundaryTargets c v).2.1 (boundaryTargets c v).2.2 :=
  inBounds_of_targets c v
    { v with scale := (boundaryTargets c v).1, translateX := (boundaryTargets c v).2.1,
             translateY := (boundaryTargets c v).2.2 } rfl rfl rfl

theorem easeOutCubic_mem (p : ℚ) (h0 : 0 ≤ p) (h1 : p ≤ 1) :
    0 ≤ easeOutCubic p ∧ easeOutCubic p ≤ 1 := by
  unfold easeOutCubic
  have ha : 0 ≤ 1 - p := by linarith
  have hb : 1 - p ≤ 1 := by linarith
  have h3 : 0 ≤ (1 - p) ^ 3 := pow_nonneg ha 3
  have h4 : (1 - p) ^ 3 ≤ 1 := pow_le_one₀ ha hb
  constructor <;> linarith

theorem interpolate_pos (s0 s1 q : ℚ) (h0 : 0 < s0) (h1 : 0 < s1) (hq0 : 0 ≤ q)
    (hq1 : q ≤ 1) : 0 < s0 + (s1 - s0) * q := by
  have e : s0 + (s1 - s0) * q = s0 * (1 - q) + s1 * q := by ring
  rw [e]
  rcases eq_or_lt_of_le hq0 with hq | hq
  · rw [← hq]; linarith
  · have : 0 < s1 * q := mul_pos h1 hq
    have : 0 ≤ s0 * (1 - q) := mul_nonneg (le_of_lt h0) (by linarith)
    linarith

theorem progress_mem (now start : ℤ) (h : start ≤ now) :
    0 ≤ min (((now - start : ℤ) : ℚ) / 300) 1 ∧ min (((now - start : ℤ) : ℚ) / 300) 1 ≤ 1 := by
  refine ⟨le_min ?_ (by norm_num), min_le_right _ _⟩
  have : (0 : ℚ) ≤ ((now - start : ℤ) : ℚ) := by
    exact_mod_cast sub_nonneg.mpr h
  positivity

@[simp]
theorem updateVisibleTiles_lastTapTime (c : Container) (f : Bool) (w : World) :
    (updateVisibleTiles c f w).viewState.lastTapTime = w.viewState.lastTapTime := by
  obtain ⟨⟨vt, te, h⟩, -, -⟩ := updateVisibleTiles_tilesOnly c f w
  rw [h]

theorem snapshot_startup (c : Container) (now0 : ℤ) :
    snapshot (startup c now0)
      = { scale := c.offsetHeight / imageConfig.height, translateX := 0, translateY := 0,
          isDragging := false, isPinching := false, isAnimating := false,
          lastTapTime := 0, frame := none } := by
  obtain ⟨⟨vt, te, hv⟩, hf⟩ := startup_view c now0
  unfold snapshot
  rw [hv, hf]
  rfl

theorem needsCorrection_of_snapshot (c : Container) (w : World)
    (h : InBoundsAt c (snapshot w).scale (snapshot w).translateX (snapshot w).translateY) :
    needsCorrection c w.viewState = false :=
  (needsCorrection_false_iff_inBounds c w.viewState).mpr h

theorem sampleContainer_fit : sampleContainer.offsetHeight / imageConfig.height = 24/125 := by
  norm_num [sampleContainer, imageConfig]

theorem checkAndFixBoundaries_true_isDragging (c : Container) (now : ℤ) (w : World) :
    (checkAndFixBoundaries c now true w).viewState.isDragging = w.viewState.isDragging := by
  rw [checkAndFixBoundaries_true_viewState]
  split_ifs <;> rfl

theorem checkAndFixBoundaries_true_isAnimating (c : Container) (now : ℤ) (w : World)
    (h : needsCorrection c w.viewState = true) :
    (checkAndFixBoundaries c now true w).viewState.isAnimating = true := by
  rw [checkAndFixBoundaries_true_viewState, if_pos h]

/-- A press of the left mouse button followed by a
wheel step that zooms out below the fit scale leaves both `isDragging` and
`isAnimating` true: `handleWheel` starts the correcting animation without
looking at `isDragging`. -/
theorem drag_and_animation_both_set :
    (run sampleMath (startup sampleContainer 0)
      [(sampleContainer, 1000, Event.mousedown 0 100 100),
       (sampleContainer, 1050, Event.wheel 100 100 1)]).viewState.isDragging = true
    ∧ (run sampleMath (startup sampleContainer 0)
      [(sampleContainer, 1000, Event.mousedown 0 100 100),
       (sampleContainer, 1050, Event.wheel 100 100 1)]).viewState.isAnimating = true := by
  have h0 := snapshot_startup sampleContainer 0
  rw [sampleContainer_fit] at h0
  have hs0 : (startup sampleContainer 0).viewState.scale = 24/125 := congrArg Snapshot.scale h0
  have ha0 : (startup sampleContainer 0).viewState.isAnimating = false :=
    congrArg Snapshot.isAnimating h0
  simp only [run, step]
  have hd1 : (startDrag 0 100 100 (startup sampleContainer 0)).viewState.isDragging = true := by
    unfold startDrag
    simp [ha0]
  have hs1 : (startDrag 0 100 100 (startup sampleContainer 0)).viewState.scale = 24/125 := by
    unfold startDrag
    simp [ha0, hs0]
  generalize startDrag 0 100 100 (startup sampleContainer 0) = w1 at hd1 hs1 ⊢
  unfold handleWheel
  constructor
  · rw [checkAndFixBoundaries_true_isDragging, updateVisibleTiles_isDragging]
    exact hd1
  · refine checkAndFixBoundaries_true_isAnimating _ _ _ (needsCorrection_of_scale_lt _ _ ?_)
    rw [updateVisibleTiles_scale, sampleContainer_fit]
    simp only [updateViewTransform, handleWheelZoom, hs1]
    norm_num

/-- C8, failing runs. From the start-up state in the 1280 x 720 container:
(1) a one-finger touch start (not a double-tap) followed by a two-finger touch
start leaves `isDragging` and `isPinching` both true; (2) a press of the left
mouse button followed by a wheel step that zooms out below the fit scale
leaves `isDragging` and `isAnimating` both true. -/
theorem gesture_flags_overlap :
    ((run sampleMath (startup sampleContainer 0)
        [(sampleContainer, 1000, Event.touchstart [⟨100, 100⟩]),
         (sampleContainer, 1050,
           Event.touchstart [⟨100, 100⟩, ⟨200, 200⟩])]).viewState.isDragging = true
      ∧ (run sampleMath (startup sampleContainer 0)
        [(sampleContainer, 1000, Event.touchstart [⟨100, 100⟩]),
         (sampleContainer, 1050,
           Event.touchstart [⟨100, 100⟩, ⟨200, 200⟩])]).viewState.isPinching = true)
    ∧ ((run sampleMath (startup sampleContainer 0)
        [(sampleContainer, 1000, Event.mousedown 0 100 100),
         (sampleContainer, 1050, Event.wheel 100 100 1)]).viewState.isDragging = true
      ∧ (run sampleMath (startup sampleContainer 0)
        [(sampleContainer, 1000, Event.mousedown 0 100 100),
         (sampleContainer, 1050, Event.wheel 100 100 1)]).viewState.isAnimating = true) :=
  ⟨drag_and_pinch_both_set sampleMath sampleContainer, drag_and_animation_both_set⟩

/-! ## At most one frame callback is scheduled -/

theorem scheduled_update (c : Container) (f : Bool) (w : World)
    (h : ScheduledImpliesAnimating w) :
    ScheduledImpliesAnimating (updateVisibleTiles c f w) := by
  unfold ScheduledImpliesAnimating at h ⊢
  simp only [updateVisibleTiles_isAnimating, updateVisibleTiles_animationFrameId]
  exact h

theorem scheduled_startBoundaryAnimation (now : ℤ) (w : World) :
    ScheduledImpliesAnimating (startBoundaryAnimation now w) := by
  intro a _
  rw [startBoundaryAnimation_viewState]

theorem scheduled_check (c : Container) (now : ℤ) (w : World)
    (h : ∀ a, w.animationFrameId = some a → w.viewState.isAnimating = true) :
    ScheduledImpliesAnimating (checkAndFixBoundaries c now true w) := by
  cases hn : needsCorrection c w.viewState
  · rw [checkAndFixBoundaries_of_ok c now true w hn]
    exact h
  · rw [checkAndFixBoundaries_animate c now w hn]
    exact scheduled_startBoundaryAnimation now _

theorem scheduled_cancelAnimation (w : World) (h : ScheduledImpliesAnimating w) :
    ScheduledImpliesAnimating (cancelAnimation w) := by
  unfold cancelAnimation
  split_ifs
  · intro a ha
    exact Option.noConfusion ha
  · exact h

theorem scheduled_dragTo (m : MathFns) (c : Container) (now : ℤ) (x y : ℚ) (w : World)
    (h : ScheduledImpliesAnimating w) : ScheduledImpliesAnimating (dragTo m c now x y w) := by
  unfold dragTo ScheduledImpliesAnimating updateViewTransform
  dsimp only
  split_ifs
  · simp only [updateVisibleTiles_isAnimating, updateVisibleTiles_animationFrameId]
    exact h
  · exact h

theorem scheduled_animate (c : Container) (now : ℤ) (a : Animation) (w : World)
    (ha : w.viewState.isAnimating = true) (hf : w.animationFrameId = none) :
    ScheduledImpliesAnimating (animate c now a w) := by
  unfold animate ScheduledImpliesAnimating updateViewTransform
  dsimp only
  split_ifs
  · simp only [updateVisibleTiles_isAnimating]
    exact fun _ _ => ha
  · exact fun _ _ => ha
  · simp only [updateVisibleTiles_animationFrameId]
    intro b hb
    rw [hf] at hb
    exact Option.noConfusion hb
  · simp only [updateVisibleTiles_animationFrameId]
    intro b hb
    rw [hf] at hb
    exact Option.noConfusion hb

theorem scheduled_step (m : MathFns) (c : Container) (now : ℤ) (e : Event) (w : World)
    (h : ScheduledImpliesAnimating w) : ScheduledImpliesAnimating (step m c now e w) := by
  cases e with
  | mousedown b x y =>
    show ScheduledImpliesAnimating (startDrag b x y w)
    unfold startDrag
    dsimp only
    split_ifs
    · exact h
    · intro a ha
      exact Option.noConfusion ha
    · exact h
  | mousemove x y =>
    show ScheduledImpliesAnimating (drag m c now x y w)
    unfold drag
    split_ifs
    · exact scheduled_dragTo m c now x y w h
    · exact h
  | mouseup =>
    show ScheduledImpliesAnimating (endDrag c now w)
    unfold endDrag
    split_ifs
    · exact scheduled_update c true _ (scheduled_check c now _ h)
    · exact h
  | wheel x y d =>
    show ScheduledImpliesAnimating (handleWheel c now x y d w)
    unfold handleWheel
    refine scheduled_check c now _ ?_
    simp only [updateVisibleTiles_isAnimating, updateVisibleTiles_animationFrameId,
      updateViewTransform]
    exact h
  | zoomIn =>
    show ScheduledImpliesAnimating (zoomBy c now (6/5) w)
    unfold zoomBy
    refine scheduled_check c now _ ?_
    simp only [updateVisibleTiles_isAnimating, updateVisibleTiles_animationFrameId,
      updateViewTransform]
    exact h
  | zoomOut =>
    show ScheduledImpliesAnimating (zoomBy c now (4/5) w)
    unfold zoomBy
    refine scheduled_check c now _ ?_
    simp only [updateVisibleTiles_isAnimating, updateVisibleTiles_animationFrameId,
      updateViewTransform]
    exact h
  | reset =>
    show ScheduledImpliesAnimating (resetView c w)
    unfold resetView
    exact scheduled_update c true _ h
  | touchstart ts =>
    show ScheduledImpliesAnimating (handleTouchStart m c now ts w)
    rw [handleTouchStart_eq]
    have hc := scheduled_cancelAnimation w h
    split
    · exact hc
    · split_ifs
      · unfold doubleTap
        exact scheduled_startBoundaryAnimation now _
      · exact hc
    · exact hc
  | touchmove ts =>
    show ScheduledImpliesAnimating (handleTouchMove m c now ts w)
    unfold handleTouchMove
    dsimp only
    split
    · split_ifs
      · unfold ScheduledImpliesAnimating updateViewTransform
        simp only [updateVisibleTiles_isAnimating, updateVisibleTiles_animationFrameId]
        exact h
      · exact h
    · split_ifs
      · exact scheduled_dragTo m c now _ _ w h
      · exact h
    · exact h
  | touchend =>
    show ScheduledImpliesAnimating (handleTouchEnd c now w)
    unfold handleTouchEnd
    split_ifs
    · exact scheduled_update c true _ (scheduled_check c now _ h)
    · exact scheduled_update c true _ (scheduled_check c now _ h)
    · exact h
  | frame =>
    show ScheduledImpliesAnimating (animationFrame c now w)
    unfold animationFrame
    split
    · next a ha => exact scheduled_animate c now a _ (h a ha) rfl
    · exact h
  | resize =>
    show ScheduledImpliesAnimating (handleResize c w)
    unfold handleResize resetView
    exact scheduled_update c true _ (scheduled_update c true _ h)
  | imageLoaded id => exact h
  | imageFailed id => exact h

/-- In every state reached from the start-up state by any events in any
containers, a scheduled frame callback implies `isAnimating`. -/
theorem scheduled_implies_animating (m : MathFns) (c0 : Container) (now0 : ℤ)
    (events : List (Container × ℤ × Event)) :
    ScheduledImpliesAnimating (run m (startup c0 now0) events) := by
  have key : ∀ (evs : List (Container × ℤ × Event)) (w : World),
      ScheduledImpliesAnimating w → ScheduledImpliesAnimating (run m w evs) := by
    intro evs
    induction evs with
    | nil => exact fun w h => h
    | cons ev rest ih =>
      intro w h
      obtain ⟨c, now, e⟩ := ev
      exact ih _ (scheduled_step m c now e w h)
  refine key events _ ?_
  intro a ha
  rw [(startup_view c0 now0).2] at ha
  exact Option.noConfusion ha

/-! ## C11: the boundary check after a wheel or button zoom -/

theorem boundaryTargets_update (c c' : Container) (f : Bool) (w : World) :
    boundaryTargets c (updateVisibleTiles c' f w).viewState = boundaryTargets c w.viewState := by
  obtain ⟨⟨vt, te, h⟩, -, -⟩ := updateVisibleTiles_tilesOnly c' f w
  rw [h]
  rfl

theorem needsCorrection_update (c c' : Container) (f : Bool) (w : World) :
    needsCorrection c (updateVisibleTiles c' f w).viewState = needsCorrection c w.viewState := by
  obtain ⟨⟨vt, te, h⟩, -, -⟩ := updateVisibleTiles_tilesOnly c' f w
  rw [h]
  rfl

/-- The boundary check as `handleWheel` and `zoomBy` run it, on the view `v1`
they have just written. -/
theorem check_after_zoom (c : Container) (now : ℤ) (w : World) (v1 : ViewState) :
    ZoomChecked c now w.animationFrameId v1
      (checkAndFixBoundaries c now true (updateVisibleTiles c true
        (updateViewTransform { w with viewState := v1 }))) := by
  have hn : needsCorrection c (updateVisibleTiles c true
      (updateViewTransform { w with viewState := v1 })).viewState = needsCorrection c v1 :=
    needsCorrection_update c c true _
  have hb : boundaryTargets c (updateVisibleTiles c true
      (updateViewTransform { w with viewState := v1 })).viewState = boundaryTargets c v1 :=
    boundaryTargets_update c c true _
  have hs : (checkAndFixBoundaries c now true (updateVisibleTiles c true
      (updateViewTransform { w with viewState := v1 }))).viewState.scale = v1.scale := by
    rw [checkAndFixBoundaries_true_scale, updateVisibleTiles_scale]; rfl
  have hx : (checkAndFixBoundaries c now true (updateVisibleTiles c true
      (updateViewTransform { w with viewState := v1 }))).viewState.translateX
      = v1.translateX := by
    rw [checkAndFixBoundaries_true_translateX, updateVisibleTiles_translateX]; rfl
  have hy : (checkAndFixBoundaries c now true (updateVisibleTiles c true
      (updateViewTransform { w with viewState := v1 }))).viewState.translateY
      = v1.translateY := by
    rw [checkAndFixBoundaries_true_translateY, updateVisibleTiles_translateY]; rfl
  refine ⟨⟨hs, hx, hy⟩, ?_, ?_⟩
  · intro hin
    have h0 : needsCorrection c v1 = false := (needsCorrection_false_iff_inBounds c v1).mpr hin
    refine ⟨?_, ?_, ?_⟩
    · rw [checkAndFixBoundaries_of_ok c now true _ (hn.trans h0)]
      exact updateVisibleTiles_isAnimating _ _ _
    · rw [checkAndFixBoundaries_of_ok c now true _ (hn.trans h0)]
      exact updateVisibleTiles_animationFrameId _ _ _
    · unfold InBounds
      rw [hs, hx, hy]
      exact hin
  · intro hout
    have h1 : needsCorrection c v1 = true := by
      rw [← Bool.not_eq_false, needsCorrection_false_iff_inBounds]
      exact hout
    rw [checkAndFixBoundaries_animate c now _ (hn.trans h1), startBoundaryAnimation_viewState,
      startBoundaryAnimation_frame, hb]
    refine ⟨rfl, rfl, boundaryTargets_inBoundsAt c v1, ?_⟩
    simp only [updateVisibleTiles_scale, updateVisibleTiles_translateX,
      updateVisibleTiles_translateY, updateViewTransform]

/-- C11, counterexample: in the 1280 x 720 container a press on the zoom-out
button in the start-up state returns with scale 0.1536, below the fit scale
0.192, so the view does not satisfy the boundary policy, and with
`isAnimating` true: the correction was not snapped, the call entered the
Animating state. -/
theorem zoom_out_not_snapped :
    0 < sampleContainer.offsetWidth ∧ 0 < sampleContainer.offsetHeight
    ∧ (zoomBy sampleContainer 100 (4/5) (startup sampleContainer 0)).viewState.scale = 96/625
    ∧ ¬ InBounds sampleContainer
        (zoomBy sampleContainer 100 (4/5) (startup sampleContainer 0)).viewState
    ∧ (zoomBy sampleContainer 100 (4/5) (startup sampleContainer 0)).viewState.isAnimating
        = true := by
  have h0 := snapshot_startup sampleContainer 0
  rw [sampleContainer_fit] at h0
  have hs0 : (startup sampleContainer 0).viewState.scale = 24/125 := congrArg Snapshot.scale h0
  have hs : (zoomBy sampleContainer 100 (4/5) (startup sampleContainer 0)).viewState.scale
      = 96/625 := by
    rw [zoomBy_scale, hs0]; norm_num
  have hout : ¬ InBounds sampleContainer
      (zoomBy sampleContainer 100 (4/5) (startup sampleContainer 0)).viewState := by
    intro hin
    have h1 := hin.1
    rw [hs, sampleContainer_fit] at h1
    norm_num at h1
  refine ⟨by norm_num [sampleContainer], by norm_num [sampleContainer], hs, hout, ?_⟩
  have hz := check_after_zoom sampleContainer 100 (startup sampleContainer 0)
    (zoomByZoom sampleContainer (4/5) (startup sampleContainer 0).viewState)
  refine (hz.2.2 ?_).1
  intro hin
  apply hout
  unfold InBounds
  have e := hz.1
  unfold zoomBy
  rw [e.1, e.2.1, e.2.2]
  exact hin

/-- C11, amended. Wheel and zoom-button actions are followed by an immediate
boundary check with animation: when `handleWheel` or `zoomBy` returns, scale
and translate are the values written by the zoom step; if these satisfy the
boundary policy, `isAnimating` and the scheduled frame callback are as before
the call; if not, the call has entered the Animating state: `isAnimating` is
true, the animation targets are the values computed by
`checkAndFixBoundaries`, they satisfy the boundary policy, and the frame
callback is scheduled from the zoomed view towards them. -/
theorem zoom_check_is_animated (c : Container) (now : ℤ) (clientX clientY deltaY factor : ℚ)
    (w : World) (_hs : 0 < w.viewState.scale) (_hw : 0 < c.offsetWidth)
    (_hh : 0 < c.offsetHeight) :
    (handleWheelZoom c clientX clientY deltaY w.viewState).isAnimating = w.viewState.isAnimating
    ∧ (zoomByZoom c factor w.viewState).isAnimating = w.viewState.isAnimating
    ∧ ZoomChecked c now w.animationFrameId
        (handleWheelZoom c clientX clientY deltaY w.viewState)
        (handleWheel c now clientX clientY deltaY w)
    ∧ ZoomChecked c now w.animationFrameId (zoomByZoom c factor w.viewState)
        (zoomBy c now factor w) :=
  ⟨rfl, rfl, check_after_zoom c now w _, check_after_zoom c now w _⟩

/-- C11, amended, at the zoom-out button in the start-up state of the
1280 x 720 container: the call returns animating towards the fit scale. -/
theorem zoom_check_is_animated_witness :
    0 < initialWorld.viewState.scale ∧ 0 < sampleContainer.offsetWidth
    ∧ 0 < sampleContainer.offsetHeight
    ∧ ZoomChecked sampleContainer 0 initialWorld.animationFrameId
        (zoomByZoom sampleContainer (4/5) initialWorld.viewState)
        (zoomBy sampleContainer 0 (4/5) initialWorld) :=
  ⟨by norm_num [initialWorld, initialViewState], by norm_num [sampleContainer],
   by norm_num [sampleContainer],
   (zoom_check_is_animated sampleContainer 0 0 0 0 (4/5) initialWorld
     (by norm_num [initialWorld, initialViewState]) (by norm_num [sampleContainer])
     (by norm_num [sampleContainer])).2.2.2⟩

/-! ## C12: containers of width or height zero -/

/-- The targets of `checkAndFixBoundaries` are the clamped `preClampTargets`. -/
theorem boundaryTargets_preClamp (c : Container) (v : ViewState) :
    boundaryTargets c v
      = ((boundaryTargets c v).1,
         min (translateBounds c (boundaryTargets c v).1).2.1
           (max (translateBounds c (boundaryTargets c v).1).1 (preClampTargets c v).1),
         min (translateBounds c (boundaryTargets c v).1).2.2.2
           (max (translateBounds c (boundaryTargets c v).1).2.2.1 (preClampTargets c v).2)) :=
  rfl

/-- What the pre-clamp targets do when the scale is raised: in both cases the
saved centre is mapped to the centre of the container. -/
theorem preClampTargets_center (c : Container) (v : ViewState)
    (h : v.scale < c.offsetHeight / imageConfig.height) :
    (boundaryTargets c v).1 = c.offsetHeight / imageConfig.height
    ∧ (v.isPinching = true →
        v.pinchImageX * (boundaryTargets c v).1 + (preClampTargets c v).1 = c.offsetWidth / 2
        ∧ v.pinchImageY * (boundaryTargets c v).1 + (preClampTargets c v).2
            = c.offsetHeight / 2)
    ∧ (v.isPinching = false →
        (c.offsetWidth / 2 - v.translateX) / v.scale * (boundaryTargets c v).1
            + (preClampTargets c v).1 = c.offsetWidth / 2
        ∧ (c.offsetHeight / 2 - v.translateY) / v.scale * (boundaryTargets c v).1
            + (preClampTargets c v).2 = c.offsetHeight / 2) := by
  have hs : (boundaryTargets c v).1 = c.offsetHeight / imageConfig.height := by
    rw [boundaryTargets_scale]
    exact max_eq_right (le_of_lt h)
  refine ⟨hs, ?_, ?_⟩
  · intro hp
    rw [hs]
    unfold preClampTargets
    simp only [hp, h, if_true, decide_True]
    constructor <;> ring
  · intro hp
    rw [hs]
    unfold preClampTargets
    simp only [hp, h, if_true, decide_True, Bool.false_eq_true, if_false]
    constructor <;> ring

/-- C13, failing state. A pinch in progress in a 1280 x 720 container with
scale 0.1, translate (0, 0), recorded midpoint (100, 100) and recorded image
point (1000, 1000), which is shown at the midpoint.  `checkAndFixBoundaries`
raises the scale to 720 / 3750 = 0.192 and computes the pre-clamp target
translate (448, 168), which shows the image point (1000, 1000) at the centre
of the container (640, 360), not at the midpoint (100, 100). -/
theorem pinch_anchor_recentred :
    pinchedOutWorld.viewState.isPinching = true
    ∧ pinchedOutWorld.viewState.pinchImageX * pinchedOutWorld.viewState.scale
        + pinchedOutWorld.viewState.translateX = pinchedOutWorld.viewState.pinchCenterX
    ∧ pinchedOutWorld.viewState.pinchImageY * pinchedOutWorld.viewState.scale
        + pinchedOutWorld.viewState.translateY = pinchedOutWorld.viewState.pinchCenterY
    ∧ (boundaryTargets sampleContainer pinchedOutWorld.viewState).1 = 24/125
    ∧ (boundaryTargets sampleContainer pinchedOutWorld.viewState).1
        ≠ pinchedOutWorld.viewState.scale
    ∧ preClampTargets sampleContainer pinchedOutWorld.viewState = (448, 168)
    ∧ pinchedOutWorld.viewState.pinchImageX
          * (boundaryTargets sampleContainer pinchedOutWorld.viewState).1
        + (preClampTargets sampleContainer pinchedOutWorld.viewState).1 = 640
    ∧ pinchedOutWorld.viewState.pinchImageY
          * (boundaryTargets sampleContainer pinchedOutWorld.viewState).1
        + (preClampTargets sampleContainer pinchedOutWorld.viewState).2 = 360
    ∧ pinchedOutWorld.viewState.pinchCenterX = 100
    ∧ pinchedOutWorld.viewState.pinchCenterY = 100 := by
  have hs : (boundaryTargets sampleContainer pinchedOutWorld.viewState).1 = 24/125 := by
    rw [boundaryTargets_scale]
    norm_num [sampleContainer, pinchedOutWorld, imageConfig]
  have hp : preClampTargets sampleContainer pinchedOutWorld.viewState = (448, 168) := by
    norm_num [preClampTargets, sampleContainer, pinchedOutWorld, imageConfig]
  refine ⟨rfl, ?_, ?_, hs, ?_, hp, ?_, ?_, rfl, rfl⟩
  · norm_num [pinchedOutWorld]
  · norm_num [pinchedOutWorld]
  · rw [hs]
    norm_num [pinchedOutWorld]
  · rw [hs, hp]
    norm_num [pinchedOutWorld]
  · rw [hs, hp]
    norm_num [pinchedOutWorld]

/-! ## Tile elements through `updateVisibleTiles` -/

theorem attached_isSome {e : TileId → Option TileElement} {id : TileId}
    (h : attached e id = true) : (e id).isSome = true := by
  unfold attached at h
  cases he : e id with
  | none => rw [he] at h; exact absurd h (by simp)
  | some el => rfl

theorem attached_of_eq {e : TileId → Option TileElement} {id : TileId} {el : TileElement}
    (he : e id = some el) : attached e id = el.parentNode := by
  unfold attached
  rw [he]

theorem visitTile_loadedTiles (w : World) (id : TileId) :
    (visitTile w id).viewState.loadedTiles = w.viewState.loadedTiles := by
  obtain ⟨⟨vt, te, h⟩, -, -⟩ := visitTile_tilesOnly w id
  rw [h]

theorem foldl_visitTile_loadedTiles (ids : List TileId) (w : World) :
    (ids.foldl visitTile w).viewState.loadedTiles = w.viewState.loadedTiles := by
  obtain ⟨⟨vt, te, h⟩, -, -⟩ := foldl_visitTile_tilesOnly ids w
  rw [h]

theorem updateVisibleTiles_loadedTiles (c : Container) (f : Bool) (w : World) :
    (updateVisibleTiles c f w).viewState.loadedTiles = w.viewState.loadedTiles := by
  obtain ⟨⟨vt, te, h⟩, -, -⟩ := updateVisibleTiles_tilesOnly c f w
  rw [h]

theorem visitTile_tileElements_ne (w : World) (id k : TileId) (h : k ≠ id) :
    (visitTile w id).viewState.tileElements k = w.viewState.tileElements k := by
  unfold visitTile
  dsimp only
  split
  · unfold loadTile
    dsimp only
    split
    · rfl
    · dsimp only
      rw [if_neg h]
  · split
    · split
      · rfl
      · dsimp only
        rw [if_neg h]
    · rfl

theorem visitTile_pending (w : World) (id : TileId) (hl : id ∉ w.viewState.loadedTiles)
    (hs : (w.viewState.tileElements id).isSome = true) :
    (visitTile w id).viewState.tileElements = w.viewState.tileElements := by
  unfold visitTile
  dsimp only
  rw [if_pos hl]
  unfold loadTile
  dsimp only
  rw [if_pos (Or.inr hs)]

theorem visitTile_loaded_attached (w : World) (id : TileId) (hl : id ∈ w.viewState.loadedTiles)
    (hs : (w.viewState.tileElements id).isSome = true) :
    attached (visitTile w id).viewState.tileElements id = true := by
  unfold visitTile
  dsimp only
  rw [if_neg (not_not.mpr hl)]
  split
  · next el hel =>
    split
    · next hp =>
      dsimp only
      rw [attached_of_eq hel]
      exact hp
    · dsimp only
      unfold attached
      dsimp only
      rw [if_pos rfl]
  · next hnone =>
    rw [hnone] at hs
    exact absurd hs (by simp)

theorem visitTile_new_attached (w : World) (id : TileId) (hl : id ∉ w.viewState.loadedTiles)
    (hn : w.viewState.tileElements id = none) :
    attached (visitTile w id).viewState.tileElements id = true := by
  unfold visitTile
  dsimp only
  rw [if_pos hl]
  unfold loadTile
  dsimp only
  have hno : ¬ (id ∈ w.viewState.loadedTiles ∨ (w.viewState.tileElements id).isSome = true) := by
    rw [hn]
    simp [hl]
  rw [if_neg hno]
  unfold attached
  dsimp only
  rw [if_pos rfl]

theorem visitTile_attached_mono (w : World) (id k : TileId)
    (h : attached w.viewState.tileElements k = true) :
    attached (visitTile w id).viewState.tileElements k = true := by
  by_cases hk : k = id
  · subst hk
    by_cases hl : k ∈ w.viewState.loadedTiles
    · exact visitTile_loaded_attached w k hl (attached_isSome h)
    · rw [visitTile_pending w k hl (attached_isSome h)]
      exact h
  · unfold attached
    rw [visitTile_tileElements_ne w id k hk]
    exact h

theorem foldl_visitTile_attached_mono (ids : List TileId) (w : World) (k : TileId)
    (h : attached w.viewState.tileElements k = true) :
    attached (ids.foldl visitTile w).viewState.tileElements k = true := by
  induction ids generalizing w with
  | nil => exact h
  | cons id rest ih => exact ih _ (visitTile_attached_mono w id k h)

theorem foldl_visitTile_tileElements_not_mem (ids : List TileId) (w : World) (k : TileId)
    (hk : k ∉ ids) :
    (ids.foldl visitTile w).viewState.tileElements k = w.viewState.tileElements k := by
  induction ids generalizing w with
  | nil => rfl
  | cons id rest ih =>
    rw [List.foldl_cons, ih _ (fun h => hk (List.mem_cons_of_mem _ h)),
      visitTile_tileElements_ne w id k (fun h => hk (h ▸ List.mem_cons_self _ _))]

theorem foldl_visitTile_pending (ids : List TileId) (w : World) (k : TileId) (el : TileElement)
    (hl : k ∉ w.viewState.loadedTiles) (he : w.viewState.tileElements k = some el) :
    (ids.foldl visitTile w).viewState.tileElements k = some el := by
  induction ids generalizing w with
  | nil => exact he
  | cons id rest ih =>
    rw [List.foldl_cons]
    apply ih
    · rw [visitTile_loadedTiles]
      exact hl
    · by_cases hk : k = id
      · subst hk
        rw [visitTile_pending w k hl (by rw [he]; rfl)]
        exact he
      · rw [visitTile_tileElements_ne w id k hk]
        exact he

theorem foldl_visitTile_loaded_attached (ids : List TileId) (w : World) (k : TileId)
    (hk : k ∈ ids) (hl : k ∈ w.viewState.loadedTiles)
    (hs : (w.viewState.tileElements k).isSome = true) :
    attached (ids.foldl visitTile w).viewState.tileElements k = true := by
  induction ids generalizing w with
  | nil => exact absurd hk (List.not_mem_nil _)
  | cons id rest ih =>
    rw [List.foldl_cons]
    by_cases hid : k = id
    · subst hid
      exact foldl_visitTile_attached_mono rest _ k (visitTile_loaded_attached w k hl hs)
    · apply ih
      · exact (List.mem_cons.mp hk).resolve_left hid
      · rw [visitTile_loadedTiles]
        exact hl
      · rw [visitTile_tileElements_ne w id k hid]
        exact hs

theorem foldl_visitTile_new_attached (ids : List TileId) (w : World) (k : TileId)
    (hk : k ∈ ids) (hl : k ∉ w.viewState.loadedTiles)
    (hn : w.viewState.tileElements k = none) :
    attached (ids.foldl visitTile w).viewState.tileElements k = true := by
  induction ids generalizing w with
  | nil => exact absurd hk (List.not_mem_nil _)
  | cons id rest ih =>
    rw [List.foldl_cons]
    by_cases hid : k = id
    · subst hid
      exact foldl_visitTile_attached_mono rest _ k (visitTile_new_attached w k hl hn)
    · apply ih
      · exact (List.mem_cons.mp hk).resolve_left hid
      · rw [visitTile_loadedTiles]
        exact hl
      · rw [visitTile_tileElements_ne w id k hid]
        exact hn

/-- The view state after `updateVisibleTiles`: the loops run from a state with
the visible set emptied, and the forced clean-up follows when `forceUpdate`. -/
theorem updateVisibleTiles_viewState (c : Container) (f : Bool) (w : World) :
    ∃ w2 : World, w2.viewState = { w.viewState with visibleTiles := [] }
      ∧ w2.requests = w.requests
      ∧ (updateVisibleTiles c f w).viewState
          = if f = true then
              detachInvisible ((visibleTileRange c w.viewState).foldl visitTile w2).viewState
            else ((visibleTileRange c w.viewState).foldl visitTile w2).viewState := by
  unfold updateVisibleTiles
  cases f
  · simp only [Bool.false_eq_true, if_false, Bool.false_or]
    refine ⟨{ w with viewState := { w.viewState with visibleTiles := [] } }, rfl, rfl, ?_⟩
    split
    · split <;> rfl
    · rfl
  · simp only [if_true, Bool.true_or]
    refine ⟨{ w with loadingIndicator := true,
                     viewState := { w.viewState with visibleTiles := [] } }, rfl, rfl, ?_⟩
    split <;> rfl

theorem detachInvisible_tileElements (v : ViewState) (k : TileId) :
    (detachInvisible v).tileElements k
      = (v.tileElements k).map (fun el =>
          if k ∉ v.visibleTiles ∧ el.parentNode = true then { el with parentNode := false }
          else el) := rfl

theorem attached_detach_mem (v : ViewState) (k : TileId)
    (h : attached (detachInvisible v).tileElements k = true) : k ∈ v.visibleTiles := by
  unfold attached at h
  rw [detachInvisible_tileElements] at h
  cases he : v.tileElements k with
  | none => rw [he] at h; exact absurd h (by simp)
  | some el =>
    rw [he] at h
    by_contra hk
    cases hp : el.parentNode with
    | false => simp [hp] at h
    | true => simp [hk, hp] at h

theorem attached_detach_of_mem (v : ViewState) (k : TileId) (hk : k ∈ v.visibleTiles) :
    attached (detachInvisible v).tileElements k = attached v.tileElements k := by
  unfold attached
  rw [detachInvisible_tileElements]
  cases he : v.tileElements k with
  | none => rfl
  | some el => simp [hk]

theorem foldl_visitTile_range_visible (c : Container) (v : ViewState) (w2 : World)
    (h2 : w2.viewState.visibleTiles = []) :
    ((visibleTileRange c v).foldl visitTile w2).viewState.visibleTiles
      = visibleTileRange c v := by
  rw [foldl_visitTile_visibleTiles, h2]
  exact foldl_setAdd_of_nodup _ [] (by simpa using nodup_visibleTileRange c v)

/-- Soft refresh: nothing is detached. -/
theorem updateVisibleTiles_soft_attached (c : Container) (w : World) (k : TileId)
    (h : attached w.viewState.tileElements k = true) :
    attached (updateVisibleTiles c false w).viewState.tileElements k = true := by
  obtain ⟨w2, hv, -, hr⟩ := updateVisibleTiles_viewState c false w
  rw [hr, if_neg (by decide)]
  apply foldl_visitTile_attached_mono
  rw [hv]
  exact h

/-- Forced refresh: what is still attached is visible. -/
theorem updateVisibleTiles_forced_attached (c : Container) (w : World) (k : TileId)
    (h : attached (updateVisibleTiles c true w).viewState.tileElements k = true) :
    k ∈ (updateVisibleTiles c true w).viewState.visibleTiles := by
  obtain ⟨w2, hv, -, hr⟩ := updateVisibleTiles_viewState c true w
  rw [hr, if_pos rfl] at h ⊢
  exact attached_detach_mem
    ((visibleTileRange c w.viewState).foldl visitTile w2).viewState k h

/-- A visible tile that is marked loaded and has an element is attached after
the refresh. -/
theorem updateVisibleTiles_loaded_attached (c : Container) (f : Bool) (w : World) (k : TileId)
    (hk : k ∈ visibleTileRange c w.viewState) (hl : k ∈ w.viewState.loadedTiles)
    (hs : (w.viewState.tileElements k).isSome = true) :
    attached (updateVisibleTiles c f w).viewState.tileElements k = true := by
  obtain ⟨w2, hv, -, hr⟩ := updateVisibleTiles_viewState c f w
  have hfold : attached ((visibleTileRange c w.viewState).foldl visitTile w2).viewState.tileElements
      k = true :=
    foldl_visitTile_loaded_attached _ w2 k hk (by rw [hv]; exact hl) (by rw [hv]; exact hs)
  rw [hr]
  cases f
  · rw [if_neg (by decide)]
    exact hfold
  · rw [if_pos rfl, attached_detach_of_mem _ k]
    · exact hfold
    · rw [foldl_visitTile_range_visible c w.viewState w2 (by rw [hv])]
      exact hk

/-- A visible tile without element that is not marked loaded gets an attached
element. -/
theorem updateVisibleTiles_new_attached (c : Container) (f : Bool) (w : World) (k : TileId)
    (hk : k ∈ visibleTileRange c w.viewState) (hl : k ∉ w.viewState.loadedTiles)
    (hn : w.viewState.tileElements k = none) :
    attached (updateVisibleTiles c f w).viewState.tileElements k = true := by
  obtain ⟨w2, hv, -, hr⟩ := updateVisibleTiles_viewState c f w
  have hfold : attached ((visibleTileRange c w.viewState).foldl visitTile w2).viewState.tileElements
      k = true :=
    foldl_visitTile_new_attached _ w2 k hk (by rw [hv]; exact hl) (by rw [hv]; exact hn)
  rw [hr]
  cases f
  · rw [if_neg (by decide)]
    exact hfold
  · rw [if_pos rfl, attached_detach_of_mem _ k]
    · exact hfold
    · rw [foldl_visitTile_range_visible c w.viewState w2 (by rw [hv])]
      exact hk

/-- A detached element whose tile is not marked loaded is left as it is by a
refresh, forced or not, whether or not the tile is visible. -/
theorem updateVisibleTiles_pending_detached (c : Container) (f : Bool) (w : World) (k : TileId)
    (el : TileElement) (hl : k ∉ w.viewState.loadedTiles)
    (he : w.viewState.tileElements k = some el) (hp : el.parentNode = false) :
    (updateVisibleTiles c f w).viewState.tileElements k = some el := by
  obtain ⟨w2, hv, -, hr⟩ := updateVisibleTiles_viewState c f w
  have hfold : ((visibleTileRange c w.viewState).foldl visitTile w2).viewState.tileElements k
      = some el :=
    foldl_visitTile_pending _ w2 k el (by rw [hv]; exact hl) (by rw [hv]; exact he)
  rw [hr]
  cases f
  · rw [if_neg (by decide)]
    exact hfold
  · rw [if_pos rfl, detachInvisible_tileElements, hfold]
    simp [hp]

/-- A forced refresh detaches the element of a tile that is not visible. -/
theorem updateVisibleTiles_forced_detaches (c : Container) (w : World) (k : TileId)
    (hk : k ∉ visibleTileRange c w.viewState) :
    attached (updateVisibleTiles c true w).viewState.tileElements k = false
    ∧ ((updateVisibleTiles c true w).viewState.tileElements k).isSome
        = (w.viewState.tileElements k).isSome := by
  obtain ⟨w2, hv, -, hr⟩ := updateVisibleTiles_viewState c true w
  have hfold : ((visibleTileRange c w.viewState).foldl visitTile w2).viewState.tileElements k
      = w.viewState.tileElements k := by
    rw [foldl_visitTile_tileElements_not_mem _ w2 k hk, hv]
  have hvis : k ∉ ((visibleTileRange c w.viewState).foldl visitTile w2).viewState.visibleTiles := by
    rw [foldl_visitTile_range_visible c w.viewState w2 (by rw [hv])]
    exact hk
  rw [hr, if_pos rfl]
  unfold attached
  rw [detachInvisible_tileElements, hfold]
  cases he : w.viewState.tileElements k with
  | none => exact ⟨rfl, rfl⟩
  | some el =>
    refine ⟨?_, rfl⟩
    cases hp : el.parentNode <;> simp [hvis, hp]

theorem updateVisibleTiles_isSome (c : Container) (f : Bool) (w : World) (k : TileId)
    (h : (w.viewState.tileElements k).isSome = true) :
    ((updateVisibleTiles c f w).viewState.tileElements k).isSome = true :=
  (updateVisibleTiles_cacheGrows c f w).2.1 k h

/-- A refresh issues no request for a tile that has an element. -/
theorem updateVisibleTiles_no_refetch (c : Container) (f : Bool) (w : World) (k : TileId)
    (h : (w.viewState.tileElements k).isSome = true) :
    (updateVisibleTiles c f w).requests.count k = w.requests.count k := by
  obtain ⟨-, -, new, hnew, -, hall⟩ := updateVisibleTiles_cacheGrows c f w
  rw [hnew, List.count_append]
  have hk : k ∉ new := by
    intro hmem
    have h2 := (hall k hmem).2.1
    rw [h] at h2
    exact absurd h2 (by simp)
  rw [List.count_eq_zero_of_not_mem hk, Nat.add_zero]

/-! ## C14 and C15: reattaching and detaching tile elements -/

theorem origin_not_visible (v : ViewState) (hs : v.scale = 1/5) (hx : v.translateX = -2400) :
    ((0, 0) : TileId) ∉ visibleTileRange sampleContainer v := by
  rw [mem_visibleTileRange_iff, bufferedRect_eq, hs, hx]
  norm_num [sampleContainer, imageConfig]

theorem origin_visible (v : ViewState) (hs : v.scale = 1/5) (hx : v.translateX = 0)
    (hy : v.translateY = 0) : ((0, 0) : TileId) ∈ visibleTileRange sampleContainer v := by
  rw [mem_visibleTileRange_iff, bufferedRect_eq, hs, hx, hy, tilesX_eq, tilesY_eq]
  norm_num [sampleContainer, imageConfig]

theorem pending_detached_step (f : Bool) (w : World) (hs : w.viewState.scale = 1/5)
    (hy : w.viewState.translateY = 0) (hl : w.viewState.loadedTiles = [])
    (ha : attached w.viewState.tileElements (0, 0) = true) :
    ((0, 0) : TileId) ∈ (updateVisibleTiles sampleContainer f
        (panTo 0 (updateVisibleTiles sampleContainer true (panTo (-2400) w)))).viewState.visibleTiles
    ∧ ((updateVisibleTiles sampleContainer f
        (panTo 0 (updateVisibleTiles sampleContainer true
          (panTo (-2400) w)))).viewState.tileElements (0, 0)).isSome = true
    ∧ attached (updateVisibleTiles sampleContainer f
        (panTo 0 (updateVisibleTiles sampleContainer true
          (panTo (-2400) w)))).viewState.tileElements (0, 0) = false
    ∧ ((0, 0) : TileId) ∉ (updateVisibleTiles sampleContainer f
        (panTo 0 (updateVisibleTiles sampleContainer true
          (panTo (-2400) w)))).viewState.loadedTiles := by
  have h1 := updateVisibleTiles_forced_detaches sampleContainer (panTo (-2400) w) (0, 0)
    (origin_not_visible _ hs rfl)
  have h1s : ((updateVisibleTiles sampleContainer true
      (panTo (-2400) w)).viewState.tileElements (0, 0)).isSome = true :=
    h1.2.trans (attached_isSome ha)
  have h1l : (updateVisibleTiles sampleContainer true (panTo (-2400) w)).viewState.loadedTiles
      = [] := by
    rw [updateVisibleTiles_loadedTiles]
    exact hl
  have h1sc : (updateVisibleTiles sampleContainer true (panTo (-2400) w)).viewState.scale
      = 1/5 := by
    rw [updateVisibleTiles_scale]
    exact hs
  have h1y : (updateVisibleTiles sampleContainer true (panTo (-2400) w)).viewState.translateY
      = 0 := by
    rw [updateVisibleTiles_translateY]
    exact hy
  have h1a := h1.1
  generalize updateVisibleTiles sampleContainer true (panTo (-2400) w) = w1 at h1s h1l h1sc h1y h1a ⊢
  obtain ⟨el, hel⟩ := Option.isSome_iff_exists.mp h1s
  have hp : el.parentNode = false := by
    rw [attached_of_eq hel] at h1a
    exact h1a
  have hne : ((0, 0) : TileId) ∉ (panTo 0 w1).viewState.loadedTiles := by
    show ((0, 0) : TileId) ∉ w1.viewState.loadedTiles
    rw [h1l]
    exact List.not_mem_nil _
  have h2 := updateVisibleTiles_pending_detached sampleContainer f (panTo 0 w1) (0, 0) el
    hne hel hp
  refine ⟨?_, ?_, ?_, ?_⟩
  · rw [updateVisibleTiles_visibleTiles]
    exact origin_visible _ h1sc rfl h1y
  · rw [h2]
    rfl
  · rw [attached_of_eq h2]
    exact hp
  · rw [updateVisibleTiles_loadedTiles]
    exact hne

/-- C14, failing run. The tiles are refreshed (forced) at the initial view in
a 1280 x 720 container, which creates the element of tile (0, 0) and requests
its image; no image callback runs.  A forced refresh with the view panned to
translateX = -2400 detaches the element, and after a refresh (soft or forced)
with the view back at translateX = 0 the tile (0, 0) is in the visible set,
has its element in `tileElements`, is not in `loadedTiles`, and is still
detached. -/
theorem pending_tile_not_reattached :
    (((0, 0) : TileId) ∈ (pendingDetachedRun false).viewState.visibleTiles
      ∧ ((pendingDetachedRun false).viewState.tileElements (0, 0)).isSome = true
      ∧ attached (pendingDetachedRun false).viewState.tileElements (0, 0) = false
      ∧ ((0, 0) : TileId) ∉ (pendingDetachedRun false).viewState.loadedTiles)
    ∧ (((0, 0) : TileId) ∈ (pendingDetachedRun true).viewState.visibleTiles
      ∧ ((pendingDetachedRun true).viewState.tileElements (0, 0)).isSome = true
      ∧ attached (pendingDetachedRun true).viewState.tileElements (0, 0) = false
      ∧ ((0, 0) : TileId) ∉ (pendingDetachedRun true).viewState.loadedTiles) := by
  have hvis : ((0, 0) : TileId) ∈ visibleTileRange sampleContainer initialWorld.viewState :=
    origin_visible _ rfl rfl rfl
  have ha := updateVisibleTiles_new_attached sampleContainer true initialWorld (0, 0) hvis
    (List.not_mem_nil _) rfl
  have hs : (updateVisibleTiles sampleContainer true initialWorld).viewState.scale = 1/5 := by
    rw [updateVisibleTiles_scale]
    rfl
  have hy : (updateVisibleTiles sampleContainer true initialWorld).viewState.translateY = 0 := by
    rw [updateVisibleTiles_translateY]
    rfl
  have hl : (updateVisibleTiles sampleContainer true initialWorld).viewState.loadedTiles = [] := by
    rw [updateVisibleTiles_loadedTiles]
    rfl
  exact ⟨pending_detached_step false _ hs hy hl ha, pending_detached_step true _ hs hy hl ha⟩

/-- C14, the part that holds: a visible tile that is marked loaded or failed
(member of `loadedTiles`) and has an element is attached after the refresh,
and a refresh issues no request for a tile that has an element. -/
theorem loaded_tile_reattached (c : Container) (f : Bool) (w : World) (k : TileId)
    (hs : (w.viewState.tileElements k).isSome = true) :
    (k ∈ w.viewState.loadedTiles →
      k ∈ (updateVisibleTiles c f w).viewState.visibleTiles →
      attached (updateVisibleTiles c f w).viewState.tileElements k = true)
    ∧ (updateVisibleTiles c f w).requests.count k = w.requests.count k := by
  refine ⟨fun hl hk => ?_, updateVisibleTiles_no_refetch c f w k hs⟩
  rw [updateVisibleTiles_visibleTiles] at hk
  exact updateVisibleTiles_loaded_attached c f w k hk hl hs

/-- C15. Detach policy and retention: after `updateVisibleTiles (true)` every
tile whose element is attached is in the visible set; after
`updateVisibleTiles (false)` every tile whose element was attached before the
call is still attached; and in both cases every tile that had an entry in
`tileElements` still has one and `loadedTiles` is unchanged. -/
theorem detach_policy_and_retention (c : Container) (w : World) :
    (∀ id : TileId, attached (updateVisibleTiles c true w).viewState.tileElements id = true →
        id ∈ (updateVisibleTiles c true w).viewState.visibleTiles)
    ∧ (∀ id : TileId, attached w.viewState.tileElements id = true →
        attached (updateVisibleTiles c false w).viewState.tileElements id = true)
    ∧ (∀ (f : Bool) (id : TileId), (w.viewState.tileElements id).isSome = true →
        ((updateVisibleTiles c f w).viewState.tileElements id).isSome = true)
    ∧ (∀ f : Bool, (updateVisibleTiles c f w).viewState.loadedTiles = w.viewState.loadedTiles) :=
  ⟨updateVisibleTiles_forced_attached c w, updateVisibleTiles_soft_attached c w,
    fun f id => updateVisibleTiles_isSome c f w id,
    fun f => updateVisibleTiles_loadedTiles c f w⟩

/-- C15 on the state after `loadTile (0, 0)` from the empty cache: the element
of tile (0, 0) is attached and stays attached through a soft refresh. -/
theorem detach_policy_and_retention_witness :
    attached (loadTile 0 0 initialWorld).viewState.tileElements (0, 0) = true
    ∧ attached (updateVisibleTiles sampleContainer false
        (loadTile 0 0 initialWorld)).viewState.tileElements (0, 0) = true := by
  have h : attached (loadTile 0 0 initialWorld).viewState.tileElements (0, 0) = true := by
    simp [attached, loadTile, initialWorld, initialViewState]
  exact ⟨h, (detach_policy_and_retention sampleContainer (loadTile 0 0 initialWorld)).2.1 (0, 0) h⟩

/-! ## C16: pinch around the recorded midpoint -/

theorem run_append (m : MathFns) (w : World) (l1 l2 : List (Container × ℤ × Event)) :
    run m w (l1 ++ l2) = run m (run m w l1) l2 := by
  induction l1 generalizing w with
  | nil => rfl
  | cons e rest ih =>
    obtain ⟨c, now, ev⟩ := e
    exact ih _

/-- The view after a two-finger move while pinching. -/
theorem handleTouchMove_pinch_view (m : MathFns) (c : Container) (now : ℤ) (a b : Touch)
    (w : World) (hp : w.viewState.isPinching = true) :
    ∃ vt te, (handleTouchMove m c now [a, b] w).viewState
      = { w.viewState with
          scale := pinchScale m a b w.viewState
          translateX := w.viewState.pinchCenterX
            - w.viewState.pinchImageX * pinchScale m a b w.viewState
          translateY := w.viewState.pinchCenterY
            - w.viewState.pinchImageY * pinchScale m a b w.viewState
          initialPinchDistance := fingerDistance m a b
          visibleTiles := vt
          tileElements := te } := by
  unfold handleTouchMove
  dsimp only
  rw [if_pos hp]
  obtain ⟨⟨vt, te, h⟩, -, -⟩ := updateVisibleTiles_tilesOnly c false
    (updateViewTransform { w with viewState := { w.viewState with
      scale := pinchScale m a b w.viewState
      translateX := w.viewState.pinchCenterX
        - w.viewState.pinchImageX * pinchScale m a b w.viewState
      translateY := w.viewState.pinchCenterY
        - w.viewState.pinchImageY * pinchScale m a b w.viewState } })
  refine ⟨vt, te, ?_⟩
  dsimp only
  unfold pinchScale fingerDistance at h ⊢
  rw [h]
  rfl

theorem handleTouchMove_pinchRecorded (m : MathFns) (c : Container) (now : ℤ) (a b : Touch)
    (w : World) (px py ix iy : ℚ) (h : PinchRecorded px py ix iy w.viewState) :
    PinchRecorded px py ix iy (handleTouchMove m c now [a, b] w).viewState := by
  obtain ⟨vt, te, hv⟩ := handleTouchMove_pinch_view m c now a b w h.1
  rw [hv]
  exact h

theorem run_pinchRecorded (m : MathFns) (px py ix iy : ℚ)
    (moves : List (Container × ℤ × Touch × Touch)) (w : World)
    (h : PinchRecorded px py ix iy w.viewState) :
    PinchRecorded px py ix iy (run m w (moves.map pinchMoveEvent)).viewState := by
  induction moves generalizing w with
  | nil => exact h
  | cons p rest ih =>
    obtain ⟨c, now, a, b⟩ := p
    exact ih _ (handleTouchMove_pinchRecorded m c now a b w px py ix iy h)

theorem handleTouchStart_pinchRecorded (m : MathFns) (c : Container) (now : ℤ) (t1 t2 : Touch)
    (w0 : World) :
    PinchRecorded ((t1.clientX + t2.clientX) / 2 - c.left) ((t1.clientY + t2.clientY) / 2 - c.top)
      (((t1.clientX + t2.clientX) / 2 - c.left - w0.viewState.translateX) / w0.viewState.scale)
      (((t1.clientY + t2.clientY) / 2 - c.top - w0.viewState.translateY) / w0.viewState.scale)
      (handleTouchStart m c now [t1, t2] w0).viewState := by
  rw [handleTouchStart_eq]
  dsimp only
  rw [cancelAnimation_view]
  exact ⟨rfl, rfl, rfl, rfl, rfl⟩

theorem pinchRun_snoc (m : MathFns) (c : Container) (now : ℤ) (t1 t2 : Touch) (w0 : World)
    (moves : List (Container × ℤ × Touch × Touch)) (c' : Container) (now' : ℤ) (a b : Touch) :
    pinchRun m c now t1 t2 w0 (moves ++ [(c', now', a, b)])
      = handleTouchMove m c' now' [a, b] (pinchRun m c now t1 t2 w0 moves) := by
  unfold pinchRun
  rw [List.map_append, run_append]
  rfl

/-- C16. Pinch keeps the recorded midpoint fixed.  A pinch is started by
`handleTouchStart` with two touch points at a state with scale > 0: the
midpoint of the touch points (relative to the container) is recorded together
with the image point shown there.  After any number of two-finger
`handleTouchMove` steps, the last one with the touch points `a` and `b`, the
scale is the clamped product of the previous scale and the power of the
distance ratio and lies in [0.05, 2]; the recorded midpoint and image point
are those of the touch start, and the image point is shown at the midpoint:
pinchImageX * scale + translateX = pinchCenterX, and likewise for Y; and
`initialPinchDistance` is the finger distance of the last step. -/
theorem pinch_keeps_midpoint (m : MathFns) (c : Container) (now : ℤ) (t1 t2 : Touch)
    (w0 : World) (moves : List (Container × ℤ × Touch × Touch)) (c' : Container) (now' : ℤ)
    (a b : Touch) (hs : 0 < w0.viewState.scale) :
    ((pinchRun m c now t1 t2 w0 []).viewState.pinchImageX * w0.viewState.scale
        + w0.viewState.translateX = (t1.clientX + t2.clientX) / 2 - c.left
      ∧ (pinchRun m c now t1 t2 w0 []).viewState.pinchImageY * w0.viewState.scale
        + w0.viewState.translateY = (t1.clientY + t2.clientY) / 2 - c.top)
    ∧ (pinchRun m c now t1 t2 w0 (moves ++ [(c', now', a, b)])).viewState.scale
        = pinchScale m a b (pinchRun m c now t1 t2 w0 moves).viewState
    ∧ 1/20 ≤ (pinchRun m c now t1 t2 w0 (moves ++ [(c', now', a, b)])).viewState.scale
    ∧ (pinchRun m c now t1 t2 w0 (moves ++ [(c', now', a, b)])).viewState.scale ≤ 2
    ∧ PinchRecorded ((t1.clientX + t2.clientX) / 2 - c.left)
        ((t1.clientY + t2.clientY) / 2 - c.top)
        (((t1.clientX + t2.clientX) / 2 - c.left - w0.viewState.translateX) / w0.viewState.scale)
        (((t1.clientY + t2.clientY) / 2 - c.top - w0.viewState.translateY) / w0.viewState.scale)
        (pinchRun m c now t1 t2 w0 (moves ++ [(c', now', a, b)])).viewState
    ∧ (pinchRun m c now t1 t2 w0 (moves ++ [(c', now', a, b)])).viewState.pinchImageX
          * (pinchRun m c now t1 t2 w0 (moves ++ [(c', now', a, b)])).viewState.scale
        + (pinchRun m c now t1 t2 w0 (moves ++ [(c', now', a, b)])).viewState.translateX
        = (pinchRun m c now t1 t2 w0 (moves ++ [(c', now', a, b)])).viewState.pinchCenterX
    ∧ (pinchRun m c now t1 t2 w0 (moves ++ [(c', now', a, b)])).viewState.pinchImageY
          * (pinchRun m c now t1 t2 w0 (moves ++ [(c', now', a, b)])).viewState.scale
        + (pinchRun m c now t1 t2 w0 (moves ++ [(c', now', a, b)])).viewState.translateY
        = (pinchRun m c now t1 t2 w0 (moves ++ [(c', now', a, b)])).viewState.pinchCenterY
    ∧ (pinchRun m c now t1 t2 w0 (moves ++ [(c', now', a, b)])).viewState.initialPinchDistance
        = fingerDistance m a b := by
  have hstart := handleTouchStart_pinchRecorded m c now t1 t2 w0
  have hprev := run_pinchRecorded m _ _ _ _ moves _ hstart
  have hne : w0.viewState.scale ≠ 0 := ne_of_gt hs
  refine ⟨⟨?_, ?_⟩, ?_⟩
  · show (handleTouchStart m c now [t1, t2] w0).viewState.pinchImageX * _ + _ = _
    rw [hstart.2.2.2.1]
    field_simp
    ring
  · show (handleTouchStart m c now [t1, t2] w0).viewState.pinchImageY * _ + _ = _
    rw [hstart.2.2.2.2]
    field_simp
    ring
  · rw [pinchRun_snoc]
    have hprev' : PinchRecorded _ _ _ _ (pinchRun m c now t1 t2 w0 moves).viewState := hprev
    obtain ⟨vt, te, hv⟩ := handleTouchMove_pinch_view m c' now' a b
      (pinchRun m c now t1 t2 w0 moves) hprev'.1
    rw [hv]
    refine ⟨rfl, ?_, ?_, hprev', ?_, ?_, rfl⟩
    · exact le_max_left _ _
    · exact max_le (by norm_num) (min_le_left _ _)
    · dsimp only
      ring
    · dsimp only
      ring

/-- C16 on a pinch from the initial state in `sampleContainer`: touch points
(0, 100) and (200, 100), one move to (50, 100) and (150, 100). -/
theorem pinch_keeps_midpoint_witness :
    0 < initialWorld.viewState.scale
    ∧ 1/20 ≤ (pinchRun sampleMath sampleContainer 0 ⟨0, 100⟩ ⟨200, 100⟩ initialWorld
        ([] ++ [(sampleContainer, 10, ⟨50, 100⟩, ⟨150, 100⟩)])).viewState.scale
    ∧ (pinchRun sampleMath sampleContainer 0 ⟨0, 100⟩ ⟨200, 100⟩ initialWorld
        ([] ++ [(sampleContainer, 10, ⟨50, 100⟩, ⟨150, 100⟩)])).viewState.scale ≤ 2 := by
  have hs : 0 < initialWorld.viewState.scale := by norm_num [initialWorld, initialViewState]
  have h := pinch_keeps_midpoint sampleMath sampleContainer 0 ⟨0, 100⟩ ⟨200, 100⟩ initialWorld
    [] sampleContainer 10 ⟨50, 100⟩ ⟨150, 100⟩ hs
  exact ⟨hs, h.2.2.1, h.2.2.2.1⟩

/-! ## C17: the drag follows the pointer -/

/-- The view after a pan step. -/
theorem dragTo_view (m : MathFns) (c : Container) (now : ℤ) (x y : ℚ) (w : World) :
    ∃ dd lu vt te, (dragTo m c now x y w).viewState
      = { w.viewState with
          dragDistance := dd
          lastUpdateTime := lu
          translateX := x - w.viewState.startX
          translateY := y - w.viewState.startY
          visibleTiles := vt
          tileElements := te } := by
  unfold dragTo
  dsimp only
  split
  · obtain ⟨⟨vt, te, h⟩, -, -⟩ := updateVisibleTiles_tilesOnly c false
      (updateViewTransform { w with viewState := { w.viewState with
        dragDistance := w.viewState.dragDistance
          + m.sqrt ((x - w.viewState.startX - w.viewState.translateX)
              * (x - w.viewState.startX - w.viewState.translateX)
            + (y - w.viewState.startY - w.viewState.translateY)
              * (y - w.viewState.startY - w.viewState.translateY))
        translateX := x - w.viewState.startX
        translateY := y - w.viewState.startY } })
    refine ⟨0, now, vt, te, ?_⟩
    dsimp only
    rw [h]
    rfl
  · exact ⟨_, w.viewState.lastUpdateTime, w.viewState.visibleTiles, w.viewState.tileElements, rfl⟩

theorem pos_update (c : Container) (f : Bool) (w : World) (h : ScalePositive w) :
    ScalePositive (updateVisibleTiles c f w) := by
  unfold ScalePositive at h ⊢
  simp only [updateVisibleTiles_scale, updateVisibleTiles_animationFrameId]
  exact h

theorem pos_check (c : Container) (now : ℤ) (w : World) (h : ScalePositive w) :
    ScalePositive (checkAndFixBoundaries c now true w) := by
  cases hn : needsCorrection c w.viewState
  · rw [checkAndFixBoundaries_of_ok c now true w hn]
    exact h
  · rw [checkAndFixBoundaries_animate c now w hn]
    unfold ScalePositive
    rw [startBoundaryAnimation_viewState, startBoundaryAnimation_frame]
    refine ⟨h.1, ?_⟩
    intro a ha
    cases ha
    refine ⟨h.1, lt_of_lt_of_le h.1 ?_⟩
    show w.viewState.scale ≤ (boundaryTargets c w.viewState).1
    rw [boundaryTargets_scale]
    exact le_max_left _ _

theorem posCore_none (s : ℚ) (h : 0 < s) : PosCore s none :=
  ⟨h, fun _ ha => Option.noConfusion ha⟩

theorem pos_cancelAnimation (w : World) (h : ScalePositive w) :
    ScalePositive (cancelAnimation w) := by
  unfold cancelAnimation
  split_ifs
  · exact posCore_none _ h.1
  · exact h

theorem pos_startDrag (b : ℤ) (x y : ℚ) (w : World) (h : ScalePositive w) :
    ScalePositive (startDrag b x y w) := by
  unfold startDrag
  dsimp only
  split_ifs
  · exact h
  · exact posCore_none _ h.1
  · exact h

theorem pos_dragTo (m : MathFns) (c : Container) (now : ℤ) (x y : ℚ) (w : World)
    (h : ScalePositive w) : ScalePositive (dragTo m c now x y w) := by
  unfold dragTo ScalePositive updateViewTransform
  dsimp only
  split_ifs
  · simp only [updateVisibleTiles_scale, updateVisibleTiles_animationFrameId]
    exact h
  · exact h

theorem pos_drag (m : MathFns) (c : Container) (now : ℤ) (x y : ℚ) (w : World)
    (h : ScalePositive w) : ScalePositive (drag m c now x y w) := by
  unfold drag
  split_ifs
  · exact pos_dragTo m c now x y w h
  · exact h

theorem pos_endDrag (c : Container) (now : ℤ) (w : World) (h : ScalePositive w) :
    ScalePositive (endDrag c now w) := by
  unfold endDrag
  split_ifs
  · exact pos_update c true _ (pos_check c now _ h)
  · exact h

theorem pos_handleWheel (c : Container) (now : ℤ) (x y d : ℚ) (w : World)
    (h : ScalePositive w) : ScalePositive (handleWheel c now x y d w) := by
  unfold handleWheel
  refine pos_check c now _ ?_
  unfold ScalePositive
  simp only [updateVisibleTiles_scale, updateVisibleTiles_animationFrameId, updateViewTransform]
  exact ⟨clampScale_pos _, h.2⟩

theorem pos_zoomBy (c : Container) (now : ℤ) (f : ℚ) (w : World) (h : ScalePositive w) :
    ScalePositive (zoomBy c now f w) := by
  unfold zoomBy
  refine pos_check c now _ ?_
  unfold ScalePositive
  simp only [updateVisibleTiles_scale, updateVisibleTiles_animationFrameId, updateViewTransform]
  exact ⟨clampScale_pos _, h.2⟩

theorem fit_pos (c : Container) (hh : 0 < c.offsetHeight) :
    0 < c.offsetHeight / imageConfig.height := by
  rw [imageConfig_height]
  positivity

theorem pos_resetView (c : Container) (w : World) (hh : 0 < c.offsetHeight)
    (h : ScalePositive w) : ScalePositive (resetView c w) := by
  unfold resetView ScalePositive
  simp only [updateVisibleTiles_scale, updateVisibleTiles_animationFrameId, updateViewTransform]
  exact ⟨fit_pos c hh, h.2⟩

theorem pos_doubleTap (c : Container) (now : ℤ) (touch : Touch) (w : World)
    (hh : 0 < c.offsetHeight) (h : ScalePositive w) :
    ScalePositive (doubleTap c now touch w) := by
  unfold doubleTap ScalePositive
  dsimp only
  rw [startBoundaryAnimation_viewState, startBoundaryAnimation_frame]
  refine ⟨h.1, ?_⟩
  intro a ha
  cases ha
  refine ⟨h.1, ?_⟩
  have hfit := fit_pos c hh
  show 0 < (if w.viewState.scale < c.offsetHeight / imageConfig.height * (3/2)
    then min 2 (c.offsetHeight / imageConfig.height * (5/2))
    else c.offsetHeight / imageConfig.height)
  split_ifs
  · exact lt_min (by norm_num) (by positivity)
  · exact hfit

theorem pos_handleTouchStart (m : MathFns) (c : Container) (now : ℤ) (touches : List Touch)
    (w : World) (hh : 0 < c.offsetHeight) (h : ScalePositive w) :
    ScalePositive (handleTouchStart m c now touches w) := by
  rw [handleTouchStart_eq]
  have hb := pos_cancelAnimation w h
  match touches with
  | [] => exact hb
  | [_] =>
    dsimp only
    split_ifs
    · exact pos_doubleTap c now _ _ hh hb
    · exact hb
  | [_, _] => exact hb
  | _ :: _ :: _ :: _ => exact hb

theorem pos_handleTouchMove (m : MathFns) (c : Container) (now : ℤ) (touches : List Touch)
    (w : World) (h : ScalePositive w) : ScalePositive (handleTouchMove m c now touches w) := by
  unfold handleTouchMove
  dsimp only
  split
  · split_ifs
    · unfold ScalePositive updateViewTransform
      simp only [updateVisibleTiles_scale, updateVisibleTiles_animationFrameId]
      exact ⟨clampScale_pos _, h.2⟩
    · exact h
  · split_ifs
    · exact pos_dragTo m c now _ _ w h
    · exact h
  · exact h

theorem pos_handleTouchEnd (c : Container) (now : ℤ) (w : World) (h : ScalePositive w) :
    ScalePositive (handleTouchEnd c now w) := by
  unfold handleTouchEnd
  split_ifs
  · exact pos_update c true _ (pos_check c now _ h)
  · exact pos_update c true _ (pos_check c now _ h)
  · exact h

theorem pos_animate (c : Container) (now : ℤ) (a : Animation) (w : World)
    (hs : a.startTime ≤ now) (h0 : 0 < a.startScale) (h1 : 0 < a.targetScale)
    (hfr : w.animationFrameId = none) : ScalePositive (animate c now a w) := by
  obtain ⟨hp0, hp1⟩ := progress_mem now a.startTime hs
  obtain ⟨hq0, hq1⟩ := easeOutCubic_mem _ hp0 hp1
  have hpos := interpolate_pos a.startScale a.targetScale _ h0 h1 hq0 hq1
  have hrun : PosCore
      (a.startScale + (a.targetScale - a.startScale)
        * easeOutCubic (min (((now - a.startTime : ℤ) : ℚ) / 300) 1)) (some a) := by
    refine ⟨hpos, ?_⟩
    intro a' h'
    cases h'
    exact ⟨h0, h1⟩
  have hend : PosCore
      (a.startScale + (a.targetScale - a.startScale)
        * easeOutCubic (min (((now - a.startTime : ℤ) : ℚ) / 300) 1)) w.animationFrameId := by
    rw [hfr]
    exact posCore_none _ hpos
  unfold animate ScalePositive updateViewTransform
  dsimp only
  split_ifs
  · simp only [updateVisibleTiles_scale]
    exact hrun
  · exact hrun
  · simp only [updateVisibleTiles_scale, updateVisibleTiles_animationFrameId]
    exact hend
  · simp only [updateVisibleTiles_scale, updateVisibleTiles_animationFrameId]
    exact hend

theorem pos_animationFrame (c : Container) (now : ℤ) (w : World) (h : ScalePositive w)
    (hadm : ∀ a, w.animationFrameId = some a → a.startTime ≤ now) :
    ScalePositive (animationFrame c now w) := by
  unfold animationFrame
  split
  · next a ha =>
    exact pos_animate c now a _ (hadm a ha) (h.2 a ha).1 (h.2 a ha).2 rfl
  · exact h

theorem pos_step (m : MathFns) (c : Container) (now : ℤ) (e : Event) (w : World)
    (h : ScalePositive w) (hadm : HeightAdmissible w c now e) :
    ScalePositive (step m c now e w) := by
  cases e with
  | mousedown b x y => exact pos_startDrag b x y w h
  | mousemove x y => exact pos_drag m c now x y w h
  | mouseup => exact pos_endDrag c now w h
  | wheel x y d => exact pos_handleWheel c now x y d w h
  | zoomIn => exact pos_zoomBy c now _ w h
  | zoomOut => exact pos_zoomBy c now _ w h
  | reset => exact pos_resetView c w hadm h
  | touchstart ts => exact pos_handleTouchStart m c now ts w hadm h
  | touchmove ts => exact pos_handleTouchMove m c now ts w h
  | touchend => exact pos_handleTouchEnd c now w h
  | frame => exact pos_animationFrame c now w h hadm
  | resize => exact pos_update c true _ (pos_resetView c w hadm h)
  | imageLoaded id => exact h
  | imageFailed id => exact h

theorem pos_startup (c : Container) (now0 : ℤ) (hh : 0 < c.offsetHeight) :
    ScalePositive (startup c now0) := by
  obtain ⟨⟨vt, te, hv⟩, hf⟩ := startup_view c now0
  unfold ScalePositive
  rw [hv, hf]
  exact posCore_none _ (fit_pos c hh)

theorem reachablePositive_pos (m : MathFns) (w : World) (hr : ReachablePositive m w) :
    ScalePositive w := by
  induction hr with
  | start c now0 hh => exact pos_startup c now0 hh
  | next w c now e _ hadm ih => exact pos_step m c now e w ih hadm

/-- C18, counterexample. After the start-up in a 1280 x 720 container, a
resize to a container of height 0 makes `resetView` set the scale to
0 / 3750 = 0. -/
theorem scale_zero_after_resize :
    0 ≤ zeroHeightContainer.offsetHeight
    ∧ (run sampleMath (startup sampleContainer 0)
        [(zeroHeightContainer, 10, Event.resize)]).viewState.scale = 0
    ∧ ¬ 0 < (run sampleMath (startup sampleContainer 0)
        [(zeroHeightContainer, 10, Event.resize)]).viewState.scale := by
  have h : (run sampleMath (startup sampleContainer 0)
      [(zeroHeightContainer, 10, Event.resize)]).viewState.scale = 0 := by
    simp only [run, step]
    unfold handleResize
    rw [updateVisibleTiles_scale]
    unfold resetView
    dsimp only
    rw [updateVisibleTiles_scale]
    simp [updateViewTransform, zeroHeightContainer]
  refine ⟨by norm_num [zeroHeightContainer], h, ?_⟩
  rw [h]
  exact lt_irrefl 0

/-- C18, amended. Scale stays positive: in every state reached from the
start-up state in a container of positive height by any sequence of input
events, reset and resize events and animation frames, each with its own
container, such that the container height is positive at every reset, resize
and touch start and no frame callback runs before the clock reading at which
its animation started, `viewState.scale > 0`; moreover a scheduled animation
runs between positive scales. -/
theorem scale_stays_positive (m : MathFns) (w : World) (hr : ReachablePositive m w) :
    0 < w.viewState.scale
    ∧ ∀ a, w.animationFrameId = some a → 0 < a.startScale ∧ 0 < a.targetScale :=
  reachablePositive_pos m w hr

/-- C18, amended, on the state after the start-up in `sampleContainer` and a
press on the zoom-out button. -/
theorem scale_stays_positive_witness :
    ReachablePositive sampleMath
      (step sampleMath sampleContainer 10 Event.zoomOut (startup sampleContainer 0))
    ∧ 0 < (step sampleMath sampleContainer 10 Event.zoomOut
        (startup sampleContainer 0)).viewState.scale := by
  have hr : ReachablePositive sampleMath
      (step sampleMath sampleContainer 10 Event.zoomOut (startup sampleContainer 0)) :=
    ReachablePositive.next _ _ _ _
      (ReachablePositive.start _ _ (by norm_num [sampleContainer])) trivial
  exact ⟨hr, (scale_stays_positive sampleMath _ hr).1⟩

/-! ## C19: a new gesture cancels the animation -/

theorem run_frames_of_none (m : MathFns) (r : World) (frames : List (Container × ℤ))
    (h : r.animationFrameId = none) : run m r (frames.map frameEvent) = r := by
  induction frames with
  | nil => rfl
  | cons p rest ih =>
    obtain ⟨c, now⟩ := p
    show run m (animationFrame c now r) (rest.map frameEvent) = r
    have h1 : animationFrame c now r = r := by
      unfold animationFrame
      rw [h]
    rw [h1]
    exact ih

theorem animationCancelled_of (m : MathFns) (r : World) (frames : List (Container × ℤ))
    (ha : r.viewState.isAnimating = false) (hf : r.animationFrameId = none) :
    AnimationCancelled m r frames :=
  ⟨ha, hf, run_frames_of_none m r frames hf⟩

theorem cancelAnimation_of_animating (w : World) (ha : w.viewState.isAnimating = true) :
    cancelAnimation w = { w with animationFrameId := none
                                 viewState := { w.viewState with isAnimating := false } } := by
  unfold cancelAnimation
  rw [if_pos ha]

/-- C19. Starting a drag or pinch cancels the animation: from a state with
`isAnimating = true`, after `startDrag` with the left button, after
`handleTouchStart` with one touch point that is not a double-tap, and after
`handleTouchStart` with two touch points, `isAnimating` is false and no frame
callback is scheduled any more, so that any number of later frames leaves the
state, and with it scale and translate, unchanged; the gesture start itself
does not change scale or translate. -/
theorem gesture_start_cancels_animation (m : MathFns) (c : Container) (now : ℤ) (x0 y0 : ℚ)
    (touch t1 t2 : Touch) (w : World) (frames : List (Container × ℤ))
    (ha : w.viewState.isAnimating = true)
    (hnd : ¬ (w.viewState.lastTapTime ≠ 0 ∧ now - w.viewState.lastTapTime < 300)) :
    (AnimationCancelled m (startDrag 0 x0 y0 w) frames
      ∧ (startDrag 0 x0 y0 w).viewState.scale = w.viewState.scale
      ∧ (startDrag 0 x0 y0 w).viewState.translateX = w.viewState.translateX
      ∧ (startDrag 0 x0 y0 w).viewState.translateY = w.viewState.translateY)
    ∧ (AnimationCancelled m (handleTouchStart m c now [touch] w) frames
      ∧ (handleTouchStart m c now [touch] w).viewState.scale = w.viewState.scale
      ∧ (handleTouchStart m c now [touch] w).viewState.translateX = w.viewState.translateX
      ∧ (handleTouchStart m c now [touch] w).viewState.translateY = w.viewState.translateY)
    ∧ (AnimationCancelled m (handleTouchStart m c now [t1, t2] w) frames
      ∧ (handleTouchStart m c now [t1, t2] w).viewState.scale = w.viewState.scale
      ∧ (handleTouchStart m c now [t1, t2] w).viewState.translateX = w.viewState.translateX
      ∧ (handleTouchStart m c now [t1, t2] w).viewState.translateY
          = w.viewState.translateY) := by
  refine ⟨?_, ?_, ?_⟩
  · have e : startDrag 0 x0 y0 w
        = { w with animationFrameId := none
                   viewState := { w.viewState with
                     isAnimating := false
                     isDragging := true
                     startX := x0 - w.viewState.translateX
                     startY := y0 - w.viewState.translateY
                     dragDistance := 0 } } := by
      unfold startDrag
      rw [if_neg (by simp)]
      dsimp only
      rw [if_pos ha]
    rw [e]
    exact ⟨animationCancelled_of m _ frames rfl rfl, rfl, rfl, rfl⟩
  · rw [handleTouchStart_eq, cancelAnimation_of_animating w ha]
    dsimp only
    rw [if_neg hnd]
    exact ⟨animationCancelled_of m _ frames rfl rfl, rfl, rfl, rfl⟩
  · rw [handleTouchStart_eq, cancelAnimation_of_animating w ha]
    dsimp only
    exact ⟨animationCancelled_of m _ frames rfl rfl, rfl, rfl, rfl⟩

theorem checkAndFixBoundaries_true_lastTapTime (c : Container) (now : ℤ) (w : World) :
    (checkAndFixBoundaries c now true w).viewState.lastTapTime = w.viewState.lastTapTime := by
  rw [checkAndFixBoundaries_true_viewState]
  split <;> rfl

/-- C19 on the animation started by the boundary check for the zoomed-out
view in `sampleContainer`: a press of the left mouse button cancels it, and
two later frames change nothing. -/
theorem gesture_start_cancels_animation_witness :
    (checkAndFixBoundaries sampleContainer 0 true zoomedOutWorld).viewState.isAnimating = true
    ∧ AnimationCancelled sampleMath
        (startDrag 0 100 100 (checkAndFixBoundaries sampleContainer 0 true zoomedOutWorld))
        [(sampleContainer, 50), (sampleContainer, 400)] := by
  have ha : (checkAndFixBoundaries sampleContainer 0 true zoomedOutWorld).viewState.isAnimating
      = true :=
    checkAndFixBoundaries_true_isAnimating _ _ _ (needsCorrection_of_scale_lt _ _
      (by norm_num [zoomedOutWorld, sampleContainer, imageConfig]))
  have hnd : ¬ ((checkAndFixBoundaries sampleContainer 0 true
        zoomedOutWorld).viewState.lastTapTime ≠ 0
      ∧ (10 : ℤ) - (checkAndFixBoundaries sampleContainer 0 true
        zoomedOutWorld).viewState.lastTapTime < 300) := by
    rw [checkAndFixBoundaries_true_lastTapTime]
    simp [zoomedOutWorld, initialViewState]
  exact ⟨ha, (gesture_start_cancels_animation sampleMath sampleContainer 10 100 100
    ⟨0, 0⟩ ⟨0, 0⟩ ⟨10, 10⟩ _ [(sampleContainer, 50), (sampleContainer, 400)] ha hnd).1.1⟩

/-! ## C20: double-tap detection -/

theorem cancelAnimation_lastTapTime (w : World) :
    (cancelAnimation w).viewState.lastTapTime = w.viewState.lastTapTime := by
  rw [cancelAnimation_view]

theorem startDrag_lastTapTime (b : ℤ) (x y : ℚ) (w : World) :
    (startDrag b x y w).viewState.lastTapTime = w.viewState.lastTapTime := by
  unfold startDrag
  dsimp only
  split_ifs <;> rfl

theorem dragTo_lastTapTime (m : MathFns) (c : Container) (now : ℤ) (x y : ℚ) (w : World) :
    (dragTo m c now x y w).viewState.lastTapTime = w.viewState.lastTapTime := by
  obtain ⟨dd, lu, vt, te, hv⟩ := dragTo_view m c now x y w
  rw [hv]

theorem doubleTap_lastTapTime (c : Container) (now : ℤ) (touch : Touch) (w : World) :
    (doubleTap c now touch w).viewState.lastTapTime = 0 := by
  unfold doubleTap
  dsimp only
  rw [startBoundaryAnimation_viewState]

theorem doubleTap_isAnimating (c : Container) (now : ℤ) (touch : Touch) (w : World) :
    (doubleTap c now touch w).viewState.isAnimating = true := by
  unfold doubleTap
  dsimp only
  rw [startBoundaryAnimation_viewState]

theorem doubleTap_isDragging (c : Container) (now : ℤ) (touch : Touch) (w : World) :
    (doubleTap c now touch w).viewState.isDragging = w.viewState.isDragging := by
  unfold doubleTap
  dsimp only
  rw [startBoundaryAnimation_viewState]

theorem animationFrame_lastTapTime (c : Container) (now : ℤ) (w : World) :
    (animationFrame c now w).viewState.lastTapTime = w.viewState.lastTapTime := by
  unfold animationFrame
  split
  · unfold animate updateViewTransform
    dsimp only
    split_ifs <;> simp only [updateVisibleTiles_lastTapTime]
  · rfl

theorem handleTouchStart_lastTapTime (m : MathFns) (c : Container) (now : ℤ)
    (touches : List Touch) (w : World) :
    (handleTouchStart m c now touches w).viewState.lastTapTime
      = tapStep w.viewState.lastTapTime now (Event.touchstart touches) := by
  rw [handleTouchStart_eq]
  match touches with
  | [] => exact cancelAnimation_lastTapTime w
  | [_] =>
    dsimp only
    rw [cancelAnimation_lastTapTime]
    unfold tapStep
    dsimp only
    split_ifs
    · exact doubleTap_lastTapTime _ _ _ _
    · rfl
  | [_, _] => exact cancelAnimation_lastTapTime w
  | _ :: _ :: _ :: _ => exact cancelAnimation_lastTapTime w

theorem handleTouchMove_lastTapTime (m : MathFns) (c : Container) (now : ℤ)
    (touches : List Touch) (w : World) :
    (handleTouchMove m c now touches w).viewState.lastTapTime = w.viewState.lastTapTime := by
  unfold handleTouchMove
  dsimp only
  split
  · split_ifs
    · simp only [updateVisibleTiles_lastTapTime, updateViewTransform]
    · rfl
  · split_ifs
    · exact dragTo_lastTapTime m c now _ _ w
    · rfl
  · rfl

/-- The recorded tap time after one event is the one given by `tapStep`. -/
theorem step_lastTapTime (m : MathFns) (c : Container) (now : ℤ) (e : Event) (w : World) :
    (step m c now e w).viewState.lastTapTime = tapStep w.viewState.lastTapTime now e := by
  cases e with
  | mousedown b x y => exact startDrag_lastTapTime b x y w
  | mousemove x y =>
    show (drag m c now x y w).viewState.lastTapTime = _
    unfold drag
    split_ifs
    · exact dragTo_lastTapTime m c now x y w
    · rfl
  | mouseup =>
    show (endDrag c now w).viewState.lastTapTime = _
    unfold endDrag
    split_ifs
    · rw [updateVisibleTiles_lastTapTime, checkAndFixBoundaries_true_lastTapTime]
      rfl
    · rfl
  | wheel x y d =>
    show (handleWheel c now x y d w).viewState.lastTapTime = _
    unfold handleWheel
    rw [checkAndFixBoundaries_true_lastTapTime, updateVisibleTiles_lastTapTime]
    rfl
  | zoomIn =>
    show (zoomBy c now _ w).viewState.lastTapTime = _
    unfold zoomBy
    rw [checkAndFixBoundaries_true_lastTapTime, updateVisibleTiles_lastTapTime]
    rfl
  | zoomOut =>
    show (zoomBy c now _ w).viewState.lastTapTime = _
    unfold zoomBy
    rw [checkAndFixBoundaries_true_lastTapTime, updateVisibleTiles_lastTapTime]
    rfl
  | reset =>
    show (resetView c w).viewState.lastTapTime = _
    unfold resetView
    dsimp only
    rw [updateVisibleTiles_lastTapTime]
    rfl
  | touchstart ts => exact handleTouchStart_lastTapTime m c now ts w
  | touchmove ts => exact handleTouchMove_lastTapTime m c now ts w
  | touchend =>
    show (handleTouchEnd c now w).viewState.lastTapTime = _
    unfold handleTouchEnd
    split_ifs
    · rw [updateVisibleTiles_lastTapTime, checkAndFixBoundaries_true_lastTapTime]
      rfl
    · rw [updateVisibleTiles_lastTapTime, checkAndFixBoundaries_true_lastTapTime]
      rfl
    · rfl
  | frame => exact animationFrame_lastTapTime c now w
  | resize =>
    show (handleResize c w).viewState.lastTapTime = _
    unfold handleResize resetView
    dsimp only
    rw [updateVisibleTiles_lastTapTime, updateVisibleTiles_lastTapTime]
    rfl
  | imageLoaded id => rfl
  | imageFailed id => rfl

theorem run_lastTapTime (m : MathFns) (events : List (Container × ℤ × Event)) (w : World) :
    (run m w events).viewState.lastTapTime = tapClock w.viewState.lastTapTime events := by
  induction events generalizing w with
  | nil => rfl
  | cons p rest ih =>
    obtain ⟨c, now, e⟩ := p
    show (run m (step m c now e w) rest).viewState.lastTapTime = _
    rw [ih, step_lastTapTime]
    rfl

theorem startup_lastTapTime (c : Container) (now : ℤ) :
    (startup c now).viewState.lastTapTime = 0 := by
  obtain ⟨⟨vt, te, hv⟩, -⟩ := startup_view c now
  rw [hv]
  rfl

/-- What a single-touch press does, by the double-tap test on the recorded tap
time. -/
theorem handleTouchStart_single (m : MathFns) (c : Container) (now : ℤ) (touch : Touch)
    (w : World) :
    ((handleTouchStart m c now [touch] w).viewState.isAnimating = true
        ↔ (w.viewState.lastTapTime ≠ 0 ∧ now - w.viewState.lastTapTime < 300))
    ∧ ((w.viewState.lastTapTime ≠ 0 ∧ now - w.viewState.lastTapTime < 300) →
        handleTouchStart m c now [touch] w = doubleTap c now touch (cancelAnimation w)
        ∧ (handleTouchStart m c now [touch] w).viewState.isDragging = w.viewState.isDragging
        ∧ (handleTouchStart m c now [touch] w).viewState.lastTapTime = 0)
    ∧ (¬ (w.viewState.lastTapTime ≠ 0 ∧ now - w.viewState.lastTapTime < 300) →
        (handleTouchStart m c now [touch] w).viewState.isDragging = true
        ∧ (handleTouchStart m c now [touch] w).viewState.isAnimating = false
        ∧ (handleTouchStart m c now [touch] w).viewState.lastTapTime = now) := by
  have hyes : (w.viewState.lastTapTime ≠ 0 ∧ now - w.viewState.lastTapTime < 300) →
      handleTouchStart m c now [touch] w = doubleTap c now touch (cancelAnimation w)
      ∧ (handleTouchStart m c now [touch] w).viewState.isDragging = w.viewState.isDragging
      ∧ (handleTouchStart m c now [touch] w).viewState.lastTapTime = 0 := by
    intro h
    rw [handleTouchStart_doubleTap m c now touch w h]
    refine ⟨rfl, ?_, doubleTap_lastTapTime _ _ _ _⟩
    rw [doubleTap_isDragging, cancelAnimation_view]
  have hno : ¬ (w.viewState.lastTapTime ≠ 0 ∧ now - w.viewState.lastTapTime < 300) →
      (handleTouchStart m c now [touch] w).viewState.isDragging = true
      ∧ (handleTouchStart m c now [touch] w).viewState.isAnimating = false
      ∧ (handleTouchStart m c now [touch] w).viewState.lastTapTime = now := by
    intro h
    rw [handleTouchStart_eq]
    dsimp only
    rw [cancelAnimation_view]
    dsimp only
    rw [if_neg h]
    exact ⟨rfl, rfl, rfl⟩
  refine ⟨⟨?_, ?_⟩, hyes, hno⟩
  · intro ha
    by_contra h
    rw [(hno h).2.1] at ha
    exact absurd ha (by simp)
  · intro h
    rw [(hyes h).1]
    exact doubleTap_isAnimating _ _ _ _

/-- C20, counterexample. From the start-up state in the 1280 x 720 container:
(1) a tap at time 1000, a two-finger touch start at 1050 and its release
leave the recorded tap time 1000, and a single-touch press at 1200 is treated
as a double-tap (the animation starts) although a two-finger touch start lies
between the two presses; (2) after a double-tap at 1000 and 1100 the record
is cleared, and a single-touch press at 1200, 100 ms after the previous
single-touch press and with no two-finger touch start between them, is not
treated as a double-tap (a drag starts, no animation). -/
theorem pinch_between_taps :
    ((run sampleMath (startup sampleContainer 0) tapThenPinchRun).viewState.lastTapTime = 1000
      ∧ (handleTouchStart sampleMath sampleContainer 1200 [⟨100, 100⟩]
          (run sampleMath (startup sampleContainer 0) tapThenPinchRun)).viewState.isAnimating
          = true)
    ∧ ((run sampleMath (startup sampleContainer 0) twoTapsRun).viewState.lastTapTime = 0
      ∧ (handleTouchStart sampleMath sampleContainer 1200 [⟨100, 100⟩]
          (run sampleMath (startup sampleContainer 0) twoTapsRun)).viewState.isAnimating
          = false
      ∧ (handleTouchStart sampleMath sampleContainer 1200 [⟨100, 100⟩]
          (run sampleMath (startup sampleContainer 0) twoTapsRun)).viewState.isDragging
          = true) := by
  have h1 : (run sampleMath (startup sampleContainer 0) tapThenPinchRun).viewState.lastTapTime
      = 1000 := by
    rw [run_lastTapTime, startup_lastTapTime]
    simp [tapThenPinchRun, tapClock, tapStep]
  have h2 : (run sampleMath (startup sampleContainer 0) twoTapsRun).viewState.lastTapTime
      = 0 := by
    rw [run_lastTapTime, startup_lastTapTime]
    simp [twoTapsRun, tapClock, tapStep]
  refine ⟨⟨h1, ?_⟩, h2, ?_⟩
  · rw [(handleTouchStart_single sampleMath sampleContainer 1200 ⟨100, 100⟩ _).1, h1]
    decide
  · have hno := (handleTouchStart_single sampleMath sampleContainer 1200 ⟨100, 100⟩
      (run sampleMath (startup sampleContainer 0) twoTapsRun)).2.2 (by rw [h2]; simp)
    exact ⟨hno.2.1, hno.1⟩

/-- C20, amended. Double-tap detection: in the state reached from the start-up
state by any sequence of events, a single-touch press handled by
`handleTouchStart` at time `now` is treated as a double-tap (the animation is
started, no drag is started, the record is cleared) if and only if the
recorded tap time is not 0 and `now` is less than 300 ms after it, and
otherwise it starts a drag and records `now`.  The recorded tap time is the
value computed by `tapClock` from the events: it is 0 at start-up, a
single-touch press that is a double-tap clears it, any other single-touch
press sets it to its own time, and no other event, a two-finger touch start
included, changes it. -/
theorem double_tap_detection (m : MathFns) (c0 : Container) (now0 : ℤ)
    (events : List (Container × ℤ × Event)) (c : Container) (now : ℤ) (touch : Touch) :
    (run m (startup c0 now0) events).viewState.lastTapTime = tapClock 0 events
    ∧ ((handleTouchStart m c now [touch]
          (run m (startup c0 now0) events)).viewState.isAnimating = true
        ↔ (tapClock 0 events ≠ 0 ∧ now - tapClock 0 events < 300))
    ∧ ((tapClock 0 events ≠ 0 ∧ now - tapClock 0 events < 300) →
        handleTouchStart m c now [touch] (run m (startup c0 now0) events)
          = doubleTap c now touch (cancelAnimation (run m (startup c0 now0) events))
        ∧ (handleTouchStart m c now [touch]
            (run m (startup c0 now0) events)).viewState.isDragging
          = (run m (startup c0 now0) events).viewState.isDragging
        ∧ (handleTouchStart m c now [touch]
            (run m (startup c0 now0) events)).viewState.lastTapTime = 0)
    ∧ (¬ (tapClock 0 events ≠ 0 ∧ now - tapClock 0 events < 300) →
        (handleTouchStart m c now [touch]
            (run m (startup c0 now0) events)).viewState.isDragging = true
        ∧ (handleTouchStart m c now [touch]
            (run m (startup c0 now0) events)).viewState.isAnimating = false
        ∧ (handleTouchStart m c now [touch]
            (run m (startup c0 now0) events)).viewState.lastTapTime = now)
    ∧ (∀ (t : ℤ) (n : ℤ) (t1 t2 : Touch),
        tapStep t n (Event.touchstart [t1, t2]) = t) := by
  have hl : (run m (startup c0 now0) events).viewState.lastTapTime = tapClock 0 events := by
    rw [run_lastTapTime, startup_lastTapTime]
  have h := handleTouchStart_single m c now touch (run m (startup c0 now0) events)
  rw [hl] at h
  exact ⟨hl, h.1, h.2.1, h.2.2, fun _ _ _ _ => rfl⟩

/-- C20, amended, after a tap at time 1000 and its release in
`sampleContainer`: a single-touch press at time 1100 is a double-tap. -/
theorem double_tap_detection_witness :
    (handleTouchStart sampleMath sampleContainer 1100 [⟨100, 100⟩]
      (run sampleMath (startup sampleContainer 0)
        [(sampleContainer, 1000, Event.touchstart [⟨100, 100⟩]),
         (sampleContainer, 1010, Event.touchend)])).viewState.isAnimating = true :=
  (double_tap_detection sampleMath sampleContainer 0
    [(sampleContainer, 1000, Event.touchstart [⟨100, 100⟩]),
     (sampleContainer, 1010, Event.touchend)] sampleContainer 1100 ⟨100, 100⟩).2.1.mpr
    (by simp [tapClock, tapStep])

/-! ## C21: the rectangles of the tiles -/

/-- The sizes `min T (L - i * T)` of the pieces of a length `L` cut every `T`
add up to `L`. -/
theorem sum_min_pieces (L T : ℚ) (hL : 0 < L) (hT : 0 < T) :
    Finset.sum (Finset.range ⌈L / T⌉.toNat) (fun (i : ℕ) => min T (L - (i : ℚ) * T)) = L := by
  have hpos : 0 < L / T := div_pos hL hT
  have hc : 0 < ⌈L / T⌉ := Int.ceil_pos.mpr hpos
  obtain ⟨k, hk⟩ : ∃ k : ℕ, ⌈L / T⌉ = (k : ℤ) + 1 :=
    ⟨(⌈L / T⌉ - 1).toNat, by rw [Int.toNat_of_nonneg (by omega)]; ring⟩
  have hn : ⌈L / T⌉.toNat = k + 1 := by rw [hk]; rfl
  have hlt : (k : ℚ) < L / T := by
    have h := Int.ceil_lt_add_one (L / T)
    rw [hk] at h
    push_cast at h
    linarith
  have hle : L / T ≤ (k : ℚ) + 1 := by
    have h := Int.le_ceil (L / T)
    rw [hk] at h
    push_cast at h
    exact h
  have hlt' : (k : ℚ) * T < L := (lt_div_iff₀ hT).mp hlt
  have hle' : L ≤ ((k : ℚ) + 1) * T := (div_le_iff₀ hT).mp hle
  have hfull : ∀ j : ℕ, j ≤ k →
      Finset.sum (Finset.range j) (fun (i : ℕ) => min T (L - (i : ℚ) * T)) = (j : ℚ) * T := by
    intro j
    induction j with
    | zero => intro _; simp
    | succ j ih =>
      intro hj
      rw [Finset.sum_range_succ, ih (by omega)]
      have h1 : ((j : ℚ) + 1) ≤ (k : ℚ) := by exact_mod_cast hj
      have h2 : ((j : ℚ) + 1) * T ≤ (k : ℚ) * T := mul_le_mul_of_nonneg_right h1 (le_of_lt hT)
      rw [min_eq_left (by linarith)]
      push_cast
      ring
  rw [hn, Finset.sum_range_succ, hfull k le_rfl, min_eq_right (by linarith)]
  ring

theorem tilesX_gridColumns : tilesX = gridColumns imageConfig := rfl

theorem tilesY_gridRows : tilesY = gridRows imageConfig := rfl

/-- The element created by `loadTile` has the rectangle `tileRect`. -/
theorem loadTile_tileRect (x y : ℤ) (w : World)
    (h : ¬ ((x, y) ∈ w.viewState.loadedTiles ∨ (w.viewState.tileElements (x, y)).isSome)) :
    (loadTile x y w).viewState.tileElements (x, y)
      = some { left := (tileRect imageConfig x y).1, top := (tileRect imageConfig x y).2.1,
               width := (tileRect imageConfig x y).2.2.1,
               height := (tileRect imageConfig x y).2.2.2,
               parentNode := true, content := TileContent.blank } := by
  unfold loadTile
  dsimp only
  rw [if_neg h]
  dsimp only
  rw [if_pos rfl]
  rfl

theorem lt_of_lt_ceil_div (L T : ℚ) (hT : 0 < T) (x : ℤ) (hx : x < ⌈L / T⌉) :
    (x : ℚ) * T < L := by
  have h := Int.lt_ceil.mp hx
  exact (lt_div_iff₀ hT).mp h

/-- C21. Tile rectangles.  For every configuration with positive width,
height and tile size (positive integers in particular) and every tile id with
0 <= x < tilesX and 0 <= y < tilesY, the rectangle computed by `loadTile` has
left = x * tileSize, top = y * tileSize,
width = min (tileSize, imageWidth - x * tileSize) and
height = min (tileSize, imageHeight - y * tileSize), with
0 < width <= tileSize and 0 < height <= tileSize; the widths over
x = 0 .. tilesX - 1 add up to imageWidth and the heights over
y = 0 .. tilesY - 1 add up to imageHeight.  For the configuration of the
script, `tilesX` and `tilesY` are these grid dimensions and the element that
`loadTile` creates for a new tile has this rectangle. -/
theorem tile_rectangles (cfg : ImageConfig) (x y : ℤ)
    (hW : 0 < cfg.width) (hH : 0 < cfg.height) (hT : 0 < cfg.tileSize)
    (hx : 0 ≤ x ∧ x < gridColumns cfg) (hy : 0 ≤ y ∧ y < gridRows cfg) :
    tileRect cfg x y
        = ((x : ℚ) * cfg.tileSize, (y : ℚ) * cfg.tileSize,
           min cfg.tileSize (cfg.width - (x : ℚ) * cfg.tileSize),
           min cfg.tileSize (cfg.height - (y : ℚ) * cfg.tileSize))
    ∧ (0 < (tileRect cfg x y).2.2.1 ∧ (tileRect cfg x y).2.2.1 ≤ cfg.tileSize)
    ∧ (0 < (tileRect cfg x y).2.2.2 ∧ (tileRect cfg x y).2.2.2 ≤ cfg.tileSize)
    ∧ Finset.sum (Finset.range (gridColumns cfg).toNat)
        (fun (i : ℕ) => (tileRect cfg (i : ℤ) y).2.2.1) = cfg.width
    ∧ Finset.sum (Finset.range (gridRows cfg).toNat)
        (fun (j : ℕ) => (tileRect cfg x (j : ℤ)).2.2.2) = cfg.height
    ∧ tilesX = gridColumns imageConfig ∧ tilesY = gridRows imageConfig
    ∧ (∀ w : World,
        ¬ ((x, y) ∈ w.viewState.loadedTiles ∨ (w.viewState.tileElements (x, y)).isSome) →
        (loadTile x y w).viewState.tileElements (x, y)
          = some { left := (tileRect imageConfig x y).1, top := (tileRect imageConfig x y).2.1,
                   width := (tileRect imageConfig x y).2.2.1,
                   height := (tileRect imageConfig x y).2.2.2,
                   parentNode := true, content := TileContent.blank }) := by
  have hxw := lt_of_lt_ceil_div cfg.width cfg.tileSize hT x hx.2
  have hyh := lt_of_lt_ceil_div cfg.height cfg.tileSize hT y hy.2
  refine ⟨rfl, ⟨?_, ?_⟩, ⟨?_, ?_⟩, ?_, ?_, rfl, rfl, fun w h => loadTile_tileRect x y w h⟩
  · show 0 < min cfg.tileSize (cfg.width - (x : ℚ) * cfg.tileSize)
    exact lt_min hT (by linarith)
  · exact min_le_left _ _
  · show 0 < min cfg.tileSize (cfg.height - (y : ℚ) * cfg.tileSize)
    exact lt_min hT (by linarith)
  · exact min_le_left _ _
  · have h := sum_min_pieces cfg.width cfg.tileSize hW hT
    unfold gridColumns tileRect
    simpa using h
  · have h := sum_min_pieces cfg.height cfg.tileSize hH hT
    unfold gridRows tileRect
    simpa using h

/-- C21 for the configuration of the script and the last tile (14, 3): its
rectangle is 1000 wide and 750 high at (14000, 3000). -/
theorem tile_rectangles_witness :
    (0 < imageConfig.width ∧ 0 < imageConfig.height ∧ 0 < imageConfig.tileSize)
    ∧ ((0 : ℤ) ≤ 14 ∧ (14 : ℤ) < gridColumns imageConfig)
    ∧ ((0 : ℤ) ≤ 3 ∧ (3 : ℤ) < gridRows imageConfig)
    ∧ tileRect imageConfig 14 3 = (14000, 3000, 1000, 750)
    ∧ Finset.sum (Finset.range (gridColumns imageConfig).toNat)
        (fun (i : ℕ) => (tileRect imageConfig (i : ℤ) 3).2.2.1) = imageConfig.width := by
  have hW : 0 < imageConfig.width := by norm_num [imageConfig]
  have hH : 0 < imageConfig.height := by norm_num [imageConfig]
  have hT : 0 < imageConfig.tileSize := by norm_num [imageConfig]
  have hx : (0 : ℤ) ≤ 14 ∧ (14 : ℤ) < gridColumns imageConfig := by
    rw [← tilesX_gridColumns, tilesX_eq]
    decide
  have hy : (0 : ℤ) ≤ 3 ∧ (3 : ℤ) < gridRows imageConfig := by
    rw [← tilesY_gridRows, tilesY_eq]
    decide
  have h := tile_rectangles imageConfig 14 3 hW hH hT hx hy
  refine ⟨⟨hW, hH, hT⟩, hx, hy, ?_, h.2.2.2.1⟩
  rw [h.1]
  norm_num [imageConfig]

/-! ## C23: the visible set by inequalities -/

theorem pannedUp_bufferedRect :
    bufferedRect sampleContainer pannedUpWorld.viewState = (0, 3800, 7400, 3750) := by
  rw [bufferedRect_eq]
  norm_num [sampleContainer, pannedUpWorld, initialWorld, initialViewState]

/-- C23, counterexample: in the 1280 x 720 container at scale 0.2 and
translate (0, -960) the image lies wholly above the container and the buffered
rectangle is inverted (bufferedTop = 3800 > bufferedBottom = 3750), yet the
visible set computed by `updateVisibleTiles` is not empty: it contains the
tile (0, 3). -/
theorem inverted_rect_not_empty :
    0 < pannedUpWorld.viewState.scale
    ∧ bufferedRect sampleContainer pannedUpWorld.viewState = (0, 3800, 7400, 3750)
    ∧ (bufferedRect sampleContainer pannedUpWorld.viewState).2.2.2
        < (bufferedRect sampleContainer pannedUpWorld.viewState).2.1
    ∧ ((0, 3) : TileId)
        ∈ (updateVisibleTiles sampleContainer true pannedUpWorld).viewState.visibleTiles
    ∧ (updateVisibleTiles sampleContainer true pannedUpWorld).viewState.visibleTiles ≠ [] := by
  have hmem : ((0, 3) : TileId)
      ∈ (updateVisibleTiles sampleContainer true pannedUpWorld).viewState.visibleTiles := by
    rw [updateVisibleTiles_visibleTiles, mem_visibleTileRange_iff, pannedUp_bufferedRect,
      tilesX_eq, tilesY_eq]
    norm_num [imageConfig]
  refine ⟨by norm_num [pannedUpWorld, initialViewState], pannedUp_bufferedRect, ?_, hmem,
    List.ne_nil_of_mem hmem⟩
  rw [pannedUp_bufferedRect]
  norm_num

/-- C23, amended. For every view state, translate and container size, a pair
(x, y) is in the visible set computed by `updateVisibleTiles` if and only if
it is a grid cell (0 <= x < tilesX, 0 <= y < tilesY) with
x * tileSize < bufferedRight, (x + 1) * tileSize > bufferedLeft,
y * tileSize < bufferedBottom and (y + 1) * tileSize > bufferedTop.
Consequently every id in the visible set is a valid tile id, and the set is
empty when the buffered rectangle is inverted by a tile size or more
(bufferedRight + tileSize <= bufferedLeft or
bufferedBottom + tileSize <= bufferedTop) or ends at or before the image
origin (bufferedRight <= 0 or bufferedBottom <= 0). -/
theorem visible_tiles_by_inequalities (c : Container) (forceUpdate : Bool) (w : World) :
    (∀ x y : ℤ,
      (x, y) ∈ (updateVisibleTiles c forceUpdate w).viewState.visibleTiles ↔
        ((0 ≤ x ∧ x < tilesX) ∧ (0 ≤ y ∧ y < tilesY))
        ∧ (x : ℚ) * imageConfig.tileSize < (bufferedRect c w.viewState).2.2.1
        ∧ (bufferedRect c w.viewState).1 < ((x : ℚ) + 1) * imageConfig.tileSize
        ∧ (y : ℚ) * imageConfig.tileSize < (bufferedRect c w.viewState).2.2.2
        ∧ (bufferedRect c w.viewState).2.1 < ((y : ℚ) + 1) * imageConfig.tileSize)
    ∧ (∀ id : TileId, id ∈ (updateVisibleTiles c forceUpdate w).viewState.visibleTiles →
        (0 ≤ id.1 ∧ id.1 < tilesX) ∧ (0 ≤ id.2 ∧ id.2 < tilesY))
    ∧ ((bufferedRect c w.viewState).2.2.1 + imageConfig.tileSize ≤ (bufferedRect c w.viewState).1
        ∨ (bufferedRect c w.viewState).2.2.2 + imageConfig.tileSize
            ≤ (bufferedRect c w.viewState).2.1
        ∨ (bufferedRect c w.viewState).2.2.1 ≤ 0
        ∨ (bufferedRect c w.viewState).2.2.2 ≤ 0 →
        (updateVisibleTiles c forceUpdate w).viewState.visibleTiles = []) := by
  have hiff : ∀ x y : ℤ,
      (x, y) ∈ (updateVisibleTiles c forceUpdate w).viewState.visibleTiles ↔
        ((0 ≤ x ∧ x < tilesX) ∧ (0 ≤ y ∧ y < tilesY))
        ∧ (x : ℚ) * imageConfig.tileSize < (bufferedRect c w.viewState).2.2.1
        ∧ (bufferedRect c w.viewState).1 < ((x : ℚ) + 1) * imageConfig.tileSize
        ∧ (y : ℚ) * imageConfig.tileSize < (bufferedRect c w.viewState).2.2.2
        ∧ (bufferedRect c w.viewState).2.1 < ((y : ℚ) + 1) * imageConfig.tileSize := by
    intro x y
    rw [updateVisibleTiles_visibleTiles]
    exact mem_visibleTileRange_iff c w.viewState x y
  refine ⟨hiff, ?_, ?_⟩
  · rintro ⟨x, y⟩ hid
    exact ((hiff x y).mp hid).1
  · intro hempty
    rw [List.eq_nil_iff_forall_not_mem]
    rintro ⟨x, y⟩ hid
    obtain ⟨⟨⟨hx0, -⟩, hy0, -⟩, h1, h2, h3, h4⟩ := (hiff x y).mp hid
    have hx0' : (0 : ℚ) ≤ (x : ℚ) := by exact_mod_cast hx0
    have hy0' : (0 : ℚ) ≤ (y : ℚ) := by exact_mod_cast hy0
    rw [imageConfig_tileSize] at h1 h2 h3 h4 hempty
    rcases hempty with h | h | h | h
    · linarith
    · linarith
    · linarith
    · linarith

/-- C23, amended, at the initial view in the 1280 x 720 container: the tile
(7, 3) is in the visible set and (8, 0) is not. -/
theorem visible_tiles_by_inequalities_witness :
    ((7, 3) : TileId)
        ∈ (updateVisibleTiles sampleContainer true initialWorld).viewState.visibleTiles
    ∧ ((8, 0) : TileId)
        ∉ (updateVisibleTiles sampleContainer true initialWorld).viewState.visibleTiles := by
  have h := (visible_tiles_by_inequalities sampleContainer true initialWorld).1
  constructor
  · rw [h 7 3, scenario_bufferedRect, tilesX_eq, tilesY_eq]
    norm_num [imageConfig]
  · rw [h 8 0, scenario_bufferedRect, tilesX_eq, tilesY_eq]
    norm_num [imageConfig]

/-! ## C25: the view after a reset -/

end TileViewer
